import Mathlib

/-!
Verification development for the digup directory-integrity tool.

The C sources (src/digup.c, src/digest.c) are shallowly embedded below:
strings become `List Char`, machine integers become `Int`/`Nat` (with an
explicit `% 2^32` where a C cast truncates), the two red-black trees become
ordered association lists, and the filesystem / hash primitives become
explicit oracle arguments.  All definitions are executable.
-/

set_option maxRecDepth 10000

namespace Digup

/-- C strings are byte strings; we model them as lists of characters
(all inputs of interest are 8-bit clean). -/
abbrev CStr := List Char

/-- C `isspace` in the POSIX locale. -/
def isSpaceC (c : Char) : Bool :=
  c = ' ' || c = '\t' || c = '\n' || c = '\x0b' || c = '\x0c' || c = '\r'

/-- C `isalpha` in the POSIX locale (ASCII letters). -/
def isAlphaC (c : Char) : Bool :=
  (c ≥ 'a' && c ≤ 'z') || (c ≥ 'A' && c ≤ 'Z')

/-- C `isdigit`. -/
def isDigitC (c : Char) : Bool := '0' ≤ c && c ≤ '9'

/-- C `isxdigit`. -/
def isXdigitC (c : Char) : Bool :=
  isDigitC c || ('a' ≤ c && c ≤ 'f') || ('A' ≤ c && c ≤ 'F')

/-- Word characters of the digest-comment scanner in `parse_digestline`
(`isalpha(line[p]) || line[p] == '\\'`). -/
def isWordC (c : Char) : Bool := isAlphaC c || c = '\\'

/-- `strcmp`-style lexicographic byte order on strings. -/
def cstr_lt : CStr → CStr → Bool
  | [], [] => false
  | [], _ :: _ => true
  | _ :: _, [] => false
  | a :: as, b :: bs =>
    if a.toNat < b.toNat then true
    else if b.toNat < a.toNat then false
    else cstr_lt as bs

/-- `a` occurs at the start of `b` (string positional match). -/
def cstr_starts (a b : CStr) : Bool :=
  match a, b with
  | [], _ => true
  | _ :: _, [] => false
  | x :: xs, y :: ys => x = y && cstr_starts xs ys

/-- `strstr(hay, needle) != NULL`: substring containment. -/
def cstr_contains (hay needle : CStr) : Bool :=
  match hay with
  | [] => cstr_starts needle []
  | _ :: rest => cstr_starts needle hay || cstr_contains rest needle

/-! ## Escape codec (src/digup.c lines 376-468) -/

/-- `unescape_filename`: transform each `\n` to a line feed and each `\\`
back to a backslash; any other escape, including a trailing bare
backslash, is an error (`none`). -/
def unescape_filename : CStr → Option CStr
  | [] => some []
  | c :: rest =>
    if c = '\\' then
      match rest with
      | [] => none
      | e :: rest2 =>
        if e = 'n' then (unescape_filename rest2).map (fun r => '\n' :: r)
        else if e = '\\' then (unescape_filename rest2).map (fun r => '\\' :: r)
        else none
    else (unescape_filename rest).map (fun r => c :: r)

/-- One character of the escaped form emitted by `needescape_filename`. -/
def escape_char (c : Char) : CStr :=
  if c = '\\' then ['\\', '\\']
  else if c = '\n' then ['\\', 'n']
  else [c]

/-- `needescape_filename`: count the characters needing escape; when the
count is zero the string is left untouched and `false` ("no escaping
needed") is reported, otherwise the escaped replacement and `true`. -/
def needescape_filename (s : CStr) : Bool × CStr :=
  let needescape := s.countP (fun c => c = '\\' || c = '\n')
  if needescape = 0 then (false, s)
  else (true, s.flatMap escape_char)

/-! ## Digest values (src/digest.c) -/

/-- A `digest_result` is its byte string; the size is the list length,
so equality and ordering are size-aware exactly as in the C. -/
abbrev Digest := List Nat

/-- `digest_equal`: sizes must agree, then `memcmp` on the bytes. -/
def digest_equal (a b : Digest) : Bool := a == b

/-- The `hexval` lookup table of `digest_hex2bin`: value of a hex digit,
case-insensitive, `none` for every other character. -/
def hexval (c : Char) : Option Nat :=
  if isDigitC c then some (c.toNat - '0'.toNat)
  else if c ≥ 'a' && c ≤ 'f' then some (10 + (c.toNat - 'a'.toNat))
  else if c ≥ 'A' && c ≤ 'F' then some (10 + (c.toNat - 'A'.toNat))
  else none

/-- `digest_hex2bin` on a whole string: reject odd length, then convert
pairs of hex digits to bytes, failing on any non-hex character. -/
def digest_hex2bin (s : CStr) : Option Digest :=
  if s.length % 2 ≠ 0 then none
  else hex2binAux s
where
  hex2binAux : CStr → Option Digest
  | [] => some []
  | [_] => none
  | c1 :: c2 :: rest =>
    match hexval c1, hexval c2 with
    | some h1, some h2 => (hex2binAux rest).map (fun r => (h1 * 16 + h2) :: r)
    | _, _ => none

/-- Lowercase hex digit of a nibble (`digest_bin2hex`'s table). -/
def hexDigit (n : Nat) : Char :=
  if n < 10 then Char.ofNat ('0'.toNat + n)
  else Char.ofNat ('a'.toNat + (n - 10))

/-- `digest_bin2hex`: two lowercase hex characters per byte. -/
def digest_bin2hex (d : Digest) : CStr :=
  d.flatMap (fun b => [hexDigit (b / 16 % 16), hexDigit (b % 16)])

/-! ## Decimal digits (strtoul / printf "%ld") -/

/-- Value of a run of decimal digits, as consumed by `strtoul` on the
digit run isolated by the parser. -/
def digitsToNat (acc : Nat) : CStr → Nat
  | [] => acc
  | c :: rest => if isDigitC c then digitsToNat (acc * 10 + (c.toNat - '0'.toNat)) rest else acc

/-- Decimal rendering of a natural number (printf `%ld`/`%lld` on a
non-negative value). -/
def natDec (n : Nat) : CStr :=
  if _h : n < 10 then [Char.ofNat ('0'.toNat + n)]
  else natDec (n / 10) ++ [Char.ofNat ('0'.toNat + n % 10)]
decreasing_by exact Nat.div_lt_self (by omega) (by omega)

/-! ## CRC-32

The implementation file crc32.c is not part of the sources given; only its
declaration (crc32.h) is.  Modelled from the spec: the missing `crc32`
function is the IEEE-802.3 reversed-form CRC-32 identical to zlib's
`crc32`, with the `crc32(0, buf, len)` convention (zlib applies the
pre/post XOR with 0xFFFFFFFF internally). -/

/-- Modelled from the spec: one byte step of the zlib CRC-32 (reversed
polynomial 0xEDB88320), operating on the pre/post-inverted register. -/
def crc32_byte (crc : Nat) (b : Nat) : Nat :=
  let c0 := (crc ^^^ b) % 4294967296
  (List.range 8).foldl
    (fun c _ => if c % 2 = 1 then (c / 2) ^^^ 0xEDB88320 else c / 2) c0

/-- Modelled from the spec: `crc32(crc, buf, len)` over a byte list. -/
def crc32 (crc : Nat) (buf : List Nat) : Nat :=
  let inv := crc ^^^ 0xFFFFFFFF
  (buf.foldl crc32_byte inv) ^^^ 0xFFFFFFFF

/-- Bytes of a line as fed to `crc32` while reading or writing. -/
def cstrBytes (s : CStr) : List Nat := s.map Char.toNat

/-- `my_asprintf("%08x", crc)`: exactly eight lowercase hex digits. -/
def hex8 (n : Nat) : CStr :=
  [hexDigit (n / 16 ^ 7 % 16), hexDigit (n / 16 ^ 6 % 16),
   hexDigit (n / 16 ^ 5 % 16), hexDigit (n / 16 ^ 4 % 16),
   hexDigit (n / 16 ^ 3 % 16), hexDigit (n / 16 ^ 2 % 16),
   hexDigit (n / 16 % 16), hexDigit (n % 16)]

/-! ## Data model (src/digup.c lines 44-71) -/

/-- `enum FileStatus`. -/
inductive FileStatus
  | FS_UNSEEN | FS_SEEN | FS_NEW | FS_TOUCHED | FS_CHANGED
  | FS_ERROR | FS_COPIED | FS_RENAMED | FS_OLDPATH | FS_SKIPPED
deriving DecidableEq, Repr

/-- `enum DigestType`. -/
inductive DigestType
  | DT_NONE | DT_MD5 | DT_SHA1 | DT_SHA256 | DT_SHA512
deriving DecidableEq, Repr

/-- `struct FileInfo`. -/
structure FileInfo where
  status : FileStatus
  mtime : Int
  size : Int
  error : Option CStr
  digest : Option Digest
  symlink : Option CStr
  oldpath : Option CStr
deriving DecidableEq, Repr

/-- A zeroed `FileInfo` with status `FS_UNSEEN` (`memset` + assignment in
`read_digestfile`). -/
def emptyFileInfo : FileInfo :=
  { status := .FS_UNSEEN, mtime := 0, size := 0,
    error := none, digest := none, symlink := none, oldpath := none }

/-- The red-black tree `g_filelist` in in-order form: an association list
ordered by `strcmp` on the path. -/
abbrev Table := List (CStr × FileInfo)

/-- `rb_find` on the path tree: the (unique) binding for a key. -/
def rb_find_str (t : Table) (k : CStr) : Option FileInfo :=
  (t.find? (fun r => r.1 == k)).map (fun r => r.2)

/-- `rb_insert` on the path tree, as its effect on the in-order list:
insert before the first strictly greater key (duplicate keys never occur,
every insertion is guarded by `rb_find`). -/
def rb_insert_str (k : CStr) (v : FileInfo) : Table → Table
  | [] => [(k, v)]
  | (k', v') :: t =>
    if cstr_lt k k' then (k, v) :: (k', v') :: t
    else (k', v') :: rb_insert_str k v t

/-- `memcmp` order on equal-length byte strings (`digest_cmp`'s second
stage). -/
def bytes_lt : List Nat → List Nat → Bool
  | [], [] => false
  | [], _ :: _ => true
  | _ :: _, [] => false
  | a :: as, b :: bs =>
    if a < b then true else if b < a then false else bytes_lt as bs

/-- `digest_cmp < 0`: compare sizes first, then the raw bytes. -/
def digest_lt (a b : Digest) : Bool :=
  if a.length = b.length then bytes_lt a b else decide (a.length < b.length)

/-- The digest→path multi-index `g_filedigestmap` in in-order form.
`rb_insert` sends an equal key to the right subtree, so among equal
digests the in-order position follows insertion order. -/
abbrev DigestMap := List (Digest × CStr)

/-- `rb_insert` on the digest tree: equal keys keep insertion order. -/
def rb_insert_digest (k : Digest) (v : CStr) : DigestMap → DigestMap
  | [] => [(k, v)]
  | (k', v') :: t =>
    if digest_lt k k' then (k, v) :: (k', v') :: t
    else (k', v') :: rb_insert_digest k v t

/-- `rb_find` on the digest tree followed by the `rb_successor` walk of
`process_file`: the contiguous run of entries with an equal digest,
starting at the leftmost match, as a list of paths. -/
def digest_find_run (d : Digest) : DigestMap → List CStr
  | [] => []
  | (d', p) :: rest =>
    if digest_equal d' d then
      p :: (rest.takeWhile (fun e => digest_equal e.1 d)).map (fun e => e.2)
    else digest_find_run d rest

/-! ## Digest-file parser (src/digup.c lines 645-1105, 1175-1306) -/

/-- Persistent parser state: the record table, the digest type inferred
so far (`gopt_digesttype`), and the persistent `--exclude-marker`
option. -/
structure ParseState where
  filelist : Table
  digesttype : DigestType
  exclude_marker : Option CStr
deriving DecidableEq, Repr

/-- Outcome of `parse_digestline`: the C return code (−2 eof, −1 error,
0 continue, +1 record committed) with the updated temporary record and
state, or a call to `exit()`. -/
inductive PLR where
  | ret (code : Int) (ti : FileInfo) (ps : ParseState)
  | exited (code : Int)
deriving DecidableEq, Repr

/-- Head of the rest of the line is a space or the terminating NUL
(`isspace(line[p]) || line[p] == 0` after a word scan). -/
def headSpaceOrNil : CStr → Bool
  | [] => true
  | c :: _ => isSpaceC c

theorem length_dropWhile_le (p : Char → Bool) (l : List Char) :
    (l.dropWhile p).length ≤ l.length := by
  induction l with
  | nil => simp [List.dropWhile]
  | cons c t ih =>
    simp only [List.dropWhile]
    by_cases h : p c
    · simp [h]; omega
    · simp [h]

/-- Each continuing iteration of the keyword loop consumes at least one
character: the scanner is positioned on a space-or-end only after
sweeping past a nonempty word or some leading whitespace. -/
theorem parse_words_dec (c : Char) (tl : List Char) (f g : Char → Bool)
    (h : headSpaceOrNil (List.dropWhile isWordC
          (List.dropWhile isSpaceC (c :: tl))) = true) :
    (List.dropWhile g (List.dropWhile f (List.dropWhile isWordC
      (List.dropWhile isSpaceC (c :: tl))))).length < (c :: tl).length := by
  by_cases hs : isSpaceC c
  · have h1 : List.dropWhile isSpaceC (c :: tl) = List.dropWhile isSpaceC tl := by
      simp [List.dropWhile, hs]
    rw [h1]
    calc (List.dropWhile g (List.dropWhile f (List.dropWhile isWordC
            (List.dropWhile isSpaceC tl)))).length
        ≤ tl.length := le_trans (length_dropWhile_le _ _)
          (le_trans (length_dropWhile_le _ _)
            (le_trans (length_dropWhile_le _ _) (length_dropWhile_le _ _)))
      _ < (c :: tl).length := by simp
  · have h1 : List.dropWhile isSpaceC (c :: tl) = c :: tl := by
      simp [List.dropWhile, hs]
    rw [h1] at h ⊢
    by_cases hw : isWordC c
    · have h2 : List.dropWhile isWordC (c :: tl) = List.dropWhile isWordC tl := by
        simp [List.dropWhile, hw]
      rw [h2]
      calc (List.dropWhile g (List.dropWhile f (List.dropWhile isWordC tl))).length
          ≤ tl.length := le_trans (length_dropWhile_le _ _)
            (le_trans (length_dropWhile_le _ _) (length_dropWhile_le _ _))
        _ < (c :: tl).length := by simp
    · have h2 : List.dropWhile isWordC (c :: tl) = c :: tl := by
        simp [List.dropWhile, hw]
      rw [h2] at h
      simp [headSpaceOrNil, hs] at h

/-- The `crc` branch recursion consumes the `0x` marker and the hex run. -/
theorem parse_words_dec_crc (c : Char) (tl : List Char) (g : Char → Bool)
    (r4 : List Char)
    (h : List.dropWhile isSpaceC (List.dropWhile isWordC
          (List.dropWhile isSpaceC (c :: tl))) = '0' :: 'x' :: r4) :
    (List.dropWhile g r4).length < (c :: tl).length := by
  have h1 : ('0' :: 'x' :: r4).length ≤ (c :: tl).length := by
    rw [← h]
    exact le_trans (length_dropWhile_le _ _)
      (le_trans (length_dropWhile_le _ _) (length_dropWhile_le _ _))
  have h2 : (List.dropWhile g r4).length ≤ r4.length := length_dropWhile_le _ _
  simp only [List.length_cons] at h1 ⊢
  omega

/-- The `while (line[p])` keyword loop of `parse_digestline` for `#:`
comment lines.  `strncmp(line+p_word, KW, p-p_word) == 0` holds exactly
when the scanned word is a (possibly empty or full) prefix of `KW`,
which is what `cstr_starts word KW` captures. -/
def parse_words (batch promptYes : Bool) (crc : Nat) :
    CStr → FileInfo → ParseState → PLR
  | [], ti, ps => .ret 0 ti ps
  | rest@(_ :: _), ti, ps =>
    let r1 := rest.dropWhile isSpaceC
    let word := r1.takeWhile isWordC
    let r2 := r1.dropWhile isWordC
    if ¬ headSpaceOrNil r2 then .ret (-1) ti ps
    else if h₁ : cstr_starts word ("option".data) then
      let r3 := r2.dropWhile isSpaceC
      let optname := r3.takeWhile (fun c => c ≠ '=')
      let r4 := r3.dropWhile (fun c => c ≠ '=')
      if cstr_starts optname ("--exclude-marker".data) && r4.head? = some '=' then
        .ret 0 ti { ps with exclude_marker := some r4.tail }
      else .ret (-1) ti ps
    else if cstr_starts word ("mtime".data) then
      let r3 := r2.dropWhile isSpaceC
      let digs := r3.takeWhile isDigitC
      let r4 := r3.dropWhile isDigitC
      if ¬ headSpaceOrNil r4 then .ret (-1) ti ps
      else parse_words batch promptYes crc r4
        { ti with mtime := (digitsToNat 0 digs : Nat) } ps
    else if cstr_starts word ("size".data) then
      let r3 := r2.dropWhile isSpaceC
      let digs := r3.takeWhile isDigitC
      let r4 := r3.dropWhile isDigitC
      if ¬ headSpaceOrNil r4 then .ret (-1) ti ps
      else parse_words batch promptYes crc r4
        { ti with size := (digitsToNat 0 digs : Nat) } ps
    else if cstr_starts word ("target".data) then
      match r2 with
      | c :: r3 =>
        if isSpaceC c then .ret 0 { ti with symlink := some r3 } ps
        else .ret (-1) ti ps
      | [] => .ret (-1) ti ps
    else if cstr_starts word ("target\\".data) then
      match r2 with
      | c :: r3 =>
        if isSpaceC c then
          match unescape_filename r3 with
          | some s => .ret 0 { ti with symlink := some s } ps
          | none => .ret (-1) ti ps
        else .ret (-1) ti ps
      | [] => .ret (-1) ti ps
    else if cstr_starts word ("symlink".data) then
      match r2 with
      | c :: r3 =>
        if isSpaceC c then
          if (rb_find_str ps.filelist r3).isSome then .ret (-1) ti ps
          else .ret 1 ti { ps with filelist := rb_insert_str r3 ti ps.filelist }
        else .ret (-1) ti ps
      | [] => .ret (-1) ti ps
    else if cstr_starts word ("symlink\\".data) then
      match r2 with
      | c :: r3 =>
        if isSpaceC c then
          match unescape_filename r3 with
          | some filename =>
            if (rb_find_str ps.filelist filename).isSome then .ret (-1) ti ps
            else .ret 1 ti { ps with filelist := rb_insert_str filename ti ps.filelist }
          | none => .ret (-1) ti ps
        else .ret (-1) ti ps
      | [] => .ret (-1) ti ps
    else if h₂ : cstr_starts word ("crc".data) then
      let r3 := r2.dropWhile isSpaceC
      match h₃ : r3 with
      | '0' :: 'x' :: r4 =>
        let hexs := r4.takeWhile isXdigitC
        let r5 := r4.dropWhile isXdigitC
        if hexs.length ≠ 8 then .ret 0 ti ps
        else if hexs ≠ hex8 crc then
          if batch then .exited (-1)
          else if promptYes then parse_words batch promptYes crc r5 ti ps
          else .exited (-1)
        else parse_words batch promptYes crc r5 ti ps
      | _ => .ret 0 ti ps
    else if cstr_starts word ("eof".data) then .ret (-2) ti ps
    else .ret (-1) ti ps
termination_by rest => rest.length
decreasing_by
  all_goals
    subst_vars
    first
      | exact parse_words_dec _ _ _ _ (of_not_not (by assumption))
      | exact parse_words_dec_crc _ _ _ _ (by assumption)

/-- A digest-record line (the non-`#` branch of `parse_digestline`),
already stripped of leading whitespace. -/
def parse_recordline (l1 : CStr) (ti : FileInfo) (ps : ParseState) : PLR :=
  let esc := l1.head? = some '\\'
  let l2 := if esc then l1.tail else l1
  let hexs := l2.takeWhile isXdigitC
  let l3 := l2.dropWhile isXdigitC
  if ¬ headSpaceOrNilStrict l3 then .ret (-1) ti ps
  else
    let dtd : Option (DigestType × Option Digest) :=
      if hexs.length = 32 then some (.DT_MD5, digest_hex2bin hexs)
      else if hexs.length = 40 then some (.DT_SHA1, digest_hex2bin hexs)
      else if hexs.length = 64 then some (.DT_SHA256, digest_hex2bin hexs)
      else if hexs.length = 128 then some (.DT_SHA512, digest_hex2bin hexs)
      else none
    match dtd with
    | none => .ret (-1) ti ps
    | some (_, none) => .ret (-1) ti ps
    | some (dt, some dg) =>
      if ps.digesttype ≠ .DT_NONE ∧ dt ≠ ps.digesttype then .exited 0
      else
        match l3 with
        | [] => .ret (-1) ti ps
        | _ :: l4 =>
          match l4 with
          | [] => .ret (-1) ti ps
          | t :: l5 =>
            if t ≠ ' ' ∧ t ≠ '*' then .ret (-1) ti ps
            else
              match (if esc then unescape_filename l5 else some l5) with
              | none => .ret (-1) ti ps
              | some filename =>
                if (rb_find_str ps.filelist filename).isSome then .ret (-1) ti ps
                else .ret 1 ti
                  { ps with
                    filelist := rb_insert_str filename
                      { ti with digest := some dg } ps.filelist,
                    digesttype := dt }
where
  /-- `isspace(line[p])` directly (NUL is not a space here). -/
  headSpaceOrNilStrict : CStr → Bool
  | [] => false
  | c :: _ => isSpaceC c

/-- `parse_digestline` on one NUL-stripped line. -/
def parse_digestline (batch promptYes : Bool) (line : CStr) (ti : FileInfo)
    (ps : ParseState) (crc : Nat) : PLR :=
  let l1 := line.dropWhile isSpaceC
  match l1 with
  | '#' :: r =>
    match r with
    | ':' :: r2 => parse_words batch promptYes crc r2 ti ps
    | _ => .ret 0 ti ps
  | _ => parse_recordline l1 ti ps

/-- The loop state of `read_digestfile`. -/
structure RdState where
  ps : ParseState
  ti : FileInfo
  crc : Nat
  res : Int
deriving DecidableEq, Repr

/-- Remove the one trailing line feed `read_digestfile` NULs out. -/
def stripNL (l : CStr) : CStr :=
  match l.getLast? with
  | some '\n' => l.dropLast
  | _ => l

/-- The `getline` loop of `read_digestfile` over the file's lines (each
still carrying its terminator).  The CRC handed to `parse_digestline` is
the running CRC from *before* the current line; the CRC including the
current line only becomes current afterwards (`crc = nextcrc`).  An
`exit()` inside parsing surfaces as `.error code`. -/
def read_lines (batch promptYes : Bool) : List CStr → RdState → Except Int RdState
  | [], st => .ok st
  | line :: rest, st =>
    let nextcrc := crc32 st.crc (cstrBytes line)
    match parse_digestline batch promptYes (stripNL line) st.ti st.ps st.crc with
    | .exited c => .error c
    | .ret r ti' ps' =>
      read_lines batch promptYes rest
        ⟨ps', if r ≠ 0 then emptyFileInfo else ti', nextcrc, r⟩

/-- Initial loop state of `read_digestfile`: empty table, digest type and
exclude marker as left by the command line, CRC 0, a zeroed temporary
record. -/
def read_digestfile_init (dt : DigestType) (marker : Option CStr) : RdState :=
  ⟨⟨[], dt, marker⟩, emptyFileInfo, 0, 0⟩

/-- `gopt_matchpattern && strstr(path, gopt_matchpattern) == NULL`:
a set restrict pattern that the path does not contain. -/
def restrict_miss (mp : Option CStr) (k : CStr) : Bool :=
  match mp with
  | some pat => ! cstr_contains k pat
  | none => false

/-- The post-loop pass of `read_digestfile`: mark records not matching
`--restrict` as SKIPPED. -/
def mark_restrict (mp : Option CStr) (t : Table) : Table :=
  t.map (fun r =>
    if restrict_miss mp r.1 then (r.1, { r.2 with status := .FS_SKIPPED })
    else r)

/-- The post-loop pass of `read_digestfile`: insert every record's digest
into the digest→path multi-index (records are visited in path order). -/
def build_digestmap (t : Table) : DigestMap :=
  t.foldl (fun m r =>
    match r.2.digest with
    | some d => rb_insert_digest d r.1 m
    | none => m) []

/-! ## Scan state and reconciler (src/digup.c lines 1312-1728) -/

/-- The global option variables relevant to the reconciler. -/
structure Opts where
  digestfile : CStr
  matchpattern : Option CStr
  fullcheck : Bool
  modify_window : Nat
deriving DecidableEq, Repr

/-- The fields of `struct stat` the reconciler reads. -/
structure Stat where
  st_mtime : Int
  st_size : Int
deriving DecidableEq, Repr

/-- The mutable globals of the scan: the two trees and the status
counters. -/
structure ScanState where
  filelist : Table
  digestmap : DigestMap
  g_filelist_seen : Nat
  g_filelist_new : Nat
  g_filelist_touched : Nat
  g_filelist_changed : Nat
  g_filelist_error : Nat
  g_filelist_copied : Nat
  g_filelist_renamed : Nat
  g_filelist_oldpath : Nat
  g_filelist_skipped : Nat
deriving DecidableEq, Repr

/-- In-place mutation of the `FileInfo` at a key (the record's node keeps
its position in the tree). -/
def updateRec (k : CStr) (w : FileInfo) : Table → Table
  | [] => []
  | (k', v') :: t =>
    if k' == k then (k', w) :: t else (k', v') :: updateRec k w t

/-- Strip a leading `./` (`if (filepath[0]=='.' && filepath[1]=='/')`). -/
def canon_path (p : CStr) : CStr :=
  match p with
  | '.' :: '/' :: rest => rest
  | _ => p

/-- The OLDPATH marking applied to one matching candidate whose original
path no longer exists (src/digup.c lines 1469-1490): only an UNSEEN
record is mutated; an OLDPATH record is left alone; anything else is a
logged bug with no mutation. -/
def mark_oldpath (s : ScanState) (path : CStr) : ScanState :=
  match rb_find_str s.filelist path with
  | none => s
  | some fc =>
    if fc.status = .FS_UNSEEN then
      { s with
        filelist := updateRec path { fc with status := .FS_OLDPATH } s.filelist,
        g_filelist_oldpath := s.g_filelist_oldpath + 1 }
    else s

/-- The candidate walk of `process_file` (lines 1455-1493): visit every
digest-equal entry; a surviving original makes the walk report `copied`
and remembers that survivor; a vanished original is OLDPATH-marked. -/
def scan_candidates (accessOk : CStr → Bool) :
    List CStr → Bool × CStr × ScanState → Bool × CStr × ScanState
  | [], acc => acc
  | c :: rest, (copied, iter, s) =>
    if accessOk c then scan_candidates accessOk rest (true, c, s)
    else scan_candidates accessOk rest (copied, iter, mark_oldpath s c)

/-- `process_file`.  The filesystem is an explicit oracle: `st` is the
`lstat` result, `digRes` the outcome of `digest_file` (digest of the
current content, or the error string), `accessOk` the `access(…, F_OK)`
check.  The `(unsigned int)labs(…)` cast truncates the absolute mtime
difference to 32 bits before the window comparison. -/
def process_file (opts : Opts) (st : Stat) (digRes : Except CStr Digest)
    (accessOk : CStr → Bool) (s : ScanState) (filepath0 : CStr) :
    ScanState × Bool :=
  let filepath := canon_path filepath0
  if filepath == opts.digestfile then (s, true)
  else if restrict_miss opts.matchpattern filepath then (s, true)
  else
    match rb_find_str s.filelist filepath with
    | some fileinfo =>
      if fileinfo.status ≠ .FS_UNSEEN then (s, true)
      else if ¬ opts.fullcheck ∧
          ¬ ((st.st_mtime - fileinfo.mtime).natAbs % 4294967296
                > opts.modify_window ∨
             st.st_size ≠ fileinfo.size) then
        ({ s with
           filelist := updateRec filepath
             { fileinfo with status := .FS_SEEN } s.filelist,
           g_filelist_seen := s.g_filelist_seen + 1 }, true)
      else
        match digRes with
        | .error e =>
          ({ s with
             filelist := updateRec filepath
               { fileinfo with
                   status := .FS_ERROR
                   error := some e
                   mtime := st.st_mtime
                   size := st.st_size } s.filelist,
             g_filelist_error := s.g_filelist_error + 1 }, false)
        | .ok filedigest =>
          if (match fileinfo.digest with
              | some d => digest_equal filedigest d
              | none => false) then
            ({ s with
               filelist := updateRec filepath
                 { fileinfo with
                     status := .FS_TOUCHED
                     mtime := st.st_mtime
                     size := st.st_size } s.filelist,
               g_filelist_touched := s.g_filelist_touched + 1 }, true)
          else
            ({ s with
               filelist := updateRec filepath
                 { fileinfo with
                     status := .FS_CHANGED
                     mtime := st.st_mtime
                     size := st.st_size
                     digest := some filedigest } s.filelist,
               g_filelist_changed := s.g_filelist_changed + 1 }, true)
    | none =>
      let base : FileInfo :=
        { status := .FS_NEW, mtime := st.st_mtime, size := st.st_size,
          error := none, digest := none, symlink := none, oldpath := none }
      match digRes with
      | .error e =>
        ({ s with
           filelist := rb_insert_str filepath
             { base with status := .FS_ERROR, error := some e } s.filelist,
           g_filelist_error := s.g_filelist_error + 1 }, false)
      | .ok filedigest =>
        match digest_find_run filedigest s.digestmap with
        | [] =>
          ({ s with
             filelist := rb_insert_str filepath
               { base with digest := some filedigest } s.filelist,
             g_filelist_new := s.g_filelist_new + 1 }, true)
        | c0 :: crest =>
          match scan_candidates accessOk (c0 :: crest) (false, c0, s) with
          | (copied, iter, s1) =>
            ({ s1 with
               filelist := rb_insert_str filepath
                 { base with
                   status := if copied then .FS_COPIED else .FS_RENAMED,
                   digest := some filedigest,
                   oldpath := some iter } s1.filelist,
               g_filelist_copied :=
                 if copied then s1.g_filelist_copied + 1
                 else s1.g_filelist_copied,
               g_filelist_renamed :=
                 if copied then s1.g_filelist_renamed
                 else s1.g_filelist_renamed + 1 }, true)

/-- `process_symlink`.  `linkRes` is the `readlink_dup` outcome.  Note
the fast path compares the mtimes for exact equality (`st->st_mtime !=
fileinfo->mtime`), with no modify-window slack. -/
def process_symlink (opts : Opts) (st : Stat) (linkRes : Option CStr)
    (s : ScanState) (filepath0 : CStr) : ScanState × Bool :=
  let filepath := canon_path filepath0
  if filepath == opts.digestfile then (s, true)
  else if restrict_miss opts.matchpattern filepath then (s, true)
  else
    match rb_find_str s.filelist filepath with
    | some fileinfo =>
      if fileinfo.status ≠ .FS_UNSEEN then (s, true)
      else if ¬ opts.fullcheck ∧
          ¬ (st.st_mtime ≠ fileinfo.mtime ∨ st.st_size ≠ fileinfo.size) then
        ({ s with
           filelist := updateRec filepath
             { fileinfo with status := .FS_SEEN } s.filelist,
           g_filelist_seen := s.g_filelist_seen + 1 }, true)
      else
        match linkRes with
        | none =>
          ({ s with
             filelist := updateRec filepath
               { fileinfo with
                   status := .FS_ERROR
                   error := some ("Could not read symlink.".data)
                   mtime := st.st_mtime
                   size := st.st_size } s.filelist,
             g_filelist_error := s.g_filelist_error + 1 }, false)
        | some linktarget =>
          if (match fileinfo.symlink with
              | some t => t == linktarget
              | none => false) then
            ({ s with
               filelist := updateRec filepath
                 { fileinfo with
                     status := .FS_TOUCHED
                     mtime := st.st_mtime
                     size := st.st_size } s.filelist,
               g_filelist_touched := s.g_filelist_touched + 1 }, true)
          else
            ({ s with
               filelist := updateRec filepath
                 { fileinfo with
                     status := .FS_CHANGED
                     mtime := st.st_mtime
                     size := st.st_size
                     symlink := some linktarget } s.filelist,
               g_filelist_changed := s.g_filelist_changed + 1 }, true)
    | none =>
      let base : FileInfo :=
        { status := .FS_NEW, mtime := st.st_mtime, size := st.st_size,
          error := none, digest := none, symlink := none, oldpath := none }
      match linkRes with
      | none =>
        ({ s with
           filelist := rb_insert_str filepath
             { base with
                 status := .FS_ERROR
                 error := some ("Could not read symlink.".data) } s.filelist,
           g_filelist_error := s.g_filelist_error + 1 }, false)
      | some linktarget =>
        ({ s with
           filelist := rb_insert_str filepath
             { base with symlink := some linktarget } s.filelist,
           g_filelist_new := s.g_filelist_new + 1 }, true)

/-- The scan state as set up by `main` after `read_digestfile`: table
with the restrict marking applied, derived digest map, skipped counter
from the marking pass, every other counter zero. -/
def init_scan (mp : Option CStr) (t : Table) : ScanState :=
  let t' := mark_restrict mp t
  { filelist := t', digestmap := build_digestmap t',
    g_filelist_seen := 0, g_filelist_new := 0, g_filelist_touched := 0,
    g_filelist_changed := 0, g_filelist_error := 0, g_filelist_copied := 0,
    g_filelist_renamed := 0, g_filelist_oldpath := 0,
    g_filelist_skipped := t'.countP (fun r => r.2.status == .FS_SKIPPED) }

/-! ## Review surface (src/digup.c lines 2008-2050, 2664-2678) -/

/-- `rb_size(g_filelist)`. -/
def rb_size (t : Table) : Nat := t.length

/-- `filelist_clean`: the table size equals the seen plus touched
counters. -/
def filelist_clean (s : ScanState) : Bool :=
  rb_size s.filelist == s.g_filelist_seen + s.g_filelist_touched

/-- The batch-mode exit code computed at the end of `main` (lines
2674-2677). -/
def main_batch_retcode (s : ScanState) : Int :=
  if filelist_clean s then 0 else 1

/-! ## Digest-file serializer `cmd_write` (src/digup.c lines 2282-2379) -/

/-- The negation of the three `continue` guards of the emission loop:
a record is written unless its status is UNSEEN, ERROR or OLDPATH. -/
def writable_status (st : FileStatus) : Bool :=
  ! (st == .FS_UNSEEN || st == .FS_ERROR || st == .FS_OLDPATH)

/-- printf `%ld` / `%lld`. -/
def intDec (n : Int) : CStr :=
  if n < 0 then '-' :: natDec n.natAbs else natDec n.toNat

/-- The line(s) `cmd_write` emits for one record: a metadata comment
plus either a `#: symlink` comment or a digest-record line. -/
def record_lines (r : CStr × FileInfo) : List CStr :=
  match r.2.symlink with
  | some target =>
    let et := needescape_filename target
    let line1 := "#: mtime ".data ++ intDec r.2.mtime ++ " size ".data
      ++ intDec r.2.size
      ++ (if et.1 then " target\\ ".data else " target ".data)
      ++ et.2 ++ ['\n']
    let ef := needescape_filename r.1
    let line2 := (if ef.1 then "#: symlink\\ ".data else "#: symlink ".data)
      ++ ef.2 ++ ['\n']
    [line1, line2]
  | none =>
    let line1 := "#: mtime ".data ++ intDec r.2.mtime ++ " size ".data
      ++ intDec r.2.size ++ ['\n']
    let ef := needescape_filename r.1
    let dg := match r.2.digest with | some d => d | none => []
    let line2 := (if ef.1 then ['\\'] else [])
      ++ digest_bin2hex dg ++ [' ', ' '] ++ ef.2 ++ ['\n']
    [line1, line2]

/-- `cmd_write` as the list of lines it writes: header comment,
persistent options, the writable records in table (= path) order, and
the trailer carrying the CRC-32 of everything before it.  `hdr` stands
for the `"<progname> last update: <timestamp>"` text. -/
def cmd_write_lines (hdr : CStr) (marker : Option CStr) (t : Table) :
    List CStr :=
  let header := '#' :: ' ' :: (hdr ++ ['\n'])
  let optlines : List CStr :=
    match marker with
    | some m => ["#: option --exclude-marker=".data ++ m ++ ['\n']]
    | none => []
  let body := header :: (optlines
    ++ (t.filter (fun r => writable_status r.2.status)).flatMap record_lines)
  let crc := crc32 0 (cstrBytes body.flatten)
  body ++ ["#: crc 0x".data ++ hex8 crc ++ " eof".data ++ ['\n']]

/-! ## Escape codec lemmas -/

theorem unescape_nil : unescape_filename [] = some [] := rfl

theorem unescape_single (c : Char) :
    unescape_filename [c] = if c = '\\' then none else some [c] := rfl

theorem unescape_cons2 (c e : Char) (rest : CStr) :
    unescape_filename (c :: e :: rest) =
      if c = '\\' then
        (if e = 'n' then (unescape_filename rest).map (fun r => '\n' :: r)
         else if e = '\\' then (unescape_filename rest).map (fun r => '\\' :: r)
         else none)
      else (unescape_filename (e :: rest)).map (fun r => c :: r) := rfl

theorem unescape_no_backslash (p : CStr) (h : '\\' ∉ p) :
    unescape_filename p = some p := by
  induction p with
  | nil => rfl
  | cons c rest ih =>
    have hc : c ≠ '\\' := by intro hc; exact h (hc ▸ List.mem_cons_self c rest)
    have hr : '\\' ∉ rest := fun hm => h (List.mem_cons_of_mem c hm)
    cases rest with
    | nil => rw [unescape_single, if_neg hc]
    | cons e rest2 =>
      rw [unescape_cons2, if_neg hc, ih hr]
      rfl

/-- Decoding one escaped character prepended to an already-decodable
tail. -/
theorem unescape_escape_char_append (c : Char) (tail q : CStr)
    (htail : unescape_filename tail = some q) :
    unescape_filename (escape_char c ++ tail) = some (c :: q) := by
  by_cases hb : c = '\\'
  · subst hb
    have he : escape_char '\\' = ['\\', '\\'] := rfl
    rw [he, List.cons_append, List.cons_append, List.nil_append,
      unescape_cons2, if_pos rfl, if_neg (by decide), if_pos rfl, htail]
    rfl
  · by_cases hn : c = '\n'
    · subst hn
      have he : escape_char '\n' = ['\\', 'n'] := rfl
      rw [he, List.cons_append, List.cons_append, List.nil_append,
        unescape_cons2, if_pos rfl, if_pos rfl, htail]
      rfl
    · have he : escape_char c = [c] := by
        simp only [escape_char, if_neg hb, if_neg hn]
      rw [he, List.cons_append, List.nil_append]
      cases tail with
      | nil =>
        rw [unescape_nil] at htail
        injection htail with hq
        rw [unescape_single, if_neg hb, ← hq]
      | cons d r2 =>
        rw [unescape_cons2, if_neg hb, htail]
        rfl

theorem unescape_escape_char (p : CStr) :
    unescape_filename (p.flatMap escape_char) = some p := by
  induction p with
  | nil => rfl
  | cons c rest ih =>
    rw [List.flatMap_cons]
    exact unescape_escape_char_append c _ rest ih

theorem unescape_cons_of_ne (c : Char) (tail : CStr) (hc : c ≠ '\\') :
    unescape_filename (c :: tail) =
      (unescape_filename tail).map (fun r => c :: r) := by
  cases tail with
  | nil => rw [unescape_single, if_neg hc]; rfl
  | cons e r2 => rw [unescape_cons2, if_neg hc]

theorem unescape_bad_escape (s t : CStr) (a : Char)
    (hs : '\\' ∉ s) (han : a ≠ 'n') (hab : a ≠ '\\') :
    unescape_filename (s ++ '\\' :: a :: t) = none := by
  induction s with
  | nil =>
    rw [List.nil_append, unescape_cons2, if_pos rfl, if_neg han, if_neg hab]
  | cons c s' ih =>
    have hc : c ≠ '\\' := by intro hc; exact hs (hc ▸ List.mem_cons_self c s')
    have hs' : '\\' ∉ s' := fun hm => hs (List.mem_cons_of_mem c hm)
    rw [List.cons_append, unescape_cons_of_ne c _ hc, ih hs']
    rfl

theorem unescape_trailing_backslash (s : CStr) (hs : '\\' ∉ s) :
    unescape_filename (s ++ ['\\']) = none := by
  induction s with
  | nil => rw [List.nil_append, unescape_single, if_pos rfl]
  | cons c s' ih =>
    have hc : c ≠ '\\' := by intro hc; exact hs (hc ▸ List.mem_cons_self c s')
    have hs' : '\\' ∉ s' := fun hm => hs (List.mem_cons_of_mem c hm)
    rw [List.cons_append, unescape_cons_of_ne c _ hc, ih hs']
    rfl

theorem needescape_eq_self_iff (p : CStr) :
    needescape_filename p = (false, p) ↔ ('\\' ∉ p ∧ '\n' ∉ p) := by
  unfold needescape_filename
  by_cases h : p.countP (fun c => c = '\\' || c = '\n') = 0
  · rw [if_pos h]
    have h2 := List.countP_eq_zero.mp h
    constructor
    · intro _
      refine ⟨fun hm => ?_, fun hm => ?_⟩
      · have := h2 _ hm
        simp at this
      · have := h2 _ hm
        simp at this
    · intro _; rfl
  · rw [if_neg h]
    constructor
    · intro hfalse
      exact absurd (congrArg Prod.fst hfalse) (by simp)
    · intro ⟨h1, h2⟩
      exfalso
      apply h
      rw [List.countP_eq_zero]
      intro c hm
      simp only [Bool.or_eq_true, decide_eq_true_eq, not_or]
      exact ⟨fun hc => h1 (hc ▸ hm), fun hc => h2 (hc ▸ hm)⟩

/-- C7: the escape codec laws.  `encode` is `needescape_filename`
(returning whether escaping was applied together with the emitted
string) and `decode` is `unescape_filename`: decoding inverts encoding;
the string is reported as needing no escape exactly when it has neither
a backslash nor a line feed; and any backslash followed by a character
other than `n` or `\`, including a trailing bare backslash, makes
decoding fail. -/
theorem claim_C7 :
    (∀ p : CStr, p.getLast? ≠ some '\\' →
        unescape_filename (needescape_filename p).2 = some p)
    ∧ (∀ p : CStr, needescape_filename p = (false, p) ↔
        ('\\' ∉ p ∧ '\n' ∉ p))
    ∧ (∀ (s t : CStr) (a : Char), '\\' ∉ s → a ≠ 'n' → a ≠ '\\' →
        unescape_filename (s ++ '\\' :: a :: t) = none)
    ∧ (∀ s : CStr, '\\' ∉ s → unescape_filename (s ++ ['\\']) = none) := by
  refine ⟨fun p _ => ?_, needescape_eq_self_iff, unescape_bad_escape,
    unescape_trailing_backslash⟩
  unfold needescape_filename
  by_cases h : p.countP (fun c => c = '\\' || c = '\n') = 0
  · rw [if_pos h]
    have h2 := List.countP_eq_zero.mp h
    apply unescape_no_backslash
    intro hm
    have := h2 _ hm
    simp at this
  · rw [if_neg h]
    exact unescape_escape_char p

/-- Witness for C7 at concrete inputs. -/
theorem claim_C7_witness :
    unescape_filename (needescape_filename ("a\\b\n".data)).2 =
      some ("a\\b\n".data)
    ∧ unescape_filename ("x".data ++ '\\' :: 'q' :: []) = none
    ∧ unescape_filename ("x".data ++ ['\\']) = none :=
  ⟨claim_C7.1 _ (by decide),
   claim_C7.2.2.1 _ _ _ (by decide) (by decide) (by decide),
   claim_C7.2.2.2 _ (by decide)⟩

/-! ## Hex conversion lemmas (C10) -/

/-- The lowercase letter corresponding to an uppercase hex letter;
other characters unchanged. -/
def lowerHexChar (c : Char) : Char :=
  if c = 'A' then 'a' else if c = 'B' then 'b' else if c = 'C' then 'c'
  else if c = 'D' then 'd' else if c = 'E' then 'e' else if c = 'F' then 'f'
  else c

theorem hexval_lowerHexChar (c : Char) :
    hexval (lowerHexChar c) = hexval c := by
  by_cases hA : c = 'A'; · subst hA; decide
  by_cases hB : c = 'B'; · subst hB; decide
  by_cases hC : c = 'C'; · subst hC; decide
  by_cases hD : c = 'D'; · subst hD; decide
  by_cases hE : c = 'E'; · subst hE; decide
  by_cases hF : c = 'F'; · subst hF; decide
  simp only [lowerHexChar, if_neg hA, if_neg hB, if_neg hC, if_neg hD,
    if_neg hE, if_neg hF]

theorem hex2binAux_map_lower (s : CStr) :
    digest_hex2bin.hex2binAux (s.map lowerHexChar) =
      digest_hex2bin.hex2binAux s := by
  induction s using digest_hex2bin.hex2binAux.induct with
  | case1 => rfl
  | case2 c => rfl
  | case3 c1 c2 rest h1 h2 hc2 hc1 ih =>
    simp only [List.map_cons, digest_hex2bin.hex2binAux,
      hexval_lowerHexChar, hc1, hc2, ih]
  | case4 c1 c2 rest hnone =>
    simp only [List.map_cons, digest_hex2bin.hex2binAux,
      hexval_lowerHexChar]

theorem hex2binAux_isSome (s : CStr)
    (h : ∀ c ∈ s, (hexval c).isSome) (he : s.length % 2 = 0) :
    (digest_hex2bin.hex2binAux s).isSome := by
  induction s using digest_hex2bin.hex2binAux.induct with
  | case1 => rfl
  | case2 c => simp at he
  | case3 c1 c2 rest h1 h2 hc2 hc1 ih =>
    have hlen : rest.length % 2 = 0 := by simp at he; omega
    have hr : ∀ c ∈ rest, (hexval c).isSome := fun c hm =>
      h c (List.mem_cons_of_mem _ (List.mem_cons_of_mem _ hm))
    have hsome := ih hr hlen
    simp only [digest_hex2bin.hex2binAux, hc1, hc2]
    rcases hx : digest_hex2bin.hex2binAux rest with _ | v
    · simp_all
    · rfl
  | case4 c1 c2 rest hnone =>
    exfalso
    rcases hx1 : hexval c1 with _ | v1
    · have := h c1 (List.mem_cons_self _ _)
      rw [hx1] at this; simp at this
    · rcases hx2 : hexval c2 with _ | v2
      · have := h c2 (List.mem_cons_of_mem _ (List.mem_cons_self _ _))
        rw [hx2] at this; simp at this
      · exact hnone v1 v2 hx1 hx2

theorem hex2binAux_none_of_bad (s : CStr) (c : Char)
    (hm : c ∈ s) (hbad : hexval c = none) :
    digest_hex2bin.hex2binAux s = none := by
  induction s using digest_hex2bin.hex2binAux.induct with
  | case1 => simp at hm
  | case2 d => rfl
  | case3 c1 c2 rest h1 h2 hc2 hc1 ih =>
    simp only [digest_hex2bin.hex2binAux, hc1, hc2]
    rcases List.mem_cons.mp hm with rfl | hm2
    · rw [hbad] at hc1; simp at hc1
    · rcases List.mem_cons.mp hm2 with rfl | hm3
      · rw [hbad] at hc2; simp at hc2
      · rw [ih hm3]
        rfl
  | case4 c1 c2 rest hnone =>
    rcases hx1 : hexval c1 with _ | v1
    · simp only [digest_hex2bin.hex2binAux, hx1]
    · rcases hx2 : hexval c2 with _ | v2
      · simp only [digest_hex2bin.hex2binAux, hx1, hx2]
      · exact (hnone v1 v2 hx1 hx2).elim

/-- C10 (implicit): `digest_hex2bin` is case-insensitive — replacing the
uppercase hex letters A-F of a string by their lowercase counterparts
does not change the result; on an even-length string of hex digits the
conversion succeeds; it fails on odd length and on any non-hex
character. -/
theorem claim_C10 :
    (∀ s : CStr, digest_hex2bin (s.map lowerHexChar) = digest_hex2bin s)
    ∧ (∀ s : CStr, (∀ c ∈ s, (hexval c).isSome) → s.length % 2 = 0 →
        (digest_hex2bin s).isSome)
    ∧ (∀ s : CStr, s.length % 2 = 1 → digest_hex2bin s = none)
    ∧ (∀ (s : CStr) (c : Char), c ∈ s → hexval c = none →
        digest_hex2bin s = none) := by
  refine ⟨fun s => ?_, fun s h he => ?_, fun s ho => ?_, fun s c hm hb => ?_⟩
  · unfold digest_hex2bin
    rw [List.length_map, hex2binAux_map_lower]
  · unfold digest_hex2bin
    rw [if_neg (by omega)]
    exact hex2binAux_isSome s h he
  · unfold digest_hex2bin
    rw [if_pos (by omega)]
  · unfold digest_hex2bin
    by_cases ho : s.length % 2 ≠ 0
    · rw [if_pos ho]
    · rw [if_neg ho]
      exact hex2binAux_none_of_bad s c hm hb

/-- Witness for C10 at concrete inputs: `"AbC1"` decodes like `"abc1"`
and succeeds, `"abc"` fails on odd length, `"zz"` fails on a non-hex
character. -/
theorem claim_C10_witness :
    digest_hex2bin ("AbC1".data.map lowerHexChar) = digest_hex2bin ("AbC1".data)
    ∧ (digest_hex2bin ("AbC1".data)).isSome
    ∧ digest_hex2bin ("abc".data) = none
    ∧ digest_hex2bin ("zz".data) = none :=
  ⟨claim_C10.1 _,
   claim_C10.2.1 _ (by decide) (by decide),
   claim_C10.2.2.1 _ (by decide),
   claim_C10.2.2.2 _ 'z' (by decide) (by decide)⟩

/-! ## Reconciler fast-path theorems (C2, C9) -/

/-- C2: for a pre-existing UNSEEN record met by the file classifier,
with full-check off an mtime within the modify window together with an
equal size sends the record to SEEN with the stored digest untouched and
without consulting the digest oracle at all (the outcome is the same for
every possible digest result, in particular when the content hash no
longer matches the stored digest); with full-check on the digest is
recomputed and a content mismatch yields CHANGED with the digest
replaced. -/
theorem claim_C2 (opts : Opts) (st : Stat) (accessOk : CStr → Bool)
    (s : ScanState) (fp : CStr) (fi : FileInfo)
    (hdf : (canon_path fp == opts.digestfile) = false)
    (hmp : restrict_miss opts.matchpattern (canon_path fp) = false)
    (hfind : rb_find_str s.filelist (canon_path fp) = some fi)
    (hst : fi.status = .FS_UNSEEN) :
    (opts.fullcheck = false →
      (st.st_mtime - fi.mtime).natAbs ≤ opts.modify_window →
      st.st_size = fi.size →
      ∀ digRes : Except CStr Digest,
        process_file opts st digRes accessOk s fp =
          ({ s with
             filelist := updateRec (canon_path fp)
               { fi with status := .FS_SEEN } s.filelist,
             g_filelist_seen := s.g_filelist_seen + 1 }, true))
    ∧ (opts.fullcheck = true →
      ∀ d d0 : Digest, fi.digest = some d0 → digest_equal d d0 = false →
        process_file opts st (.ok d) accessOk s fp =
          ({ s with
             filelist := updateRec (canon_path fp)
               { fi with
                   status := .FS_CHANGED
                   mtime := st.st_mtime
                   size := st.st_size
                   digest := some d } s.filelist,
             g_filelist_changed := s.g_filelist_changed + 1 }, true)) := by
  constructor
  · intro hfc hmw hsz digRes
    have hmod : ¬ ((st.st_mtime - fi.mtime).natAbs % 4294967296
        > opts.modify_window ∨ st.st_size ≠ fi.size) := by
      push_neg
      exact ⟨le_trans (Nat.mod_le _ _) hmw, hsz⟩
    simp only [process_file, hdf, Bool.false_eq_true, if_false, hmp,
      hfind, hst, ne_eq, not_true_eq_false, if_false, hfc,
      not_false_eq_true, true_and, hmod, if_true]
  · intro hfc d d0 hd he
    have hcond : ¬ (¬ opts.fullcheck = true ∧
        ¬ ((st.st_mtime - fi.mtime).natAbs % 4294967296
            > opts.modify_window ∨ st.st_size ≠ fi.size)) := by
      rw [hfc]; simp
    simp only [process_file, hdf, Bool.false_eq_true, if_false, hmp,
      hfind, hst, ne_eq, not_true_eq_false, if_false, hcond, hd, he,
      Bool.false_eq_true, if_false]

/-- Witness for C2 on a concrete record and stat. -/
theorem claim_C2_witness :
    process_file
      { digestfile := "f".data, matchpattern := none,
        fullcheck := false, modify_window := 1 }
      { st_mtime := 1001, st_size := 3 }
      (.ok [1, 2, 3])
      (fun _ => false)
      { filelist := [("a".data,
          { status := .FS_UNSEEN, mtime := 1000, size := 3, error := none,
            digest := some [9, 9], symlink := none, oldpath := none })],
        digestmap := [], g_filelist_seen := 0, g_filelist_new := 0,
        g_filelist_touched := 0, g_filelist_changed := 0,
        g_filelist_error := 0, g_filelist_copied := 0,
        g_filelist_renamed := 0, g_filelist_oldpath := 0,
        g_filelist_skipped := 0 }
      ("a".data) =
      ({ filelist := [("a".data,
          { status := .FS_SEEN, mtime := 1000, size := 3, error := none,
            digest := some [9, 9], symlink := none, oldpath := none })],
         digestmap := [], g_filelist_seen := 1, g_filelist_new := 0,
         g_filelist_touched := 0, g_filelist_changed := 0,
         g_filelist_error := 0, g_filelist_copied := 0,
         g_filelist_renamed := 0, g_filelist_oldpath := 0,
         g_filelist_skipped := 0 }, true) := by
  have h := (claim_C2
    { digestfile := "f".data, matchpattern := none,
      fullcheck := false, modify_window := 1 }
    { st_mtime := 1001, st_size := 3 }
    (fun _ => false)
    { filelist := [("a".data,
        { status := .FS_UNSEEN, mtime := 1000, size := 3, error := none,
          digest := some [9, 9], symlink := none, oldpath := none })],
      digestmap := [], g_filelist_seen := 0, g_filelist_new := 0,
      g_filelist_touched := 0, g_filelist_changed := 0,
      g_filelist_error := 0, g_filelist_copied := 0,
      g_filelist_renamed := 0, g_filelist_oldpath := 0,
      g_filelist_skipped := 0 }
    ("a".data)
    { status := .FS_UNSEEN, mtime := 1000, size := 3, error := none,
      digest := some [9, 9], symlink := none, oldpath := none }
    (by decide) (by decide) (by decide) (by decide)).1
    (by decide) (by decide) (by decide) (.ok [1, 2, 3])
  exact h.trans (by decide)

/-- Counterexample to C9: a symlink record whose on-disk mtime differs
by exactly 1 with `modify_window = 1` — the claim predicts the SEEN fast
path, but `process_symlink` compares mtimes exactly and classifies
TOUCHED after reading the link. -/
theorem claim_C9_counterexample :
    (((1001 : Int) - 1000).natAbs ≤ 1
     ∧ (1 : Int) = 1)
    ∧ process_symlink
      { digestfile := "f".data, matchpattern := none,
        fullcheck := false, modify_window := 1 }
      { st_mtime := 1001, st_size := 1 }
      (some "t".data)
      { filelist := [("l".data,
          { status := .FS_UNSEEN, mtime := 1000, size := 1, error := none,
            digest := none, symlink := some "t".data, oldpath := none })],
        digestmap := [], g_filelist_seen := 0, g_filelist_new := 0,
        g_filelist_touched := 0, g_filelist_changed := 0,
        g_filelist_error := 0, g_filelist_copied := 0,
        g_filelist_renamed := 0, g_filelist_oldpath := 0,
        g_filelist_skipped := 0 }
      ("l".data) =
      ({ filelist := [("l".data,
          { status := .FS_TOUCHED, mtime := 1001, size := 1, error := none,
            digest := none, symlink := some "t".data, oldpath := none })],
         digestmap := [], g_filelist_seen := 0, g_filelist_new := 0,
         g_filelist_touched := 1, g_filelist_changed := 0,
         g_filelist_error := 0, g_filelist_copied := 0,
         g_filelist_renamed := 0, g_filelist_oldpath := 0,
         g_filelist_skipped := 0 }, true) := by
  constructor
  · exact ⟨by decide, rfl⟩
  · decide

/-- C9 as amended: the symlink fast path requires the mtimes to be
exactly equal (the modify window is not consulted) and the sizes equal;
then the record goes to SEEN with the same outcome for every readlink
result.  Otherwise the link target is read and compared: equal target
gives TOUCHED, different target gives CHANGED with the target
replaced. -/
theorem claim_C9_amended (opts : Opts) (st : Stat)
    (s : ScanState) (fp : CStr) (fi : FileInfo)
    (hdf : (canon_path fp == opts.digestfile) = false)
    (hmp : restrict_miss opts.matchpattern (canon_path fp) = false)
    (hfind : rb_find_str s.filelist (canon_path fp) = some fi)
    (hst : fi.status = .FS_UNSEEN) :
    (opts.fullcheck = false → st.st_mtime = fi.mtime →
      st.st_size = fi.size →
      ∀ linkRes : Option CStr,
        process_symlink opts st linkRes s fp =
          ({ s with
             filelist := updateRec (canon_path fp)
               { fi with status := .FS_SEEN } s.filelist,
             g_filelist_seen := s.g_filelist_seen + 1 }, true))
    ∧ ((opts.fullcheck = true ∨ st.st_mtime ≠ fi.mtime ∨
          st.st_size ≠ fi.size) →
      ∀ t : CStr,
        (fi.symlink = some t →
          process_symlink opts st (some t) s fp =
            ({ s with
               filelist := updateRec (canon_path fp)
                 { fi with
                     status := .FS_TOUCHED
                     mtime := st.st_mtime
                     size := st.st_size } s.filelist,
               g_filelist_touched := s.g_filelist_touched + 1 }, true))
        ∧ (∀ t0 : CStr, fi.symlink = some t0 → t0 ≠ t →
          process_symlink opts st (some t) s fp =
            ({ s with
               filelist := updateRec (canon_path fp)
                 { fi with
                     status := .FS_CHANGED
                     mtime := st.st_mtime
                     size := st.st_size
                     symlink := some t } s.filelist,
               g_filelist_changed := s.g_filelist_changed + 1 }, true))) := by
  constructor
  · intro hfc hm hz linkRes
    have hcond : ¬ (st.st_mtime ≠ fi.mtime ∨ st.st_size ≠ fi.size) := by
      push_neg; exact ⟨hm, hz⟩
    simp only [process_symlink, hdf, Bool.false_eq_true, if_false, hmp,
      hfind, hst, ne_eq, not_true_eq_false, if_false, hfc,
      not_false_eq_true, true_and, hcond, if_true]
  · intro hc t
    have hcond : ¬ (¬ opts.fullcheck = true ∧
        ¬ (st.st_mtime ≠ fi.mtime ∨ st.st_size ≠ fi.size)) := by
      intro hand
      obtain ⟨h1, h2⟩ := hand
      push_neg at h2
      rcases hc with h | h | h
      · exact h1 h
      · exact h h2.1
      · exact h h2.2
    constructor
    · intro ht
      simp only [process_symlink, hdf, Bool.false_eq_true, if_false, hmp,
        hfind, hst, ne_eq, not_true_eq_false, if_false, hcond, ht,
        beq_self_eq_true, if_true]
    · intro t0 ht0 hne
      have hbeq : (t0 == t) = false := by
        rw [beq_eq_false_iff_ne]; exact hne
      simp only [process_symlink, hdf, Bool.false_eq_true, if_false, hmp,
        hfind, hst, ne_eq, not_true_eq_false, if_false, hcond, ht0, hbeq,
        Bool.false_eq_true, if_false]

/-! ## Serializer status filter (C5) -/

/-- An MD5 digest value used in concrete examples. -/
def md5_empty : Digest :=
  [0xd4, 0x1d, 0x8c, 0xd9, 0x8f, 0x00, 0xb2, 0x04,
   0xe9, 0x80, 0x09, 0x98, 0xec, 0xf8, 0x42, 0x7e]

/-- Counterexample to C5: a record whose status is SKIPPED is *not*
omitted by `cmd_write` — its digest line appears in the output (only
UNSEEN, ERROR and OLDPATH are skipped). -/
theorem claim_C5_counterexample :
    (("a".data,
      ({ status := .FS_SKIPPED, mtime := 5, size := 0, error := none,
         digest := some md5_empty, symlink := none,
         oldpath := none } : FileInfo)).2.status = FileStatus.FS_SKIPPED)
    ∧ ("d41d8cd98f00b204e9800998ecf8427e  a\n".data ∈
        cmd_write_lines ("h".data) none
          [("a".data,
            { status := .FS_SKIPPED, mtime := 5, size := 0, error := none,
              digest := some md5_empty, symlink := none,
              oldpath := none })]) := by
  constructor
  · rfl
  · decide

/-- C5 as amended: the serializer visits the record table in
lexicographic path order and emits exactly the records whose status is
not in {UNSEEN, ERROR, OLDPATH}; SKIPPED records are emitted like any
other surviving record. -/
theorem claim_C5_amended (hdr : CStr) (marker : Option CStr) (t : Table)
    (hsort : t.Pairwise (fun a b => cstr_lt a.1 b.1 = true)) :
    ((t.filter (fun r => writable_status r.2.status)).Pairwise
        (fun a b => cstr_lt a.1 b.1 = true))
    ∧ (∀ r ∈ t, writable_status r.2.status = true ↔
        (r.2.status ≠ .FS_UNSEEN ∧ r.2.status ≠ .FS_ERROR ∧
         r.2.status ≠ .FS_OLDPATH))
    ∧ (∀ r ∈ t, r.2.status = .FS_SKIPPED →
        r ∈ t.filter (fun r => writable_status r.2.status))
    ∧ (∀ r ∈ t, writable_status r.2.status = true →
        ∀ l ∈ record_lines r, l ∈ cmd_write_lines hdr marker t) := by
  refine ⟨hsort.sublist (List.filter_sublist t), fun r _ => ?_,
    fun r hm hs => ?_, fun r hm hw l hl => ?_⟩
  · cases hst : r.2.status <;> simp [writable_status, hst]
  · rw [List.mem_filter]
    exact ⟨hm, by simp [writable_status, hs]⟩
  · unfold cmd_write_lines
    simp only [List.mem_append, List.mem_cons]
    left; right; right
    rw [List.mem_flatMap]
    exact ⟨r, List.mem_filter.mpr ⟨hm, hw⟩, hl⟩

/-- Witness for C5 as amended on a two-record table. -/
theorem claim_C5_amended_witness :
    ([(("a".data : CStr),
       ({ status := .FS_SKIPPED, mtime := 5, size := 0, error := none,
          digest := some md5_empty, symlink := none,
          oldpath := none } : FileInfo)),
      (("b".data : CStr),
       ({ status := .FS_UNSEEN, mtime := 5, size := 0, error := none,
          digest := some md5_empty, symlink := none,
          oldpath := none } : FileInfo))].filter
        (fun r => writable_status r.2.status)).Pairwise
      (fun a b => cstr_lt a.1 b.1 = true) := by
  exact (claim_C5_amended ("h".data) none _ (by decide)).1


/-- Witness for C9 as amended: with equal mtime and size the record goes
to SEEN regardless of what the link target reads as. -/
theorem claim_C9_amended_witness :
    process_symlink
      { digestfile := "f".data, matchpattern := none,
        fullcheck := false, modify_window := 1 }
      { st_mtime := 1000, st_size := 1 }
      (some "other".data)
      { filelist := [("l".data,
          { status := .FS_UNSEEN, mtime := 1000, size := 1, error := none,
            digest := none, symlink := some "t".data, oldpath := none })],
        digestmap := [], g_filelist_seen := 0, g_filelist_new := 0,
        g_filelist_touched := 0, g_filelist_changed := 0,
        g_filelist_error := 0, g_filelist_copied := 0,
        g_filelist_renamed := 0, g_filelist_oldpath := 0,
        g_filelist_skipped := 0 }
      ("l".data) =
      ({ filelist := [("l".data,
          { status := .FS_SEEN, mtime := 1000, size := 1, error := none,
            digest := none, symlink := some "t".data, oldpath := none })],
         digestmap := [], g_filelist_seen := 1, g_filelist_new := 0,
         g_filelist_touched := 0, g_filelist_changed := 0,
         g_filelist_error := 0, g_filelist_copied := 0,
         g_filelist_renamed := 0, g_filelist_oldpath := 0,
         g_filelist_skipped := 0 }, true) := by
  have h := (claim_C9_amended
    { digestfile := "f".data, matchpattern := none,
      fullcheck := false, modify_window := 1 }
    { st_mtime := 1000, st_size := 1 }
    { filelist := [("l".data,
        { status := .FS_UNSEEN, mtime := 1000, size := 1, error := none,
          digest := none, symlink := some "t".data, oldpath := none })],
      digestmap := [], g_filelist_seen := 0, g_filelist_new := 0,
      g_filelist_touched := 0, g_filelist_changed := 0,
      g_filelist_error := 0, g_filelist_copied := 0,
      g_filelist_renamed := 0, g_filelist_oldpath := 0,
      g_filelist_skipped := 0 }
    ("l".data)
    { status := .FS_UNSEEN, mtime := 1000, size := 1, error := none,
      digest := none, symlink := some "t".data, oldpath := none }
    (by decide) (by decide) (by decide) (by decide)).1
    (by decide) (by decide) (by decide) (some "other".data)
  exact h.trans (by decide)

/-! ## Rename/copy detection (C3) -/

theorem getLastD_mem {α : Type} (l : List α) (d : α) (h : l ≠ []) :
    l.getLastD d ∈ l := by
  induction l generalizing d with
  | nil => exact absurd rfl h
  | cons a t ih =>
    rw [List.getLastD_cons]
    cases t with
    | nil => simp [List.getLastD]
    | cons b t2 => exact List.mem_cons_of_mem a (ih b (by simp))

/-- The candidate walk unbundled: the copied flag records whether any
candidate survives, the remembered survivor is the last surviving
candidate (or the initial one when none survives), and the scan state
accumulates one OLDPATH marking per vanished candidate, in order. -/
theorem scan_candidates_eq (accessOk : CStr → Bool) (cs : List CStr)
    (b : Bool) (i : CStr) (s : ScanState) :
    scan_candidates accessOk cs (b, i, s) =
      (b || cs.any accessOk,
       (cs.filter accessOk).getLastD i,
       (cs.filter (fun c => ! accessOk c)).foldl mark_oldpath s) := by
  induction cs generalizing b i s with
  | nil => simp [scan_candidates]
  | cons c rest ih =>
    by_cases hc : accessOk c
    · simp only [scan_candidates, hc, if_true, ih, List.any_cons,
        List.filter_cons, Bool.not_true, Bool.false_eq_true, if_false,
        List.getLastD_cons, Bool.true_or, Bool.or_true]
    · have hc' : accessOk c = false := by simpa using hc
      simp only [scan_candidates, hc', Bool.false_eq_true, if_false, ih,
        List.any_cons, List.filter_cons, Bool.not_false, if_true,
        Bool.false_or, List.foldl_cons]

theorem mark_oldpath_unseen (s : ScanState) (p : CStr) (fc : FileInfo)
    (h : rb_find_str s.filelist p = some fc) (hu : fc.status = .FS_UNSEEN) :
    mark_oldpath s p =
      { s with
        filelist := updateRec p { fc with status := .FS_OLDPATH } s.filelist,
        g_filelist_oldpath := s.g_filelist_oldpath + 1 } := by
  simp [mark_oldpath, h, hu]

theorem mark_oldpath_noop (s : ScanState) (p : CStr) (fc : FileInfo)
    (h : rb_find_str s.filelist p = some fc)
    (ho : fc.status ≠ .FS_UNSEEN) :
    mark_oldpath s p = s := by
  simp [mark_oldpath, h, ho]

/-- C3: classification of a newly discovered path whose digest was
computed successfully.  With no digest-equal candidate the record is
NEW.  With candidates, a surviving original makes the record COPIED with
`oldpath` the last surviving candidate (itself passing the access
check); with no survivor the record is RENAMED with `oldpath` the first
candidate, every vanished candidate being OLDPATH-marked through
`mark_oldpath`, which flips exactly the still-UNSEEN originals and
leaves repeat encounters (already OLDPATH) unchanged. -/
theorem claim_C3 (opts : Opts) (st : Stat) (accessOk : CStr → Bool)
    (s : ScanState) (fp : CStr) (d : Digest)
    (hdf : (canon_path fp == opts.digestfile) = false)
    (hmp : restrict_miss opts.matchpattern (canon_path fp) = false)
    (hfind : rb_find_str s.filelist (canon_path fp) = none) :
    (digest_find_run d s.digestmap = [] →
      process_file opts st (.ok d) accessOk s fp =
        ({ s with
           filelist := rb_insert_str (canon_path fp)
             { status := .FS_NEW, mtime := st.st_mtime, size := st.st_size,
               error := none, digest := some d, symlink := none,
               oldpath := none } s.filelist,
           g_filelist_new := s.g_filelist_new + 1 }, true))
    ∧ (∀ c0 crest, digest_find_run d s.digestmap = c0 :: crest →
        (c0 :: crest).any accessOk = true →
        accessOk (((c0 :: crest).filter accessOk).getLastD c0) = true
        ∧ process_file opts st (.ok d) accessOk s fp =
          (let s1 := ((c0 :: crest).filter
              (fun c => ! accessOk c)).foldl mark_oldpath s;
           ({ s1 with
              filelist := rb_insert_str (canon_path fp)
                { status := .FS_COPIED, mtime := st.st_mtime,
                  size := st.st_size, error := none, digest := some d,
                  symlink := none,
                  oldpath := some (((c0 :: crest).filter
                    accessOk).getLastD c0) } s1.filelist,
              g_filelist_copied := s1.g_filelist_copied + 1 }, true)))
    ∧ (∀ c0 crest, digest_find_run d s.digestmap = c0 :: crest →
        (c0 :: crest).any accessOk = false →
        process_file opts st (.ok d) accessOk s fp =
          (let s1 := ((c0 :: crest).filter
              (fun c => ! accessOk c)).foldl mark_oldpath s;
           ({ s1 with
              filelist := rb_insert_str (canon_path fp)
                { status := .FS_RENAMED, mtime := st.st_mtime,
                  size := st.st_size, error := none, digest := some d,
                  symlink := none, oldpath := some c0 } s1.filelist,
              g_filelist_renamed := s1.g_filelist_renamed + 1 }, true)))
    ∧ (∀ (s' : ScanState) (p : CStr) (fc : FileInfo),
        rb_find_str s'.filelist p = some fc → fc.status = .FS_UNSEEN →
        mark_oldpath s' p =
          { s' with
            filelist := updateRec p
              { fc with status := .FS_OLDPATH } s'.filelist,
            g_filelist_oldpath := s'.g_filelist_oldpath + 1 })
    ∧ (∀ (s' : ScanState) (p : CStr) (fc : FileInfo),
        rb_find_str s'.filelist p = some fc → fc.status = .FS_OLDPATH →
        mark_oldpath s' p = s') := by
  refine ⟨fun hrun => ?_, fun c0 crest hrun hany => ⟨?_, ?_⟩,
    fun c0 crest hrun hnone => ?_, mark_oldpath_unseen,
    fun s' p fc h ho => mark_oldpath_noop s' p fc h (by rw [ho]; decide)⟩
  · simp only [process_file, hdf, Bool.false_eq_true, if_false, hmp,
      hfind, hrun]
  · have hne : (c0 :: crest).filter accessOk ≠ [] := by
      rcases List.any_eq_true.mp hany with ⟨c, hc, hacc⟩
      intro hnil
      have : c ∈ (c0 :: crest).filter accessOk :=
        List.mem_filter.mpr ⟨hc, hacc⟩
      rw [hnil] at this
      simp at this
    have hmem := getLastD_mem _ c0 hne
    exact (List.mem_filter.mp hmem).2
  · simp only [process_file, hdf, Bool.false_eq_true, if_false, hmp,
      hfind, hrun, scan_candidates_eq, Bool.false_or, hany, if_true]
  · have hfilt : (c0 :: crest).filter accessOk = [] := by
      rw [List.filter_eq_nil_iff]
      intro c hc
      rcases hacc : accessOk c with _ | _
      · simp
      · exact absurd (List.any_eq_true.mpr ⟨c, hc, hacc⟩)
          (by rw [hnone]; simp)
    simp only [process_file, hdf, Bool.false_eq_true, if_false, hmp,
      hfind, hrun, scan_candidates_eq, Bool.false_or, hnone,
      Bool.false_eq_true, if_false, hfilt]
    rfl

/-- Witness for C3: one vanished candidate, so the new path is RENAMED,
the original goes to OLDPATH and `oldpath` points at it. -/
theorem claim_C3_witness :
    process_file
      { digestfile := "f".data, matchpattern := none,
        fullcheck := false, modify_window := 0 }
      { st_mtime := 7, st_size := 1 }
      (.ok [1])
      (fun _ => false)
      { filelist := [("old".data,
          { status := .FS_UNSEEN, mtime := 1, size := 1, error := none,
            digest := some [1], symlink := none, oldpath := none })],
        digestmap := [([1], "old".data)],
        g_filelist_seen := 0, g_filelist_new := 0,
        g_filelist_touched := 0, g_filelist_changed := 0,
        g_filelist_error := 0, g_filelist_copied := 0,
        g_filelist_renamed := 0, g_filelist_oldpath := 0,
        g_filelist_skipped := 0 }
      ("new".data) =
      ({ filelist := [("new".data,
          { status := .FS_RENAMED, mtime := 7, size := 1, error := none,
            digest := some [1], symlink := none,
            oldpath := some "old".data }),
          ("old".data,
          { status := .FS_OLDPATH, mtime := 1, size := 1, error := none,
            digest := some [1], symlink := none, oldpath := none })],
         digestmap := [([1], "old".data)],
         g_filelist_seen := 0, g_filelist_new := 0,
         g_filelist_touched := 0, g_filelist_changed := 0,
         g_filelist_error := 0, g_filelist_copied := 0,
         g_filelist_renamed := 1, g_filelist_oldpath := 1,
         g_filelist_skipped := 0 }, true) := by
  have h := (claim_C3
    { digestfile := "f".data, matchpattern := none,
      fullcheck := false, modify_window := 0 }
    { st_mtime := 7, st_size := 1 }
    (fun _ => false)
    { filelist := [("old".data,
        { status := .FS_UNSEEN, mtime := 1, size := 1, error := none,
          digest := some [1], symlink := none, oldpath := none })],
      digestmap := [([1], "old".data)],
      g_filelist_seen := 0, g_filelist_new := 0,
      g_filelist_touched := 0, g_filelist_changed := 0,
      g_filelist_error := 0, g_filelist_copied := 0,
      g_filelist_renamed := 0, g_filelist_oldpath := 0,
      g_filelist_skipped := 0 }
    ("new".data) [1]
    (by decide) (by decide) (by decide)).2.2.1
    ("old".data) [] (by decide) (by decide)
  exact h.trans (by decide)

/-! ## Counter/status invariant (C1) -/

/-- Number of records currently in a given status. -/
def statusCount (st : FileStatus) (t : Table) : Nat :=
  t.countP (fun r => r.2.status == st)

/-- Every status counter equals the number of records in that status
(UNSEEN has no counter). -/
def counters_ok (s : ScanState) : Prop :=
  s.g_filelist_seen = statusCount .FS_SEEN s.filelist
  ∧ s.g_filelist_new = statusCount .FS_NEW s.filelist
  ∧ s.g_filelist_touched = statusCount .FS_TOUCHED s.filelist
  ∧ s.g_filelist_changed = statusCount .FS_CHANGED s.filelist
  ∧ s.g_filelist_error = statusCount .FS_ERROR s.filelist
  ∧ s.g_filelist_copied = statusCount .FS_COPIED s.filelist
  ∧ s.g_filelist_renamed = statusCount .FS_RENAMED s.filelist
  ∧ s.g_filelist_oldpath = statusCount .FS_OLDPATH s.filelist
  ∧ s.g_filelist_skipped = statusCount .FS_SKIPPED s.filelist

theorem rb_find_str_cons (k' : CStr) (v' : FileInfo) (t : Table) (k : CStr) :
    rb_find_str ((k', v') :: t) k =
      if (k' == k) = true then some v' else rb_find_str t k := by
  unfold rb_find_str
  rw [List.find?]
  cases h : (k' == k) <;> simp [h]

theorem statusCount_cons (st : FileStatus) (r : CStr × FileInfo) (t : Table) :
    statusCount st (r :: t) =
      statusCount st t + (if r.2.status == st then 1 else 0) := by
  unfold statusCount
  rw [List.countP_cons]

theorem statusCount_updateRec (st : FileStatus) (k : CStr) (w : FileInfo)
    (t : Table) (v : FileInfo) (hfind : rb_find_str t k = some v) :
    statusCount st (updateRec k w t) + (if v.status == st then 1 else 0)
      = statusCount st t + (if w.status == st then 1 else 0) := by
  induction t with
  | nil => simp [rb_find_str] at hfind
  | cons r t' ih =>
    obtain ⟨k', v'⟩ := r
    rw [rb_find_str_cons] at hfind
    by_cases hk : (k' == k) = true
    · rw [if_pos hk] at hfind
      injection hfind with hv
      subst hv
      unfold updateRec
      rw [if_pos hk]
      simp only [statusCount_cons]
      dsimp only
      omega
    · rw [if_neg hk] at hfind
      unfold updateRec
      rw [if_neg (by simpa using hk)]
      simp only [statusCount_cons]
      dsimp only
      have := ih hfind
      omega

theorem statusCount_updateRec_unseen (st : FileStatus) (k : CStr)
    (w : FileInfo) (t : Table) (v : FileInfo)
    (hfind : rb_find_str t k = some v) (hv : v.status = .FS_UNSEEN)
    (hst : st ≠ .FS_UNSEEN) :
    statusCount st (updateRec k w t)
      = statusCount st t + (if w.status == st then 1 else 0) := by
  have h := statusCount_updateRec st k w t v hfind
  rw [hv] at h
  have hz : (FileStatus.FS_UNSEEN == st) = false := by
    cases st <;> simp_all
  rw [hz] at h
  simpa using h

theorem statusCount_insert (st : FileStatus) (k : CStr) (v : FileInfo)
    (t : Table) :
    statusCount st (rb_insert_str k v t)
      = statusCount st t + (if v.status == st then 1 else 0) := by
  induction t with
  | nil =>
    unfold rb_insert_str
    rw [statusCount_cons]
  | cons r t' ih =>
    obtain ⟨k', v'⟩ := r
    unfold rb_insert_str
    by_cases hk : cstr_lt k k' = true
    · rw [if_pos hk]
      simp only [statusCount_cons]
      try dsimp only
      try omega
    · rw [if_neg hk]
      simp only [statusCount_cons, ih]
      try dsimp only
      try omega

theorem counters_ok_tr_seen (s : ScanState) (k : CStr) (v w : FileInfo)
    (hok : counters_ok s) (hfind : rb_find_str s.filelist k = some v)
    (hv : v.status = .FS_UNSEEN) (hw : w.status = .FS_SEEN) :
    counters_ok
      { s with
          filelist := updateRec k w s.filelist
          g_filelist_seen := s.g_filelist_seen + 1 } := by
  obtain ⟨h1, h2, h3, h4, h5, h6, h7, h8, h9⟩ := hok
  refine ⟨?_, ?_, ?_, ?_, ?_, ?_, ?_, ?_, ?_⟩ <;>
    · dsimp only
      rw [statusCount_updateRec_unseen _ k w s.filelist v hfind hv
        (by decide)]
      simp [hw, h1, h2, h3, h4, h5, h6, h7, h8, h9]

theorem counters_ok_tr_touched (s : ScanState) (k : CStr) (v w : FileInfo)
    (hok : counters_ok s) (hfind : rb_find_str s.filelist k = some v)
    (hv : v.status = .FS_UNSEEN) (hw : w.status = .FS_TOUCHED) :
    counters_ok
      { s with
          filelist := updateRec k w s.filelist
          g_filelist_touched := s.g_filelist_touched + 1 } := by
  obtain ⟨h1, h2, h3, h4, h5, h6, h7, h8, h9⟩ := hok
  refine ⟨?_, ?_, ?_, ?_, ?_, ?_, ?_, ?_, ?_⟩ <;>
    · dsimp only
      rw [statusCount_updateRec_unseen _ k w s.filelist v hfind hv
        (by decide)]
      simp [hw, h1, h2, h3, h4, h5, h6, h7, h8, h9]

theorem counters_ok_tr_changed (s : ScanState) (k : CStr) (v w : FileInfo)
    (hok : counters_ok s) (hfind : rb_find_str s.filelist k = some v)
    (hv : v.status = .FS_UNSEEN) (hw : w.status = .FS_CHANGED) :
    counters_ok
      { s with
          filelist := updateRec k w s.filelist
          g_filelist_changed := s.g_filelist_changed + 1 } := by
  obtain ⟨h1, h2, h3, h4, h5, h6, h7, h8, h9⟩ := hok
  refine ⟨?_, ?_, ?_, ?_, ?_, ?_, ?_, ?_, ?_⟩ <;>
    · dsimp only
      rw [statusCount_updateRec_unseen _ k w s.filelist v hfind hv
        (by decide)]
      simp [hw, h1, h2, h3, h4, h5, h6, h7, h8, h9]

theorem counters_ok_tr_error (s : ScanState) (k : CStr) (v w : FileInfo)
    (hok : counters_ok s) (hfind : rb_find_str s.filelist k = some v)
    (hv : v.status = .FS_UNSEEN) (hw : w.status = .FS_ERROR) :
    counters_ok
      { s with
          filelist := updateRec k w s.filelist
          g_filelist_error := s.g_filelist_error + 1 } := by
  obtain ⟨h1, h2, h3, h4, h5, h6, h7, h8, h9⟩ := hok
  refine ⟨?_, ?_, ?_, ?_, ?_, ?_, ?_, ?_, ?_⟩ <;>
    · dsimp only
      rw [statusCount_updateRec_unseen _ k w s.filelist v hfind hv
        (by decide)]
      simp [hw, h1, h2, h3, h4, h5, h6, h7, h8, h9]

theorem counters_ok_tr_oldpath (s : ScanState) (k : CStr) (v w : FileInfo)
    (hok : counters_ok s) (hfind : rb_find_str s.filelist k = some v)
    (hv : v.status = .FS_UNSEEN) (hw : w.status = .FS_OLDPATH) :
    counters_ok
      { s with
          filelist := updateRec k w s.filelist
          g_filelist_oldpath := s.g_filelist_oldpath + 1 } := by
  obtain ⟨h1, h2, h3, h4, h5, h6, h7, h8, h9⟩ := hok
  refine ⟨?_, ?_, ?_, ?_, ?_, ?_, ?_, ?_, ?_⟩ <;>
    · dsimp only
      rw [statusCount_updateRec_unseen _ k w s.filelist v hfind hv
        (by decide)]
      simp [hw, h1, h2, h3, h4, h5, h6, h7, h8, h9]

theorem counters_ok_ins_new (s : ScanState) (k : CStr) (w : FileInfo)
    (hok : counters_ok s) (hw : w.status = .FS_NEW) :
    counters_ok
      { s with
          filelist := rb_insert_str k w s.filelist
          g_filelist_new := s.g_filelist_new + 1 } := by
  obtain ⟨h1, h2, h3, h4, h5, h6, h7, h8, h9⟩ := hok
  refine ⟨?_, ?_, ?_, ?_, ?_, ?_, ?_, ?_, ?_⟩ <;>
    · dsimp only
      rw [statusCount_insert]
      simp [hw, h1, h2, h3, h4, h5, h6, h7, h8, h9]

theorem counters_ok_ins_error (s : ScanState) (k : CStr) (w : FileInfo)
    (hok : counters_ok s) (hw : w.status = .FS_ERROR) :
    counters_ok
      { s with
          filelist := rb_insert_str k w s.filelist
          g_filelist_error := s.g_filelist_error + 1 } := by
  obtain ⟨h1, h2, h3, h4, h5, h6, h7, h8, h9⟩ := hok
  refine ⟨?_, ?_, ?_, ?_, ?_, ?_, ?_, ?_, ?_⟩ <;>
    · dsimp only
      rw [statusCount_insert]
      simp [hw, h1, h2, h3, h4, h5, h6, h7, h8, h9]

theorem counters_ok_ins_copied (s : ScanState) (k : CStr) (w : FileInfo)
    (hok : counters_ok s) (hw : w.status = .FS_COPIED) :
    counters_ok
      { s with
          filelist := rb_insert_str k w s.filelist
          g_filelist_copied := s.g_filelist_copied + 1 } := by
  obtain ⟨h1, h2, h3, h4, h5, h6, h7, h8, h9⟩ := hok
  refine ⟨?_, ?_, ?_, ?_, ?_, ?_, ?_, ?_, ?_⟩ <;>
    · dsimp only
      rw [statusCount_insert]
      simp [hw, h1, h2, h3, h4, h5, h6, h7, h8, h9]

theorem counters_ok_ins_renamed (s : ScanState) (k : CStr) (w : FileInfo)
    (hok : counters_ok s) (hw : w.status = .FS_RENAMED) :
    counters_ok
      { s with
          filelist := rb_insert_str k w s.filelist
          g_filelist_renamed := s.g_filelist_renamed + 1 } := by
  obtain ⟨h1, h2, h3, h4, h5, h6, h7, h8, h9⟩ := hok
  refine ⟨?_, ?_, ?_, ?_, ?_, ?_, ?_, ?_, ?_⟩ <;>
    · dsimp only
      rw [statusCount_insert]
      simp [hw, h1, h2, h3, h4, h5, h6, h7, h8, h9]

theorem counters_ok_mark_oldpath (s : ScanState) (p : CStr)
    (hok : counters_ok s) : counters_ok (mark_oldpath s p) := by
  unfold mark_oldpath
  cases hfind : rb_find_str s.filelist p with
  | none => exact hok
  | some fc =>
    dsimp only
    by_cases hu : fc.status = .FS_UNSEEN
    · rw [if_pos hu]
      exact counters_ok_tr_oldpath s p fc _ hok hfind hu rfl
    · rw [if_neg hu]
      exact hok

theorem counters_ok_foldl_mark (cs : List CStr) (s : ScanState)
    (hok : counters_ok s) : counters_ok (cs.foldl mark_oldpath s) := by
  induction cs generalizing s with
  | nil => exact hok
  | cons c rest ih =>
    exact ih (mark_oldpath s c) (counters_ok_mark_oldpath s c hok)

theorem counters_ok_process_file (opts : Opts) (st : Stat)
    (digRes : Except CStr Digest) (accessOk : CStr → Bool)
    (s : ScanState) (fp : CStr) (hok : counters_ok s) :
    counters_ok (process_file opts st digRes accessOk s fp).1 := by
  simp only [process_file]
  split
  · exact hok
  split
  · exact hok
  split
  · rename_i fi hfind
    split
    · exact hok
    rename_i h3
    have hv : fi.status = .FS_UNSEEN := not_not.mp h3
    split
    · exact counters_ok_tr_seen s _ fi _ hok hfind hv rfl
    split
    · exact counters_ok_tr_error s _ fi _ hok hfind hv rfl
    · split
      · exact counters_ok_tr_touched s _ fi _ hok hfind hv rfl
      · exact counters_ok_tr_changed s _ fi _ hok hfind hv rfl
  · rename_i hfind
    split
    · exact counters_ok_ins_error s _ _ hok rfl
    rename_i dg
    split
    · exact counters_ok_ins_new s _ _ hok rfl
    rename_i c0 crest hrun
    rw [scan_candidates_eq]
    simp only [Bool.false_or]
    have hok1 : counters_ok
        (((c0 :: crest).filter (fun c => ! accessOk c)).foldl
          mark_oldpath s) :=
      counters_ok_foldl_mark _ s hok
    by_cases h6 : ((c0 :: crest).any accessOk) = true
    · simp only [h6, if_true]
      exact counters_ok_ins_copied _ _ _ hok1 rfl
    · have h6' : ((c0 :: crest).any accessOk) = false := by
        simpa using h6
      simp only [h6', Bool.false_eq_true, if_false]
      exact counters_ok_ins_renamed _ _ _ hok1 rfl

theorem counters_ok_process_symlink (opts : Opts) (st : Stat)
    (linkRes : Option CStr) (s : ScanState) (fp : CStr)
    (hok : counters_ok s) :
    counters_ok (process_symlink opts st linkRes s fp).1 := by
  simp only [process_symlink]
  split
  · exact hok
  split
  · exact hok
  split
  · rename_i fi hfind
    split
    · exact hok
    rename_i h3
    have hv : fi.status = .FS_UNSEEN := not_not.mp h3
    split
    · exact counters_ok_tr_seen s _ fi _ hok hfind hv rfl
    split
    · exact counters_ok_tr_error s _ fi _ hok hfind hv rfl
    · split
      · exact counters_ok_tr_touched s _ fi _ hok hfind hv rfl
      · exact counters_ok_tr_changed s _ fi _ hok hfind hv rfl
  · rename_i hfind
    split
    · exact counters_ok_ins_error s _ _ hok rfl
    · exact counters_ok_ins_new s _ _ hok rfl

/-- One reconciler step of the scan: `scan_directory` hands each
discovered path to `process_file` or `process_symlink` with whatever the
filesystem oracles answer. -/
inductive ScanStep : ScanState → ScanState → Prop where
  | file : ∀ (opts : Opts) (st : Stat) (digRes : Except CStr Digest)
      (accessOk : CStr → Bool) (fp : CStr) (s : ScanState),
      ScanStep s (process_file opts st digRes accessOk s fp).1
  | symlink : ∀ (opts : Opts) (st : Stat) (linkRes : Option CStr)
      (fp : CStr) (s : ScanState),
      ScanStep s (process_symlink opts st linkRes s fp).1

/-- Any number of reconciler steps (the whole walk). -/
def ScanReach : ScanState → ScanState → Prop :=
  Relation.ReflTransGen ScanStep

theorem counters_ok_reach (s s' : ScanState) (hok : counters_ok s)
    (h : ScanReach s s') : counters_ok s' := by
  induction h with
  | refl => exact hok
  | tail _ hstep ih =>
    cases hstep with
    | file opts st digRes accessOk fp =>
      exact counters_ok_process_file opts st digRes accessOk _ fp ih
    | symlink opts st linkRes fp =>
      exact counters_ok_process_symlink opts st linkRes _ fp ih

theorem counters_ok_init_scan (mp : Option CStr) (t0 : Table)
    (h0 : ∀ r ∈ t0, r.2.status = .FS_UNSEEN) :
    counters_ok (init_scan mp t0) := by
  have hmem : ∀ r ∈ mark_restrict mp t0,
      r.2.status = .FS_UNSEEN ∨ r.2.status = .FS_SKIPPED := by
    intro r hr
    rcases List.mem_map.mp hr with ⟨r0, hr0, heq⟩
    by_cases hmiss : restrict_miss mp r0.1 = true
    · rw [if_pos hmiss] at heq
      right
      rw [← heq]
    · rw [if_neg hmiss] at heq
      left
      rw [← heq]
      exact h0 r0 hr0
  unfold init_scan
  refine ⟨?_, ?_, ?_, ?_, ?_, ?_, ?_, ?_, ?_⟩ <;> dsimp only
  · symm
    rw [statusCount, List.countP_eq_zero]
    intro r hr
    rcases hmem r hr with h | h <;> simp [h]
  · symm
    rw [statusCount, List.countP_eq_zero]
    intro r hr
    rcases hmem r hr with h | h <;> simp [h]
  · symm
    rw [statusCount, List.countP_eq_zero]
    intro r hr
    rcases hmem r hr with h | h <;> simp [h]
  · symm
    rw [statusCount, List.countP_eq_zero]
    intro r hr
    rcases hmem r hr with h | h <;> simp [h]
  · symm
    rw [statusCount, List.countP_eq_zero]
    intro r hr
    rcases hmem r hr with h | h <;> simp [h]
  · symm
    rw [statusCount, List.countP_eq_zero]
    intro r hr
    rcases hmem r hr with h | h <;> simp [h]
  · symm
    rw [statusCount, List.countP_eq_zero]
    intro r hr
    rcases hmem r hr with h | h <;> simp [h]
  · symm
    rw [statusCount, List.countP_eq_zero]
    intro r hr
    rcases hmem r hr with h | h <;> simp [h]
  · rfl

theorem statusCount_pair_le (t : Table) :
    statusCount .FS_SEEN t + statusCount .FS_TOUCHED t ≤ t.length := by
  induction t with
  | nil => simp [statusCount]
  | cons r t' ih =>
    simp only [statusCount_cons, List.length_cons]
    cases hst : r.2.status <;> simp <;> omega

theorem length_eq_of_all (t : Table)
    (h : ∀ r ∈ t, r.2.status = .FS_SEEN ∨ r.2.status = .FS_TOUCHED) :
    t.length = statusCount .FS_SEEN t + statusCount .FS_TOUCHED t := by
  induction t with
  | nil => simp [statusCount]
  | cons r t' ih =>
    have hr := h r (List.mem_cons_self r t')
    have ih' := ih (fun x hx => h x (List.mem_cons_of_mem r hx))
    simp only [statusCount_cons, List.length_cons]
    rcases hr with hst | hst <;> rw [hst] <;> simp <;> omega

theorem all_of_length_eq (t : Table)
    (h : t.length = statusCount .FS_SEEN t + statusCount .FS_TOUCHED t) :
    ∀ r ∈ t, r.2.status = .FS_SEEN ∨ r.2.status = .FS_TOUCHED := by
  induction t with
  | nil => intro r hr; simp at hr
  | cons r t' ih =>
    have hle := statusCount_pair_le t'
    simp only [statusCount_cons, List.length_cons] at h
    cases hst : r.2.status <;> rw [hst] at h <;> simp at h <;>
      first
        | (exfalso; omega)
        | (intro x hx
           rcases List.mem_cons.mp hx with rfl | hx'
           · first
               | (left; exact hst)
               | (right; exact hst)
           · exact ih (by omega) x hx')

theorem filelist_clean_iff (s : ScanState) (hok : counters_ok s) :
    filelist_clean s = true ↔
      ∀ r ∈ s.filelist,
        r.2.status = .FS_SEEN ∨ r.2.status = .FS_TOUCHED := by
  unfold filelist_clean rb_size
  rw [beq_iff_eq, hok.1, hok.2.2.1]
  exact ⟨all_of_length_eq _, length_eq_of_all _⟩

/-- C1: starting from the state `main` sets up after parsing (every
parsed record UNSEEN, restrict marking applied, counters initialised)
and running any sequence of reconciler steps, batch mode computes exit
code 0 exactly when every record of the path→FileInfo table is SEEN or
TOUCHED, and exit code 1 exactly otherwise.  (`filelist_clean` compares
the table size with the seen+touched counters; the invariant that every
counter equals the number of records in its status makes this the
claimed record-wise condition.) -/
theorem claim_C1 (mp : Option CStr) (t0 : Table) (s : ScanState)
    (h0 : ∀ r ∈ t0, r.2.status = .FS_UNSEEN)
    (hreach : ScanReach (init_scan mp t0) s) :
    (main_batch_retcode s = 0 ↔
      ∀ r ∈ s.filelist, r.2.status = .FS_SEEN ∨ r.2.status = .FS_TOUCHED)
    ∧ (main_batch_retcode s = 1 ↔
      ¬ ∀ r ∈ s.filelist,
          r.2.status = .FS_SEEN ∨ r.2.status = .FS_TOUCHED) := by
  have hok := counters_ok_reach _ _ (counters_ok_init_scan mp t0 h0) hreach
  have hiff := filelist_clean_iff s hok
  unfold main_batch_retcode
  by_cases hc : filelist_clean s = true
  · rw [if_pos hc]
    refine ⟨⟨fun _ => hiff.mp hc, fun _ => rfl⟩, ?_, ?_⟩
    · intro h01
      exact absurd h01 (by decide)
    · intro hno
      exact (hno (hiff.mp hc)).elim
  · rw [if_neg hc]
    have hnot : ¬ ∀ r ∈ s.filelist,
        r.2.status = .FS_SEEN ∨ r.2.status = .FS_TOUCHED := by
      intro hall
      exact hc (hiff.mpr hall)
    refine ⟨⟨fun h10 => absurd h10 (by decide), fun hall => (hnot hall).elim⟩,
      fun _ => hnot, fun _ => rfl⟩

/-- Witness for C1: the empty table reaches itself in zero steps and is
clean, so batch mode exits 0. -/
theorem claim_C1_witness :
    main_batch_retcode (init_scan none []) = 0 ↔
      ∀ r ∈ (init_scan none []).filelist,
        r.2.status = .FS_SEEN ∨ r.2.status = .FS_TOUCHED :=
  (claim_C1 none [] (init_scan none [])
    (by intro r hr; simp at hr) Relation.ReflTransGen.refl).1

/-! ## Round-trip machinery (C6, C4, C8) -/

theorem dropWhile_cons_pos {p : Char → Bool} {c : Char} {l : CStr}
    (h : p c = true) : (c :: l).dropWhile p = l.dropWhile p := by
  simp [List.dropWhile, h]

theorem dropWhile_cons_neg {p : Char → Bool} {c : Char} {l : CStr}
    (h : p c = false) : (c :: l).dropWhile p = c :: l := by
  simp [List.dropWhile, h]

theorem takeWhile_cons_pos {p : Char → Bool} {c : Char} {l : CStr}
    (h : p c = true) : (c :: l).takeWhile p = c :: l.takeWhile p := by
  simp [List.takeWhile, h]

theorem takeWhile_cons_neg {p : Char → Bool} {c : Char} {l : CStr}
    (h : p c = false) : (c :: l).takeWhile p = [] := by
  simp [List.takeWhile, h]

/-- `rest` starts with a character outside the class (or is empty). -/
def headStops (p : Char → Bool) : CStr → Prop
  | [] => True
  | c :: _ => p c = false

theorem takeWhile_append_end {p : Char → Bool} (w rest : CStr)
    (hw : ∀ c ∈ w, p c = true) (hr : headStops p rest) :
    (w ++ rest).takeWhile p = w := by
  induction w with
  | nil =>
    cases rest with
    | nil => rfl
    | cons c l => exact takeWhile_cons_neg hr
  | cons c w' ih =>
    rw [List.cons_append,
      takeWhile_cons_pos (hw c (List.mem_cons_self c w')),
      ih (fun x hx => hw x (List.mem_cons_of_mem c hx))]

theorem dropWhile_append_end {p : Char → Bool} (w rest : CStr)
    (hw : ∀ c ∈ w, p c = true) (hr : headStops p rest) :
    (w ++ rest).dropWhile p = rest := by
  induction w with
  | nil =>
    cases rest with
    | nil => rfl
    | cons c l => exact dropWhile_cons_neg hr
  | cons c w' ih =>
    rw [List.cons_append,
      dropWhile_cons_pos (hw c (List.mem_cons_self c w')),
      ih (fun x hx => hw x (List.mem_cons_of_mem c hx))]

theorem stripNL_append (l : CStr) : stripNL (l ++ ['\n']) = l := by
  unfold stripNL
  rw [List.getLast?_concat]
  simp

/-- CRC accumulation over concatenated chunks (the per-line threading of
`read_digestfile` and `fprintfcrc` equals one pass over all bytes). -/
theorem crc32_append (c : Nat) (a b : List Nat) :
    crc32 (crc32 c a) b = crc32 c (a ++ b) := by
  simp only [crc32]
  rw [List.foldl_append]
  congr 2
  rw [Nat.xor_assoc, Nat.xor_self, Nat.xor_zero]

/-- The per-line CRC threading of the `read_digestfile` loop. -/
def crcFoldLines (c : Nat) (ls : List CStr) : Nat :=
  ls.foldl (fun a l => crc32 a (cstrBytes l)) c

theorem crcFoldLines_eq (c : Nat) (ls : List CStr) :
    crcFoldLines c ls = crc32 c (cstrBytes ls.flatten) := by
  induction ls generalizing c with
  | nil =>
    unfold crcFoldLines crc32
    simp [cstrBytes]
    rw [Nat.xor_assoc, Nat.xor_self, Nat.xor_zero]
  | cons l rest ih =>
    unfold crcFoldLines at *
    rw [List.foldl_cons, ih, List.flatten_cons]
    rw [show cstrBytes (l ++ rest.flatten) = cstrBytes l ++ cstrBytes rest.flatten
      from List.map_append _ _ _]
    exact crc32_append c _ _

/-! ### Digit and hex rendering facts -/

theorem natDec_all_digits (n : Nat) : ∀ c ∈ natDec n, isDigitC c = true := by
  induction n using Nat.strong_induction_on with
  | _ n ih =>
    intro c hc
    unfold natDec at hc
    by_cases h : n < 10
    · rw [dif_pos h] at hc
      rcases List.mem_singleton.mp hc with rfl
      interval_cases n <;> decide
    · rw [dif_neg h] at hc
      rcases List.mem_append.mp hc with h1 | h2
      · exact ih (n / 10) (Nat.div_lt_self (by omega) (by omega)) c h1
      · rcases List.mem_singleton.mp h2 with rfl
        have h10 : n % 10 < 10 := Nat.mod_lt _ (by omega)
        set m := n % 10 with hm
        interval_cases m <;> decide

theorem natDec_ne_nil (n : Nat) : natDec n ≠ [] := by
  unfold natDec
  by_cases h : n < 10
  · rw [dif_pos h]; simp
  · rw [dif_neg h]; simp

theorem digitsToNat_cons (a : Nat) (c : Char) (l : CStr) :
    digitsToNat a (c :: l) =
      if isDigitC c = true then
        digitsToNat (a * 10 + (c.toNat - '0'.toNat)) l
      else a := rfl

theorem digitsToNat_append (a : Nat) (x y : CStr)
    (hx : ∀ c ∈ x, isDigitC c = true) :
    digitsToNat a (x ++ y) = digitsToNat (digitsToNat a x) y := by
  induction x generalizing a with
  | nil => rfl
  | cons c x' ih =>
    rw [List.cons_append, digitsToNat_cons, digitsToNat_cons,
      if_pos (hx c (List.mem_cons_self c x')),
      if_pos (hx c (List.mem_cons_self c x'))]
    exact ih _ (fun d hd => hx d (List.mem_cons_of_mem c hd))

theorem digit_char_val (m : Nat) (h : m < 10) :
    (Char.ofNat ('0'.toNat + m)).toNat - '0'.toNat = m ∧
      isDigitC (Char.ofNat ('0'.toNat + m)) = true := by
  interval_cases m <;> exact ⟨by decide, by decide⟩

theorem digitsToNat_natDec (n : Nat) :
    ∀ a, digitsToNat a (natDec n) = a * 10 ^ (natDec n).length + n := by
  induction n using Nat.strong_induction_on with
  | _ n ih =>
    intro a
    unfold natDec
    by_cases h : n < 10
    · rw [dif_pos h]
      rw [digitsToNat_cons, if_pos (digit_char_val n h).2,
        (digit_char_val n h).1]
      simp [digitsToNat]
    · rw [dif_neg h]
      rw [digitsToNat_append _ _ _ (natDec_all_digits (n / 10))]
      rw [ih (n / 10) (Nat.div_lt_self (by omega) (by omega))]
      have h10 : n % 10 < 10 := Nat.mod_lt _ (by omega)
      rw [digitsToNat_cons, if_pos (digit_char_val _ h10).2,
        (digit_char_val _ h10).1]
      rw [List.length_append]
      calc (a * 10 ^ (natDec (n / 10)).length + n / 10) * 10 + n % 10
          = a * (10 ^ (natDec (n / 10)).length * 10)
            + (n / 10 * 10 + n % 10) := by ring
        _ = a * 10 ^ ((natDec (n / 10)).length + 1) + n := by
            rw [← pow_succ]
            congr 1
            omega
        _ = a * 10 ^ ((natDec (n / 10)).length + [Char.ofNat
              ('0'.toNat + n % 10)].length) + n := by rfl

theorem digitsToNat_natDec_zero (n : Nat) :
    digitsToNat 0 (natDec n) = n := by
  rw [digitsToNat_natDec n 0]
  simp

theorem hexDigit_val (v : Nat) (h : v < 16) :
    isXdigitC (hexDigit v) = true ∧ hexval (hexDigit v) = some v := by
  interval_cases v <;> exact ⟨by decide, by decide⟩

theorem bin2hex_cons (b : Nat) (d : Digest) :
    digest_bin2hex (b :: d) =
      hexDigit (b / 16 % 16) :: hexDigit (b % 16) :: digest_bin2hex d := rfl

theorem bin2hex_all_xdigit (d : Digest) :
    ∀ c ∈ digest_bin2hex d, isXdigitC c = true := by
  intro c hc
  unfold digest_bin2hex at hc
  rcases List.mem_flatMap.mp hc with ⟨b, _, hcb⟩
  have h1 : b / 16 % 16 < 16 := Nat.mod_lt _ (by omega)
  have h2 : b % 16 < 16 := Nat.mod_lt _ (by omega)
  rcases List.mem_cons.mp hcb with rfl | hcb2
  · exact (hexDigit_val _ h1).1
  · rcases List.mem_cons.mp hcb2 with rfl | hcb3
    · exact (hexDigit_val _ h2).1
    · simp at hcb3

theorem bin2hex_length (d : Digest) :
    (digest_bin2hex d).length = 2 * d.length := by
  induction d with
  | nil => rfl
  | cons b rest ih =>
    rw [bin2hex_cons]
    simp only [List.length_cons, ih]
    omega

theorem hex2binAux_bin2hex (d : Digest) (hb : ∀ b ∈ d, b < 256) :
    digest_hex2bin.hex2binAux (digest_bin2hex d) = some d := by
  induction d with
  | nil => rfl
  | cons b rest ih =>
    have hblt : b < 256 := hb b (List.mem_cons_self b rest)
    have h1 : b / 16 % 16 < 16 := Nat.mod_lt _ (by omega)
    have h2 : b % 16 < 16 := Nat.mod_lt _ (by omega)
    rw [bin2hex_cons]
    simp only [digest_hex2bin.hex2binAux, (hexDigit_val _ h1).2,
      (hexDigit_val _ h2).2,
      ih (fun x hx => hb x (List.mem_cons_of_mem b hx))]
    have : b / 16 % 16 * 16 + b % 16 = b := by omega
    rw [this]
    rfl

theorem hex2bin_bin2hex (d : Digest) (hb : ∀ b ∈ d, b < 256) :
    digest_hex2bin (digest_bin2hex d) = some d := by
  unfold digest_hex2bin
  rw [bin2hex_length, if_neg (by omega)]
  exact hex2binAux_bin2hex d hb

set_option maxHeartbeats 2000000 in
theorem hex8_all_xdigit (n : Nat) : ∀ c ∈ hex8 n, isXdigitC c = true := by
  intro c hc
  unfold hex8 at hc
  simp only [List.mem_cons, List.mem_singleton] at hc
  rcases hc with rfl | rfl | rfl | rfl | rfl | rfl | rfl | rfl | h
  all_goals try exact (hexDigit_val _ (Nat.mod_lt _ (by omega))).1
  simp at h

/-! ### Well-formed record tables for the round trip -/

/-- Digest byte size of each algorithm. -/
def dt_size : DigestType → Nat
  | .DT_NONE => 0
  | .DT_MD5 => 16
  | .DT_SHA1 => 20
  | .DT_SHA256 => 32
  | .DT_SHA512 => 64

/-- A record the serializer can write and the parser reads back: sane
mtime and size, a writable status, and exactly one of digest (of the
table's algorithm) and symlink target. -/
def wf_record (dt : DigestType) (r : CStr × FileInfo) : Prop :=
  0 ≤ r.2.mtime ∧ 0 ≤ r.2.size ∧ writable_status r.2.status = true ∧
  (match r.2.symlink with
   | some _ => r.2.digest = none
   | none => ∃ d, r.2.digest = some d ∧ d.length = dt_size dt ∧
       ∀ b ∈ d, b < 256)

/-- A serializable table: a definite algorithm, strictly increasing
paths (the in-order traversal of `g_filelist`), well-formed records. -/
def wf_table (dt : DigestType) (t : Table) : Prop :=
  dt ≠ .DT_NONE ∧ t.Pairwise (fun a b => cstr_lt a.1 b.1 = true) ∧
  ∀ r ∈ t, wf_record dt r

/-- What the parser reconstructs from an emitted record: same path,
mtime, size, digest and symlink target; status back to UNSEEN; no
error or oldpath (they are not serialized). -/
def resetRec (r : CStr × FileInfo) : CStr × FileInfo :=
  (r.1, { status := .FS_UNSEEN, mtime := r.2.mtime, size := r.2.size,
          error := none, digest := r.2.digest, symlink := r.2.symlink,
          oldpath := none })

/-! ## Digest-file round trip: line lemmas and claims C4, C6, C8 -/

theorem dropWhile_stops {p : Char → Bool} (l : CStr) (h : headStops p l) :
    l.dropWhile p = l := by
  cases l with
  | nil => rfl
  | cons c t => exact dropWhile_cons_neg h

theorem natDec_head_digit (n : Nat) :
    ∃ c t, natDec n = c :: t ∧ isDigitC c = true := by
  rcases hne : natDec n with _ | ⟨c, t⟩
  · exact absurd hne (natDec_ne_nil n)
  · exact ⟨c, t, rfl, natDec_all_digits n c (hne ▸ List.mem_cons_self c t)⟩

theorem headStops_natDec (p : Char → Bool) (n : Nat) (y : CStr)
    (h : ∀ c, isDigitC c = true → p c = false) :
    headStops p (natDec n ++ y) := by
  rcases natDec_head_digit n with ⟨c, t, heq, hdg⟩
  rw [heq, List.cons_append]
  exact h c hdg

theorem digit_not_space {c : Char} (h : isDigitC c = true) :
    isSpaceC c = false := by
  cases hs : isSpaceC c
  · rfl
  · exfalso
    unfold isSpaceC at hs
    simp only [Bool.or_eq_true, decide_eq_true_eq] at hs
    rcases hs with ((((rfl | rfl) | rfl) | rfl) | rfl) | rfl <;>
      exact absurd h (by decide)

theorem digit_not_word {c : Char} (h : isDigitC c = true) :
    isWordC c = false := by
  unfold isDigitC at h
  simp only [Bool.and_eq_true, decide_eq_true_eq] at h
  cases hw : isWordC c
  · rfl
  · exfalso
    unfold isWordC isAlphaC at hw
    simp only [Bool.or_eq_true, Bool.and_eq_true, decide_eq_true_eq] at hw
    rcases hw with (⟨h1, h2⟩ | ⟨h1, h2⟩) | rfl
    · exact absurd (le_trans h1 h.2) (by decide)
    · exact absurd (le_trans h1 h.2) (by decide)
    · exact absurd h (by decide)

theorem hsNatDecSpace (n : Nat) (y : CStr) :
    headStops isSpaceC (natDec n ++ y) :=
  headStops_natDec _ n y (fun _ h => digit_not_space h)

theorem hsNatDecWord (n : Nat) (y : CStr) :
    headStops isWordC (natDec n ++ y) :=
  headStops_natDec _ n y (fun _ h => digit_not_word h)

theorem parse_words_mtime_size (b p : Bool) (crc n m : Nat) (suffix : CStr)
    (ti : FileInfo) (ps : ParseState)
    (hd : headStops isDigitC suffix) (hsp : headSpaceOrNil suffix = true) :
    parse_words b p crc
      (' ' :: ("mtime".data ++ (' ' :: (natDec n ++ (' ' :: ("size".data ++
        (' ' :: (natDec m ++ suffix)))))))) ti ps
    = parse_words b p crc suffix
        { ti with mtime := (n : Int), size := (m : Int) } ps := by
  have e1 : List.dropWhile isSpaceC
      (' ' :: ("mtime".data ++ (' ' :: (natDec n ++ (' ' :: ("size".data ++
        (' ' :: (natDec m ++ suffix)))))))) =
      "mtime".data ++ (' ' :: (natDec n ++ (' ' :: ("size".data ++
        (' ' :: (natDec m ++ suffix)))))) := by
    rw [dropWhile_cons_pos (by decide)]
    exact dropWhile_stops _ (by show isSpaceC 'm' = false; decide)
  have e2 : List.takeWhile isWordC
      ("mtime".data ++ (' ' :: (natDec n ++ (' ' :: ("size".data ++
        (' ' :: (natDec m ++ suffix))))))) = "mtime".data :=
    takeWhile_append_end _ _ (by decide) (by show isWordC ' ' = false; decide)
  have e3 : List.dropWhile isWordC
      ("mtime".data ++ (' ' :: (natDec n ++ (' ' :: ("size".data ++
        (' ' :: (natDec m ++ suffix))))))) =
      ' ' :: (natDec n ++ (' ' :: ("size".data ++
        (' ' :: (natDec m ++ suffix))))) :=
    dropWhile_append_end _ _ (by decide) (by show isWordC ' ' = false; decide)
  have e4 : List.dropWhile isSpaceC
      (' ' :: (natDec n ++ (' ' :: ("size".data ++
        (' ' :: (natDec m ++ suffix)))))) =
      natDec n ++ (' ' :: ("size".data ++ (' ' :: (natDec m ++ suffix)))) := by
    rw [dropWhile_cons_pos (by decide)]
    exact dropWhile_stops _ (hsNatDecSpace n _)
  have e5 : List.takeWhile isDigitC
      (natDec n ++ (' ' :: ("size".data ++ (' ' :: (natDec m ++ suffix))))) =
      natDec n :=
    takeWhile_append_end _ _ (natDec_all_digits n)
      (by show isDigitC ' ' = false; decide)
  have e6 : List.dropWhile isDigitC
      (natDec n ++ (' ' :: ("size".data ++ (' ' :: (natDec m ++ suffix))))) =
      ' ' :: ("size".data ++ (' ' :: (natDec m ++ suffix))) :=
    dropWhile_append_end _ _ (natDec_all_digits n)
      (by show isDigitC ' ' = false; decide)
  have e7 : List.dropWhile isSpaceC
      (' ' :: ("size".data ++ (' ' :: (natDec m ++ suffix)))) =
      "size".data ++ (' ' :: (natDec m ++ suffix)) := by
    rw [dropWhile_cons_pos (by decide)]
    exact dropWhile_stops _ (by show isSpaceC 's' = false; decide)
  have e8 : List.takeWhile isWordC
      ("size".data ++ (' ' :: (natDec m ++ suffix))) = "size".data :=
    takeWhile_append_end _ _ (by decide) (by show isWordC ' ' = false; decide)
  have e9 : List.dropWhile isWordC
      ("size".data ++ (' ' :: (natDec m ++ suffix))) =
      ' ' :: (natDec m ++ suffix) :=
    dropWhile_append_end _ _ (by decide) (by show isWordC ' ' = false; decide)
  have e10 : List.dropWhile isSpaceC (' ' :: (natDec m ++ suffix)) =
      natDec m ++ suffix := by
    rw [dropWhile_cons_pos (by decide)]
    exact dropWhile_stops _ (hsNatDecSpace m _)
  have e11 : List.takeWhile isDigitC (natDec m ++ suffix) = natDec m :=
    takeWhile_append_end _ _ (natDec_all_digits m) hd
  have e12 : List.dropWhile isDigitC (natDec m ++ suffix) = suffix :=
    dropWhile_append_end _ _ (natDec_all_digits m) hd
  have k1 : cstr_starts "mtime".data "option".data = false := by decide
  have k2 : cstr_starts "mtime".data "mtime".data = true := by decide
  have k3 : cstr_starts "size".data "option".data = false := by decide
  have k4 : cstr_starts "size".data "mtime".data = false := by decide
  have k5 : cstr_starts "size".data "size".data = true := by decide
  have g1 : headSpaceOrNil (' ' :: (natDec n ++ (' ' :: ("size".data ++
      (' ' :: (natDec m ++ suffix)))))) = true := rfl
  have g2 : headSpaceOrNil (' ' :: ("size".data ++
      (' ' :: (natDec m ++ suffix)))) = true := rfl
  have g3 : headSpaceOrNil (' ' :: (natDec m ++ suffix)) = true := rfl
  simp only [parse_words, e1, e2, e3, e4, e5, e6, e7, e8, e9, e10, e11, e12,
    k1, k2, k3, k4, k5, g1, g2, g3, hsp, digitsToNat_natDec_zero,
    eq_self_iff_true, not_true, Bool.false_eq_true, if_true, if_false,
    dite_true, dite_false]

/-- `#: … target T`: the target keyword stores the raw symlink target. -/
theorem parse_words_target (b p : Bool) (crc : Nat) (T : CStr)
    (ti : FileInfo) (ps : ParseState) :
    parse_words b p crc (' ' :: ("target".data ++ (' ' :: T))) ti ps
    = .ret 0 { ti with symlink := some T } ps := by
  have e1 : List.dropWhile isSpaceC (' ' :: ("target".data ++ (' ' :: T))) =
      "target".data ++ (' ' :: T) := by
    rw [dropWhile_cons_pos (by decide)]
    exact dropWhile_stops _ (by show isSpaceC 't' = false; decide)
  have e2 : List.takeWhile isWordC ("target".data ++ (' ' :: T)) =
      "target".data :=
    takeWhile_append_end _ _ (by decide) (by show isWordC ' ' = false; decide)
  have e3 : List.dropWhile isWordC ("target".data ++ (' ' :: T)) =
      ' ' :: T :=
    dropWhile_append_end _ _ (by decide) (by show isWordC ' ' = false; decide)
  have g1 : headSpaceOrNil (' ' :: T) = true := rfl
  have k1 : cstr_starts "target".data "option".data = false := by decide
  have k2 : cstr_starts "target".data "mtime".data = false := by decide
  have k3 : cstr_starts "target".data "size".data = false := by decide
  have k4 : cstr_starts "target".data "target".data = true := by decide
  have sp : isSpaceC ' ' = true := rfl
  simp only [parse_words, e1, e2, e3, g1, k1, k2, k3, k4, sp,
    eq_self_iff_true, not_true, Bool.false_eq_true, if_true, if_false,
    dite_true, dite_false]

/-- `#: … target\ E`: the escaped-target keyword unescapes and stores. -/
theorem parse_words_target_esc (b p : Bool) (crc : Nat) (E T : CStr)
    (ti : FileInfo) (ps : ParseState)
    (hE : unescape_filename E = some T) :
    parse_words b p crc (' ' :: ("target\\".data ++ (' ' :: E))) ti ps
    = .ret 0 { ti with symlink := some T } ps := by
  have e1 : List.dropWhile isSpaceC (' ' :: ("target\\".data ++ (' ' :: E))) =
      "target\\".data ++ (' ' :: E) := by
    rw [dropWhile_cons_pos (by decide)]
    exact dropWhile_stops _ (by show isSpaceC 't' = false; decide)
  have e2 : List.takeWhile isWordC ("target\\".data ++ (' ' :: E)) =
      "target\\".data :=
    takeWhile_append_end _ _ (by decide) (by show isWordC ' ' = false; decide)
  have e3 : List.dropWhile isWordC ("target\\".data ++ (' ' :: E)) =
      ' ' :: E :=
    dropWhile_append_end _ _ (by decide) (by show isWordC ' ' = false; decide)
  have g1 : headSpaceOrNil (' ' :: E) = true := rfl
  have k1 : cstr_starts "target\\".data "option".data = false := by decide
  have k2 : cstr_starts "target\\".data "mtime".data = false := by decide
  have k3 : cstr_starts "target\\".data "size".data = false := by decide
  have k4 : cstr_starts "target\\".data "target".data = false := by decide
  have k5 : cstr_starts "target\\".data "target\\".data = true := by decide
  have sp : isSpaceC ' ' = true := rfl
  simp only [parse_words, e1, e2, e3, g1, k1, k2, k3, k4, k5, sp, hE,
    eq_self_iff_true, not_true, Bool.false_eq_true, if_true, if_false,
    dite_true, dite_false]

/-- `#: symlink P`: the commit keyword inserts the temporary record under
the raw path, unless the path already exists. -/
theorem parse_words_symlink (b p : Bool) (crc : Nat) (P : CStr)
    (ti : FileInfo) (ps : ParseState) :
    parse_words b p crc (' ' :: ("symlink".data ++ (' ' :: P))) ti ps
    = if (rb_find_str ps.filelist P).isSome then .ret (-1) ti ps
      else .ret 1 ti { ps with filelist := rb_insert_str P ti ps.filelist } := by
  have e1 : List.dropWhile isSpaceC (' ' :: ("symlink".data ++ (' ' :: P))) =
      "symlink".data ++ (' ' :: P) := by
    rw [dropWhile_cons_pos (by decide)]
    exact dropWhile_stops _ (by show isSpaceC 's' = false; decide)
  have e2 : List.takeWhile isWordC ("symlink".data ++ (' ' :: P)) =
      "symlink".data :=
    takeWhile_append_end _ _ (by decide) (by show isWordC ' ' = false; decide)
  have e3 : List.dropWhile isWordC ("symlink".data ++ (' ' :: P)) =
      ' ' :: P :=
    dropWhile_append_end _ _ (by decide) (by show isWordC ' ' = false; decide)
  have g1 : headSpaceOrNil (' ' :: P) = true := rfl
  have k1 : cstr_starts "symlink".data "option".data = false := by decide
  have k2 : cstr_starts "symlink".data "mtime".data = false := by decide
  have k3 : cstr_starts "symlink".data "size".data = false := by decide
  have k4 : cstr_starts "symlink".data "target".data = false := by decide
  have k5 : cstr_starts "symlink".data "target\\".data = false := by decide
  have k6 : cstr_starts "symlink".data "symlink".data = true := by decide
  have sp : isSpaceC ' ' = true := rfl
  simp only [parse_words, e1, e2, e3, g1, k1, k2, k3, k4, k5, k6, sp,
    eq_self_iff_true, not_true, Bool.false_eq_true, if_true, if_false,
    dite_true, dite_false]

/-- `#: symlink\ E`: escaped commit. -/
theorem parse_words_symlink_esc (b p : Bool) (crc : Nat) (E P : CStr)
    (ti : FileInfo) (ps : ParseState)
    (hE : unescape_filename E = some P) :
    parse_words b p crc (' ' :: ("symlink\\".data ++ (' ' :: E))) ti ps
    = if (rb_find_str ps.filelist P).isSome then .ret (-1) ti ps
      else .ret 1 ti { ps with filelist := rb_insert_str P ti ps.filelist } := by
  have e1 : List.dropWhile isSpaceC (' ' :: ("symlink\\".data ++ (' ' :: E))) =
      "symlink\\".data ++ (' ' :: E) := by
    rw [dropWhile_cons_pos (by decide)]
    exact dropWhile_stops _ (by show isSpaceC 's' = false; decide)
  have e2 : List.takeWhile isWordC ("symlink\\".data ++ (' ' :: E)) =
      "symlink\\".data :=
    takeWhile_append_end _ _ (by decide) (by show isWordC ' ' = false; decide)
  have e3 : List.dropWhile isWordC ("symlink\\".data ++ (' ' :: E)) =
      ' ' :: E :=
    dropWhile_append_end _ _ (by decide) (by show isWordC ' ' = false; decide)
  have g1 : headSpaceOrNil (' ' :: E) = true := rfl
  have k1 : cstr_starts "symlink\\".data "option".data = false := by decide
  have k2 : cstr_starts "symlink\\".data "mtime".data = false := by decide
  have k3 : cstr_starts "symlink\\".data "size".data = false := by decide
  have k4 : cstr_starts "symlink\\".data "target".data = false := by decide
  have k5 : cstr_starts "symlink\\".data "target\\".data = false := by decide
  have k6 : cstr_starts "symlink\\".data "symlink".data = false := by decide
  have k7 : cstr_starts "symlink\\".data "symlink\\".data = true := by decide
  have sp : isSpaceC ' ' = true := rfl
  simp only [parse_words, e1, e2, e3, g1, k1, k2, k3, k4, k5, k6, k7, sp, hE,
    eq_self_iff_true, not_true, Bool.false_eq_true, if_true, if_false,
    dite_true, dite_false]

/-- `#: option --exclude-marker=M`: the persistent option line. -/
theorem parse_words_option (b p : Bool) (crc : Nat) (m : CStr)
    (ti : FileInfo) (ps : ParseState) :
    parse_words b p crc
      (' ' :: ("option".data ++ (' ' :: ("--exclude-marker".data ++ ('=' :: m)))))
      ti ps
    = .ret 0 ti { ps with exclude_marker := some m } := by
  have e1 : List.dropWhile isSpaceC
      (' ' :: ("option".data ++ (' ' :: ("--exclude-marker".data ++ ('=' :: m))))) =
      "option".data ++ (' ' :: ("--exclude-marker".data ++ ('=' :: m))) := by
    rw [dropWhile_cons_pos (by decide)]
    exact dropWhile_stops _ (by show isSpaceC 'o' = false; decide)
  have e2 : List.takeWhile isWordC
      ("option".data ++ (' ' :: ("--exclude-marker".data ++ ('=' :: m)))) =
      "option".data :=
    takeWhile_append_end _ _ (by decide) (by show isWordC ' ' = false; decide)
  have e3 : List.dropWhile isWordC
      ("option".data ++ (' ' :: ("--exclude-marker".data ++ ('=' :: m)))) =
      ' ' :: ("--exclude-marker".data ++ ('=' :: m)) :=
    dropWhile_append_end _ _ (by decide) (by show isWordC ' ' = false; decide)
  have e4 : List.dropWhile isSpaceC
      (' ' :: ("--exclude-marker".data ++ ('=' :: m))) =
      "--exclude-marker".data ++ ('=' :: m) := by
    rw [dropWhile_cons_pos (by decide)]
    exact dropWhile_stops _ (by show isSpaceC '-' = false; decide)
  have e5 : List.takeWhile (fun c => c ≠ '=')
      ("--exclude-marker".data ++ ('=' :: m)) = "--exclude-marker".data :=
    takeWhile_append_end _ _ (by decide)
      (by show decide ('=' ≠ '=') = false; decide)
  have e6 : List.dropWhile (fun c => c ≠ '=')
      ("--exclude-marker".data ++ ('=' :: m)) = '=' :: m :=
    dropWhile_append_end _ _ (by decide)
      (by show decide ('=' ≠ '=') = false; decide)
  have g1 : headSpaceOrNil (' ' :: ("--exclude-marker".data ++ ('=' :: m))) =
      true := rfl
  have k1 : cstr_starts "option".data "option".data = true := by decide
  have k2 : cstr_starts "--exclude-marker".data "--exclude-marker".data =
      true := by decide
  simp only [parse_words, e1, e2, e3, e4, e5, e6, g1, k1, k2,
    List.head?_cons, List.tail_cons, Bool.true_and,
    eq_self_iff_true, not_true, Bool.false_eq_true, if_true, if_false,
    dite_true, dite_false, decide_eq_true_eq]

/-- `#: … eof`: the terminator keyword. -/
theorem parse_words_eof (b p : Bool) (crc : Nat)
    (ti : FileInfo) (ps : ParseState) :
    parse_words b p crc (' ' :: "eof".data) ti ps = .ret (-2) ti ps := by
  have e1 : List.dropWhile isSpaceC (' ' :: "eof".data) = "eof".data := by
    rw [dropWhile_cons_pos (by decide)]
    exact dropWhile_stops _ (by show isSpaceC 'e' = false; decide)
  have e2 : List.takeWhile isWordC "eof".data = "eof".data := by decide
  have e3 : List.dropWhile isWordC "eof".data = [] := by decide
  have g1 : headSpaceOrNil ([] : CStr) = true := rfl
  have k1 : cstr_starts "eof".data "option".data = false := by decide
  have k2 : cstr_starts "eof".data "mtime".data = false := by decide
  have k3 : cstr_starts "eof".data "size".data = false := by decide
  have k4 : cstr_starts "eof".data "target".data = false := by decide
  have k5 : cstr_starts "eof".data "target\\".data = false := by decide
  have k6 : cstr_starts "eof".data "symlink".data = false := by decide
  have k7 : cstr_starts "eof".data "symlink\\".data = false := by decide
  have k8 : cstr_starts "eof".data "crc".data = false := by decide
  have k9 : cstr_starts "eof".data "eof".data = true := by decide
  simp only [parse_words, e1, e2, e3, g1, k1, k2, k3, k4, k5, k6, k7, k8, k9,
    eq_self_iff_true, not_true, Bool.false_eq_true, if_true, if_false,
    dite_true, dite_false]

/-- `#: crc 0xHHHHHHHH eof`: the trailer.  The stored CRC is compared
against the running CRC from before this line; on mismatch batch mode
exits, interactive mode prompts (modelled by `promptYes`). -/
theorem parse_words_crc_eof (b p : Bool) (crc c' : Nat)
    (ti : FileInfo) (ps : ParseState) :
    parse_words b p crc
      (' ' :: ("crc".data ++ (' ' :: ('0' :: ('x' ::
        (hex8 c' ++ (' ' :: "eof".data))))))) ti ps
    = if hex8 c' = hex8 crc then .ret (-2) ti ps
      else if b then .exited (-1)
      else if p then .ret (-2) ti ps
      else .exited (-1) := by
  have e1 : List.dropWhile isSpaceC
      (' ' :: ("crc".data ++ (' ' :: ('0' :: ('x' ::
        (hex8 c' ++ (' ' :: "eof".data))))))) =
      "crc".data ++ (' ' :: ('0' :: ('x' :: (hex8 c' ++ (' ' :: "eof".data))))) := by
    rw [dropWhile_cons_pos (by decide)]
    exact dropWhile_stops _ (by show isSpaceC 'c' = false; decide)
  have e2 : List.takeWhile isWordC
      ("crc".data ++ (' ' :: ('0' :: ('x' :: (hex8 c' ++ (' ' :: "eof".data)))))) =
      "crc".data :=
    takeWhile_append_end _ _ (by decide) (by show isWordC ' ' = false; decide)
  have e3 : List.dropWhile isWordC
      ("crc".data ++ (' ' :: ('0' :: ('x' :: (hex8 c' ++ (' ' :: "eof".data)))))) =
      ' ' :: ('0' :: ('x' :: (hex8 c' ++ (' ' :: "eof".data)))) :=
    dropWhile_append_end _ _ (by decide) (by show isWordC ' ' = false; decide)
  have e4 : List.dropWhile isSpaceC
      (' ' :: ('0' :: ('x' :: (hex8 c' ++ (' ' :: "eof".data))))) =
      '0' :: ('x' :: (hex8 c' ++ (' ' :: "eof".data))) := by
    rw [dropWhile_cons_pos (by decide)]
    exact dropWhile_stops _ (by show isSpaceC '0' = false; decide)
  have e5 : List.takeWhile isXdigitC (hex8 c' ++ (' ' :: "eof".data)) =
      hex8 c' :=
    takeWhile_append_end _ _ (hex8_all_xdigit c')
      (by show isXdigitC ' ' = false; decide)
  have e6 : List.dropWhile isXdigitC (hex8 c' ++ (' ' :: "eof".data)) =
      ' ' :: "eof".data :=
    dropWhile_append_end _ _ (hex8_all_xdigit c')
      (by show isXdigitC ' ' = false; decide)
  have hlen : (hex8 c').length = 8 := rfl
  have g1 : headSpaceOrNil (' ' :: ('0' :: ('x' ::
      (hex8 c' ++ (' ' :: "eof".data))))) = true := rfl
  have k1 : cstr_starts "crc".data "option".data = false := by decide
  have k2 : cstr_starts "crc".data "mtime".data = false := by decide
  have k3 : cstr_starts "crc".data "size".data = false := by decide
  have k4 : cstr_starts "crc".data "target".data = false := by decide
  have k5 : cstr_starts "crc".data "target\\".data = false := by decide
  have k6 : cstr_starts "crc".data "symlink".data = false := by decide
  have k7 : cstr_starts "crc".data "symlink\\".data = false := by decide
  have k8 : cstr_starts "crc".data "crc".data = true := by decide
  have echain : List.dropWhile isSpaceC (List.dropWhile isWordC
      (List.dropWhile isSpaceC
        (' ' :: ("crc".data ++ (' ' :: ('0' :: ('x' ::
          (hex8 c' ++ (' ' :: "eof".data))))))))) =
      '0' :: ('x' :: (hex8 c' ++ (' ' :: "eof".data))) := by
    rw [e1, e3, e4]
  simp only [parse_words, e1, e2, e3, g1,
    k1, k2, k3, k4, k5, k6, k7, k8,
    eq_self_iff_true, not_true, Bool.false_eq_true, if_true, if_false,
    dite_true, dite_false]
  split
  · rename_i r4 heq
    rw [echain] at heq
    injection heq with h1 heq
    injection heq with h2 heq
    subst heq
    simp only [e5, e6, hlen, parse_words_eof,
      eq_self_iff_true, not_true, if_false, ne_eq, not_false_eq_true]
    by_cases hc : hex8 c' = hex8 crc
    · simp only [hc, eq_self_iff_true, if_true]
      exact parse_words_eof b p crc ti ps
    · simp only [hc, if_false, not_false_eq_true, if_true,
        show parse_words b p crc ((' ' :: "eof".data) : CStr) ti ps =
          PLR.ret (-2) ti ps from parse_words_eof b p crc ti ps]
  · rename_i hno
    exact (hno _ echain).elim

/-- Hex digits are not magic characters of the line scanner. -/
theorem hexDigit_ne (v : Nat) (h : v < 16) :
    hexDigit v ≠ '\\' ∧ hexDigit v ≠ '#' ∧ isSpaceC (hexDigit v) = false := by
  interval_cases v <;> exact ⟨by decide, by decide, by decide⟩

theorem bin2hex_head (d : Digest) (hne : d ≠ []) :
    ∃ v rest, digest_bin2hex d = hexDigit v :: rest ∧ v < 16 := by
  cases d with
  | nil => exact absurd rfl hne
  | cons b d' =>
    exact ⟨b / 16 % 16, hexDigit (b % 16) :: digest_bin2hex d',
      bin2hex_cons b d', Nat.mod_lt _ (by omega)⟩

/-- A `#:` comment line dispatches to the keyword scanner. -/
theorem parse_digestline_comment (b p : Bool) (r2 : CStr) (ti : FileInfo)
    (ps : ParseState) (crc : Nat) :
    parse_digestline b p ('#' :: ':' :: r2) ti ps crc =
      parse_words b p crc r2 ti ps := rfl

/-- A line whose first character is not a space and not `#` is handled
as a digest-record line. -/
theorem parse_digestline_nonhash (b p : Bool) (line : CStr) (ti : FileInfo)
    (ps : ParseState) (crc : Nat)
    (hsp : headStops isSpaceC line)
    (hne : line.head? ≠ some '#') :
    parse_digestline b p line ti ps crc = parse_recordline line ti ps := by
  simp only [parse_digestline]
  rw [dropWhile_stops _ hsp]
  split
  all_goals first
    | rfl
    | exact absurd rfl hne

/-- A digest-record line carrying the hex of a well-formed digest and an
unescaped filename: dropped on a duplicate path, otherwise committed with
the digest and the inferred type. -/
theorem parse_recordline_file (dt : DigestType) (d : Digest) (name : CStr)
    (ti : FileInfo) (ps : ParseState)
    (hdt : dt ≠ .DT_NONE) (hlen : d.length = dt_size dt)
    (hbytes : ∀ x ∈ d, x < 256)
    (hps : ps.digesttype = .DT_NONE ∨ ps.digesttype = dt) :
    parse_recordline (digest_bin2hex d ++ (' ' :: (' ' :: name))) ti ps
    = if (rb_find_str ps.filelist name).isSome then .ret (-1) ti ps
      else .ret 1 ti
        { ps with
          filelist := rb_insert_str name { ti with digest := some d }
            ps.filelist,
          digesttype := dt } := by
  have hdne : d ≠ [] := by
    intro hnil
    rw [hnil] at hlen
    cases dt
    · exact hdt rfl
    all_goals simp [dt_size] at hlen
  obtain ⟨v, trest, hbh, hvlt⟩ := bin2hex_head d hdne
  have hh : (digest_bin2hex d ++ (' ' :: (' ' :: name))).head? =
      some (hexDigit v) := by rw [hbh]; rfl
  have hescF : ((digest_bin2hex d ++ (' ' :: (' ' :: name))).head? =
      some '\\') = False := by
    rw [hh]
    simp only [Option.some.injEq]
    exact eq_false (hexDigit_ne v hvlt).1
  have hescF2 : (List.head? (digest_bin2hex d) = some '\\') = False := by
    rw [hbh]
    simp only [List.head?_cons, Option.some.injEq]
    exact eq_false (hexDigit_ne v hvlt).1
  have ehex : List.takeWhile isXdigitC
      (digest_bin2hex d ++ (' ' :: (' ' :: name))) = digest_bin2hex d :=
    takeWhile_append_end _ _ (bin2hex_all_xdigit d)
      (by show isXdigitC ' ' = false; decide)
  have edrop : List.dropWhile isXdigitC
      (digest_bin2hex d ++ (' ' :: (' ' :: name))) = ' ' :: (' ' :: name) :=
    dropWhile_append_end _ _ (bin2hex_all_xdigit d)
      (by show isXdigitC ' ' = false; decide)
  have ehexbin : digest_hex2bin (digest_bin2hex d) = some d :=
    hex2bin_bin2hex d hbytes
  have elen2 : (digest_bin2hex d).length = 2 * dt_size dt := by
    rw [bin2hex_length, hlen]
  have hstrict : parse_recordline.headSpaceOrNilStrict (' ' :: (' ' :: name)) =
      true := rfl
  rcases hps with h | h <;> cases dt <;>
    first
    | exact absurd rfl hdt
    | (simp [dt_size] at elen2
       simp [parse_recordline, ehex, edrop, elen2, hescF, hescF2, ehexbin,
         hstrict, h])

/-- The escaped form of a digest-record line (leading backslash, escaped
filename). -/
theorem parse_recordline_file_esc (dt : DigestType) (d : Digest)
    (ename name : CStr) (ti : FileInfo) (ps : ParseState)
    (hdt : dt ≠ .DT_NONE) (hlen : d.length = dt_size dt)
    (hbytes : ∀ x ∈ d, x < 256)
    (hps : ps.digesttype = .DT_NONE ∨ ps.digesttype = dt)
    (hE : unescape_filename ename = some name) :
    parse_recordline ('\\' :: (digest_bin2hex d ++ (' ' :: (' ' :: ename))))
      ti ps
    = if (rb_find_str ps.filelist name).isSome then .ret (-1) ti ps
      else .ret 1 ti
        { ps with
          filelist := rb_insert_str name { ti with digest := some d }
            ps.filelist,
          digesttype := dt } := by
  have ehex : List.takeWhile isXdigitC
      (digest_bin2hex d ++ (' ' :: (' ' :: ename))) = digest_bin2hex d :=
    takeWhile_append_end _ _ (bin2hex_all_xdigit d)
      (by show isXdigitC ' ' = false; decide)
  have edrop : List.dropWhile isXdigitC
      (digest_bin2hex d ++ (' ' :: (' ' :: ename))) = ' ' :: (' ' :: ename) :=
    dropWhile_append_end _ _ (bin2hex_all_xdigit d)
      (by show isXdigitC ' ' = false; decide)
  have ehexbin : digest_hex2bin (digest_bin2hex d) = some d :=
    hex2bin_bin2hex d hbytes
  have elen2 : (digest_bin2hex d).length = 2 * dt_size dt := by
    rw [bin2hex_length, hlen]
  have hstrict : parse_recordline.headSpaceOrNilStrict (' ' :: (' ' :: ename)) =
      true := rfl
  rcases hps with h | h <;> cases dt <;>
    first
    | exact absurd rfl hdt
    | (simp [dt_size] at elen2
       simp [parse_recordline, List.tail_cons, ehex, edrop, elen2, ehexbin,
         hstrict, hE, h])

/-- A digest-record line whose inferred algorithm conflicts with the
already-established one makes the parser call `exit(0)`. -/
theorem parse_recordline_mix (dt : DigestType) (d : Digest) (name : CStr)
    (ti : FileInfo) (ps : ParseState)
    (hdt : dt ≠ .DT_NONE) (hlen : d.length = dt_size dt)
    (hbytes : ∀ x ∈ d, x < 256)
    (hmix1 : ps.digesttype ≠ .DT_NONE) (hmix2 : dt ≠ ps.digesttype) :
    parse_recordline (digest_bin2hex d ++ (' ' :: (' ' :: name))) ti ps
    = .exited 0 := by
  have hdne : d ≠ [] := by
    intro hnil
    rw [hnil] at hlen
    cases dt
    · exact hdt rfl
    all_goals simp [dt_size] at hlen
  obtain ⟨v, trest, hbh, hvlt⟩ := bin2hex_head d hdne
  have hescF2 : (List.head? (digest_bin2hex d) = some '\\') = False := by
    rw [hbh]
    simp only [List.head?_cons, Option.some.injEq]
    exact eq_false (hexDigit_ne v hvlt).1
  have ehex : List.takeWhile isXdigitC
      (digest_bin2hex d ++ (' ' :: (' ' :: name))) = digest_bin2hex d :=
    takeWhile_append_end _ _ (bin2hex_all_xdigit d)
      (by show isXdigitC ' ' = false; decide)
  have edrop : List.dropWhile isXdigitC
      (digest_bin2hex d ++ (' ' :: (' ' :: name))) = ' ' :: (' ' :: name) :=
    dropWhile_append_end _ _ (bin2hex_all_xdigit d)
      (by show isXdigitC ' ' = false; decide)
  have ehexbin : digest_hex2bin (digest_bin2hex d) = some d :=
    hex2bin_bin2hex d hbytes
  have elen2 : (digest_bin2hex d).length = 2 * dt_size dt := by
    rw [bin2hex_length, hlen]
  have hstrict : parse_recordline.headSpaceOrNilStrict (' ' :: (' ' :: name)) =
      true := rfl
  cases dt <;>
    first
    | exact absurd rfl hdt
    | (simp [dt_size] at elen2
       simp [parse_recordline, ehex, edrop, elen2, hescF2, ehexbin,
         hstrict, hmix1, hmix2])

/-! ### Loop-step and tree lemmas for the round trip -/

/-- One `getline` iteration on a line the parser accepts. -/
theorem read_lines_cons_ret (b p : Bool) (line : CStr) (rest : List CStr)
    (st : RdState) (r : Int) (ti' : FileInfo) (ps' : ParseState)
    (h : parse_digestline b p (stripNL line) st.ti st.ps st.crc =
      .ret r ti' ps') :
    read_lines b p (line :: rest) st =
      read_lines b p rest
        ⟨ps', if r ≠ 0 then emptyFileInfo else ti',
         crc32 st.crc (cstrBytes line), r⟩ := by
  rw [read_lines, h]

/-- One `getline` iteration on a line that calls `exit()`. -/
theorem read_lines_cons_exit (b p : Bool) (line : CStr) (rest : List CStr)
    (st : RdState) (c : Int)
    (h : parse_digestline b p (stripNL line) st.ti st.ps st.crc =
      .exited c) :
    read_lines b p (line :: rest) st = .error c := by
  rw [read_lines, h]

theorem cstr_lt_irrefl (a : CStr) : cstr_lt a a = false := by
  induction a with
  | nil => rfl
  | cons c t ih => simp [cstr_lt, ih]

theorem cstr_lt_ne {a b : CStr} (h : cstr_lt a b = true) : a ≠ b := by
  intro hab
  rw [hab, cstr_lt_irrefl] at h
  exact absurd h (by decide)

theorem cstr_lt_asymm (a : CStr) :
    ∀ b, cstr_lt a b = true → cstr_lt b a = false := by
  induction a with
  | nil =>
    intro b hb
    cases b with
    | nil => rfl
    | cons c bs => rfl
  | cons c as ih =>
    intro b hb
    cases b with
    | nil => simp [cstr_lt] at hb
    | cons d bs =>
      unfold cstr_lt at hb ⊢
      by_cases h1 : c.toNat < d.toNat
      · rw [if_neg (by omega), if_pos h1]
      · by_cases h2 : d.toNat < c.toNat
        · rw [if_neg h1, if_pos h2] at hb
          exact absurd hb (by decide)
        · rw [if_neg h1, if_neg h2] at hb
          rw [if_neg h2, if_neg h1]
          exact ih bs hb

theorem rb_find_str_eq_none (t : Table) (k : CStr)
    (h : ∀ r ∈ t, r.1 ≠ k) : rb_find_str t k = none := by
  unfold rb_find_str
  rw [List.find?_eq_none.mpr]
  · rfl
  · intro r hr
    simp only [beq_iff_eq]
    exact h r hr

theorem rb_insert_str_append (k : CStr) (v : FileInfo) (t : Table)
    (h : ∀ r ∈ t, cstr_lt k r.1 = false) :
    rb_insert_str k v t = t ++ [(k, v)] := by
  induction t with
  | nil => rfl
  | cons r t' ih =>
    obtain ⟨k', v'⟩ := r
    have hk := h (k', v') (List.mem_cons_self _ _)
    simp only [rb_insert_str]
    rw [if_neg (by simp at hk ⊢; exact hk)]
    rw [ih (fun x hx => h x (List.mem_cons_of_mem _ hx))]
    rfl

/-- Decoding always inverts `needescape_filename`'s output. -/
theorem unescape_needescape (s : CStr) :
    unescape_filename (needescape_filename s).2 = some s := by
  unfold needescape_filename
  by_cases h : s.countP (fun c => c = '\\' || c = '\n') = 0
  · rw [if_pos h]
    have h2 := List.countP_eq_zero.mp h
    apply unescape_no_backslash
    intro hm
    have := h2 _ hm
    simp at this
  · rw [if_neg h]
    exact unescape_escape_char s

/-- When no escaping was needed, the emitted name is the original. -/
theorem needescape_fst_false (s : CStr)
    (h : (needescape_filename s).1 = false) :
    (needescape_filename s).2 = s := by
  unfold needescape_filename at *
  by_cases hc : s.countP (fun c => c = '\\' || c = '\n') = 0
  · rw [if_pos hc]
  · rw [if_neg hc] at h
    simp at h

/-- printf of a non-negative value renders its decimal digits. -/
theorem intDec_nonneg (x : Int) (h : 0 ≤ x) :
    intDec x = natDec x.toNat := by
  unfold intDec
  rw [if_neg (by omega)]

theorem parse_words_nil (b p : Bool) (crc : Nat) (ti : FileInfo)
    (ps : ParseState) : parse_words b p crc [] ti ps = .ret 0 ti ps := by
  rw [parse_words]

/-- Reading back the two lines emitted for a file record: commits the
record under its path with status UNSEEN and establishes the digest
type. -/
theorem read_lines_record_file (b p : Bool) (dt : DigestType)
    (path : CStr) (fi : FileInfo) (d : Digest) (rest : List CStr)
    (st : RdState)
    (hdt : dt ≠ .DT_NONE) (hmt : 0 ≤ fi.mtime) (hsz : 0 ≤ fi.size)
    (hsym : fi.symlink = none) (hd : fi.digest = some d)
    (hdlen : d.length = dt_size dt) (hdbytes : ∀ x ∈ d, x < 256)
    (hti : st.ti = emptyFileInfo)
    (hps : st.ps.digesttype = .DT_NONE ∨ st.ps.digesttype = dt)
    (hfind : rb_find_str st.ps.filelist path = none) :
    read_lines b p (record_lines (path, fi) ++ rest) st =
      read_lines b p rest
        ⟨⟨rb_insert_str path (resetRec (path, fi)).2 st.ps.filelist, dt,
          st.ps.exclude_marker⟩,
         emptyFileInfo, crcFoldLines st.crc (record_lines (path, fi)), 1⟩ := by
  obtain ⟨ps0, ti0, crc0, res0⟩ := st
  simp only at hti hps hfind ⊢
  subst hti
  by_cases hef : (needescape_filename path).1 = true
  case neg =>
    have hef2 : (needescape_filename path).2 = path :=
      needescape_fst_false _ (by simpa using hef)
    have hrl : record_lines (path, fi) =
        [("#: mtime ".data ++ (natDec fi.mtime.toNat ++ (" size ".data ++
           natDec fi.size.toNat))) ++ ['\n'],
         (digest_bin2hex d ++ (' ' :: (' ' :: path))) ++ ['\n']] := by
      simp [record_lines, hsym, hd, hef, hef2,
        intDec_nonneg _ hmt, intDec_nonneg _ hsz, List.append_assoc]
    have hb1 : "#: mtime ".data ++ (natDec fi.mtime.toNat ++ (" size ".data ++
        natDec fi.size.toNat)) =
        '#' :: ':' :: (' ' :: ("mtime".data ++ (' ' :: (natDec fi.mtime.toNat ++
          (' ' :: ("size".data ++ (' ' :: (natDec fi.size.toNat ++
            ([] : CStr))))))))) := by
      simp
    have hp1 : parse_digestline b p
        (stripNL (("#: mtime ".data ++ (natDec fi.mtime.toNat ++
          (" size ".data ++ natDec fi.size.toNat))) ++ ['\n']))
        emptyFileInfo ps0 crc0 =
        .ret 0
          { emptyFileInfo with
            mtime := (fi.mtime.toNat : Int), size := (fi.size.toNat : Int) }
          ps0 := by
      rw [stripNL_append, hb1, parse_digestline_comment,
        parse_words_mtime_size b p crc0 _ _ [] emptyFileInfo ps0 trivial rfl,
        parse_words_nil]
    obtain ⟨v, trest, hbh, hvlt⟩ := bin2hex_head d (by
      intro hnil
      rw [hnil] at hdlen
      cases dt
      · exact absurd rfl hdt
      all_goals simp [dt_size] at hdlen)
    have hsp2 : headStops isSpaceC (digest_bin2hex d ++ (' ' :: (' ' :: path))) := by
      rw [hbh, List.cons_append]
      exact (hexDigit_ne v hvlt).2.2
    have hne2 : (digest_bin2hex d ++ (' ' :: (' ' :: path))).head? ≠
        some '#' := by
      rw [hbh, List.cons_append]
      simp only [List.head?_cons, ne_eq, Option.some.injEq]
      exact (hexDigit_ne v hvlt).2.1
    have hp2 : parse_digestline b p
        (stripNL ((digest_bin2hex d ++ (' ' :: (' ' :: path))) ++ ['\n']))
        ({ emptyFileInfo with
           mtime := (fi.mtime.toNat : Int), size := (fi.size.toNat : Int) })
        ps0 (crc32 crc0 (cstrBytes
             (("#: mtime ".data ++ (natDec fi.mtime.toNat ++ (" size ".data ++
               natDec fi.size.toNat))) ++ ['\n']))) =
        .ret 1
          ({ emptyFileInfo with
             mtime := (fi.mtime.toNat : Int), size := (fi.size.toNat : Int) })
          { ps0 with
            filelist := rb_insert_str path (resetRec (path, fi)).2 ps0.filelist,
            digesttype := dt } := by
      rw [stripNL_append, parse_digestline_nonhash _ _ _ _ _ _ hsp2 hne2]
      rw [parse_recordline_file dt d path _ ps0 hdt hdlen hdbytes hps]
      rw [hfind]
      simp only [Option.isSome_none, Bool.false_eq_true, if_false]
      congr 1
      simp [resetRec, emptyFileInfo, hd, hsym,
        Int.toNat_of_nonneg hmt, Int.toNat_of_nonneg hsz]
    rw [hrl]
    simp only [List.cons_append, List.nil_append]
    rw [read_lines_cons_ret b p _ _ _ _ _ _ hp1]
    rw [read_lines_cons_ret b p _ _ _ _ _ _ hp2]
    simp [crcFoldLines]
  case pos =>
    have hrl : record_lines (path, fi) =
        [("#: mtime ".data ++ (natDec fi.mtime.toNat ++ (" size ".data ++
           natDec fi.size.toNat))) ++ ['\n'],
         ('\\' :: (digest_bin2hex d ++ (' ' :: (' ' ::
           (needescape_filename path).2)))) ++ ['\n']] := by
      simp [record_lines, hsym, hd, hef,
        intDec_nonneg _ hmt, intDec_nonneg _ hsz, List.append_assoc]
    have hb1 : "#: mtime ".data ++ (natDec fi.mtime.toNat ++ (" size ".data ++
        natDec fi.size.toNat)) =
        '#' :: ':' :: (' ' :: ("mtime".data ++ (' ' :: (natDec fi.mtime.toNat ++
          (' ' :: ("size".data ++ (' ' :: (natDec fi.size.toNat ++
            ([] : CStr))))))))) := by
      simp
    have hp1 : parse_digestline b p
        (stripNL (("#: mtime ".data ++ (natDec fi.mtime.toNat ++
          (" size ".data ++ natDec fi.size.toNat))) ++ ['\n']))
        emptyFileInfo ps0 crc0 =
        .ret 0
          { emptyFileInfo with
            mtime := (fi.mtime.toNat : Int), size := (fi.size.toNat : Int) }
          ps0 := by
      rw [stripNL_append, hb1, parse_digestline_comment,
        parse_words_mtime_size b p crc0 _ _ [] emptyFileInfo ps0 trivial rfl,
        parse_words_nil]
    have hp2 : parse_digestline b p
        (stripNL (('\\' :: (digest_bin2hex d ++ (' ' :: (' ' ::
          (needescape_filename path).2)))) ++ ['\n']))
        ({ emptyFileInfo with
           mtime := (fi.mtime.toNat : Int), size := (fi.size.toNat : Int) })
        ps0 (crc32 crc0 (cstrBytes
             (("#: mtime ".data ++ (natDec fi.mtime.toNat ++ (" size ".data ++
               natDec fi.size.toNat))) ++ ['\n']))) =
        .ret 1
          ({ emptyFileInfo with
             mtime := (fi.mtime.toNat : Int), size := (fi.size.toNat : Int) })
          { ps0 with
            filelist := rb_insert_str path (resetRec (path, fi)).2 ps0.filelist,
            digesttype := dt } := by
      rw [stripNL_append]
      rw [show (('\\' :: (digest_bin2hex d ++ (' ' :: (' ' ::
        (needescape_filename path).2)))) : CStr) ++ ['\n'] =
        '\\' :: ((digest_bin2hex d ++ (' ' :: (' ' ::
          (needescape_filename path).2))) ++ ['\n']) from rfl] at *
      rw [show parse_digestline b p ('\\' :: (digest_bin2hex d ++ (' ' :: (' ' ::
          (needescape_filename path).2))))
          ({ emptyFileInfo with
             mtime := (fi.mtime.toNat : Int), size := (fi.size.toNat : Int) })
          ps0 (crc32 crc0 (cstrBytes
             (("#: mtime ".data ++ (natDec fi.mtime.toNat ++ (" size ".data ++
               natDec fi.size.toNat))) ++ ['\n']))) =
          parse_recordline ('\\' :: (digest_bin2hex d ++ (' ' :: (' ' ::
            (needescape_filename path).2))))
            ({ emptyFileInfo with
             mtime := (fi.mtime.toNat : Int), size := (fi.size.toNat : Int) })
          ps0 from rfl]
      rw [parse_recordline_file_esc dt d _ path _ ps0 hdt hdlen hdbytes hps
        (unescape_needescape path)]
      rw [hfind]
      simp only [Option.isSome_none, Bool.false_eq_true, if_false]
      congr 1
      simp [resetRec, emptyFileInfo, hd, hsym,
        Int.toNat_of_nonneg hmt, Int.toNat_of_nonneg hsz]
    rw [hrl]
    simp only [List.cons_append, List.nil_append]
    rw [read_lines_cons_ret b p _ _ _ _ _ _ hp1]
    rw [read_lines_cons_ret b p _ _ _ _ _ _ hp2]
    simp [crcFoldLines]

/-- Reading back the two lines emitted for a symlink record: commits the
record (mtime, size, target; no digest) under its path with status
UNSEEN; the digest type is untouched. -/
theorem read_lines_record_symlink (b p : Bool)
    (path target : CStr) (fi : FileInfo) (rest : List CStr) (st : RdState)
    (hmt : 0 ≤ fi.mtime) (hsz : 0 ≤ fi.size)
    (hsym : fi.symlink = some target) (hd : fi.digest = none)
    (hti : st.ti = emptyFileInfo)
    (hfind : rb_find_str st.ps.filelist path = none) :
    read_lines b p (record_lines (path, fi) ++ rest) st =
      read_lines b p rest
        ⟨⟨rb_insert_str path (resetRec (path, fi)).2 st.ps.filelist,
          st.ps.digesttype, st.ps.exclude_marker⟩,
         emptyFileInfo, crcFoldLines st.crc (record_lines (path, fi)), 1⟩ := by
  obtain ⟨ps0, ti0, crc0, res0⟩ := st
  simp only at hti hfind ⊢
  subst hti
  have hval : ({ { { emptyFileInfo with mtime := (fi.mtime.toNat : Int) } with
         size := (fi.size.toNat : Int) } with
       symlink := some target } : FileInfo) = (resetRec (path, fi)).2 := by
    simp [resetRec, emptyFileInfo, hd, hsym,
      Int.toNat_of_nonneg hmt, Int.toNat_of_nonneg hsz]
  by_cases het : (needescape_filename target).1 = true
  case pos =>
    by_cases hef : (needescape_filename path).1 = true
    case pos =>
      have hrl : record_lines (path, fi) =
          [("#: mtime ".data ++ (natDec fi.mtime.toNat ++ (" size ".data ++
            (natDec fi.size.toNat ++ (' ' :: ("target\\".data ++
              (' ' :: (needescape_filename target).2))))))) ++ ['\n'],
           ("#: symlink\\ ".data ++ (needescape_filename path).2) ++ ['\n']] := by
        simp [record_lines, hsym, het, hef, intDec_nonneg _ hmt, intDec_nonneg _ hsz, List.append_assoc]
      have hb1 : "#: mtime ".data ++ (natDec fi.mtime.toNat ++ (" size ".data ++
          (natDec fi.size.toNat ++ (' ' :: ("target\\".data ++
            (' ' :: (needescape_filename target).2)))))) =
          '#' :: ':' :: (' ' :: ("mtime".data ++ (' ' ::
            (natDec fi.mtime.toNat ++ (' ' :: ("size".data ++ (' ' ::
              (natDec fi.size.toNat ++ (' ' :: ("target\\".data ++
                (' ' :: (needescape_filename target).2))))))))))) := by
        simp
      have hb2 : "#: symlink\\ ".data ++ (needescape_filename path).2 =
          '#' :: ':' :: (' ' :: ("symlink\\".data ++ (' ' :: (needescape_filename path).2))) := by
        simp
      have hp1 : parse_digestline b p
          (stripNL (("#: mtime ".data ++ (natDec fi.mtime.toNat ++ (" size ".data ++
              (natDec fi.size.toNat ++ (' ' :: ("target\\".data ++
                (' ' :: (needescape_filename target).2))))))) ++ ['\n'])) emptyFileInfo ps0 crc0 =
          .ret 0 (resetRec (path, fi)).2 ps0 := by
        rw [stripNL_append, hb1, parse_digestline_comment,
          parse_words_mtime_size b p crc0 _ _
            (' ' :: ("target\\".data ++ (' ' :: (needescape_filename target).2))) emptyFileInfo ps0 rfl rfl,
          parse_words_target_esc b p crc0 _ target _ ps0 (unescape_needescape target)]
        rw [hval]
      have hp2 : parse_digestline b p
          (stripNL (("#: symlink\\ ".data ++ (needescape_filename path).2) ++ ['\n']))
          ((resetRec (path, fi)).2) ps0 (crc32 crc0 (cstrBytes
            (("#: mtime ".data ++ (natDec fi.mtime.toNat ++ (" size ".data ++
                (natDec fi.size.toNat ++ (' ' :: ("target\\".data ++
                  (' ' :: (needescape_filename target).2))))))) ++ ['\n']))) =
          .ret 1 ((resetRec (path, fi)).2)
            { ps0 with
              filelist := rb_insert_str path (resetRec (path, fi)).2
                ps0.filelist } := by
        rw [stripNL_append, hb2, parse_digestline_comment, parse_words_symlink_esc b p _ _ path _ ps0 (unescape_needescape path)]
        rw [hfind]
        simp only [Option.isSome_none, Bool.false_eq_true, if_false]
      rw [hrl]
      simp only [List.cons_append, List.nil_append]
      rw [read_lines_cons_ret b p _ _ _ _ _ _ hp1]
      rw [read_lines_cons_ret b p _ _ _ _ _ _ hp2]
      simp [crcFoldLines]
    case neg =>
      have hef2 : (needescape_filename path).2 = path :=
        needescape_fst_false _ (by simpa using hef)
      have hrl : record_lines (path, fi) =
          [("#: mtime ".data ++ (natDec fi.mtime.toNat ++ (" size ".data ++
            (natDec fi.size.toNat ++ (' ' :: ("target\\".data ++
              (' ' :: (needescape_filename target).2))))))) ++ ['\n'],
           ("#: symlink ".data ++ path) ++ ['\n']] := by
        simp [record_lines, hsym, het, hef, hef2, intDec_nonneg _ hmt, intDec_nonneg _ hsz, List.append_assoc]
      have hb1 : "#: mtime ".data ++ (natDec fi.mtime.toNat ++ (" size ".data ++
          (natDec fi.size.toNat ++ (' ' :: ("target\\".data ++
            (' ' :: (needescape_filename target).2)))))) =
          '#' :: ':' :: (' ' :: ("mtime".data ++ (' ' ::
            (natDec fi.mtime.toNat ++ (' ' :: ("size".data ++ (' ' ::
              (natDec fi.size.toNat ++ (' ' :: ("target\\".data ++
                (' ' :: (needescape_filename target).2))))))))))) := by
        simp
      have hb2 : "#: symlink ".data ++ path =
          '#' :: ':' :: (' ' :: ("symlink".data ++ (' ' :: path))) := by
        simp
      have hp1 : parse_digestline b p
          (stripNL (("#: mtime ".data ++ (natDec fi.mtime.toNat ++ (" size ".data ++
              (natDec fi.size.toNat ++ (' ' :: ("target\\".data ++
                (' ' :: (needescape_filename target).2))))))) ++ ['\n'])) emptyFileInfo ps0 crc0 =
          .ret 0 (resetRec (path, fi)).2 ps0 := by
        rw [stripNL_append, hb1, parse_digestline_comment,
          parse_words_mtime_size b p crc0 _ _
            (' ' :: ("target\\".data ++ (' ' :: (needescape_filename target).2))) emptyFileInfo ps0 rfl rfl,
          parse_words_target_esc b p crc0 _ target _ ps0 (unescape_needescape target)]
        rw [hval]
      have hp2 : parse_digestline b p
          (stripNL (("#: symlink ".data ++ path) ++ ['\n']))
          ((resetRec (path, fi)).2) ps0 (crc32 crc0 (cstrBytes
            (("#: mtime ".data ++ (natDec fi.mtime.toNat ++ (" size ".data ++
                (natDec fi.size.toNat ++ (' ' :: ("target\\".data ++
                  (' ' :: (needescape_filename target).2))))))) ++ ['\n']))) =
          .ret 1 ((resetRec (path, fi)).2)
            { ps0 with
              filelist := rb_insert_str path (resetRec (path, fi)).2
                ps0.filelist } := by
        rw [stripNL_append, hb2, parse_digestline_comment, parse_words_symlink b p _ path _ ps0]
        rw [hfind]
        simp only [Option.isSome_none, Bool.false_eq_true, if_false]
      rw [hrl]
      simp only [List.cons_append, List.nil_append]
      rw [read_lines_cons_ret b p _ _ _ _ _ _ hp1]
      rw [read_lines_cons_ret b p _ _ _ _ _ _ hp2]
      simp [crcFoldLines]
  case neg =>
    by_cases hef : (needescape_filename path).1 = true
    case pos =>
      have het2 : (needescape_filename target).2 = target :=
        needescape_fst_false _ (by simpa using het)
      have hrl : record_lines (path, fi) =
          [("#: mtime ".data ++ (natDec fi.mtime.toNat ++ (" size ".data ++
            (natDec fi.size.toNat ++ (' ' :: ("target".data ++
              (' ' :: target))))))) ++ ['\n'],
           ("#: symlink\\ ".data ++ (needescape_filename path).2) ++ ['\n']] := by
        simp [record_lines, hsym, het, hef, het2, intDec_nonneg _ hmt, intDec_nonneg _ hsz, List.append_assoc]
      have hb1 : "#: mtime ".data ++ (natDec fi.mtime.toNat ++ (" size ".data ++
          (natDec fi.size.toNat ++ (' ' :: ("target".data ++
            (' ' :: target)))))) =
          '#' :: ':' :: (' ' :: ("mtime".data ++ (' ' ::
            (natDec fi.mtime.toNat ++ (' ' :: ("size".data ++ (' ' ::
              (natDec fi.size.toNat ++ (' ' :: ("target".data ++
                (' ' :: target))))))))))) := by
        simp
      have hb2 : "#: symlink\\ ".data ++ (needescape_filename path).2 =
          '#' :: ':' :: (' ' :: ("symlink\\".data ++ (' ' :: (needescape_filename path).2))) := by
        simp
      have hp1 : parse_digestline b p
          (stripNL (("#: mtime ".data ++ (natDec fi.mtime.toNat ++ (" size ".data ++
              (natDec fi.size.toNat ++ (' ' :: ("target".data ++
                (' ' :: target))))))) ++ ['\n'])) emptyFileInfo ps0 crc0 =
          .ret 0 (resetRec (path, fi)).2 ps0 := by
        rw [stripNL_append, hb1, parse_digestline_comment,
          parse_words_mtime_size b p crc0 _ _
            (' ' :: ("target".data ++ (' ' :: target))) emptyFileInfo ps0 rfl rfl,
          parse_words_target b p crc0 target _ ps0]
        rw [hval]
      have hp2 : parse_digestline b p
          (stripNL (("#: symlink\\ ".data ++ (needescape_filename path).2) ++ ['\n']))
          ((resetRec (path, fi)).2) ps0 (crc32 crc0 (cstrBytes
            (("#: mtime ".data ++ (natDec fi.mtime.toNat ++ (" size ".data ++
                (natDec fi.size.toNat ++ (' ' :: ("target".data ++
                  (' ' :: target))))))) ++ ['\n']))) =
          .ret 1 ((resetRec (path, fi)).2)
            { ps0 with
              filelist := rb_insert_str path (resetRec (path, fi)).2
                ps0.filelist } := by
        rw [stripNL_append, hb2, parse_digestline_comment, parse_words_symlink_esc b p _ _ path _ ps0 (unescape_needescape path)]
        rw [hfind]
        simp only [Option.isSome_none, Bool.false_eq_true, if_false]
      rw [hrl]
      simp only [List.cons_append, List.nil_append]
      rw [read_lines_cons_ret b p _ _ _ _ _ _ hp1]
      rw [read_lines_cons_ret b p _ _ _ _ _ _ hp2]
      simp [crcFoldLines]
    case neg =>
      have het2 : (needescape_filename target).2 = target :=
        needescape_fst_false _ (by simpa using het)
      have hef2 : (needescape_filename path).2 = path :=
        needescape_fst_false _ (by simpa using hef)
      have hrl : record_lines (path, fi) =
          [("#: mtime ".data ++ (natDec fi.mtime.toNat ++ (" size ".data ++
            (natDec fi.size.toNat ++ (' ' :: ("target".data ++
              (' ' :: target))))))) ++ ['\n'],
           ("#: symlink ".data ++ path) ++ ['\n']] := by
        simp [record_lines, hsym, het, hef, het2, hef2, intDec_nonneg _ hmt, intDec_nonneg _ hsz, List.append_assoc]
      have hb1 : "#: mtime ".data ++ (natDec fi.mtime.toNat ++ (" size ".data ++
          (natDec fi.size.toNat ++ (' ' :: ("target".data ++
            (' ' :: target)))))) =
          '#' :: ':' :: (' ' :: ("mtime".data ++ (' ' ::
            (natDec fi.mtime.toNat ++ (' ' :: ("size".data ++ (' ' ::
              (natDec fi.size.toNat ++ (' ' :: ("target".data ++
                (' ' :: target))))))))))) := by
        simp
      have hb2 : "#: symlink ".data ++ path =
          '#' :: ':' :: (' ' :: ("symlink".data ++ (' ' :: path))) := by
        simp
      have hp1 : parse_digestline b p
          (stripNL (("#: mtime ".data ++ (natDec fi.mtime.toNat ++ (" size ".data ++
              (natDec fi.size.toNat ++ (' ' :: ("target".data ++
                (' ' :: target))))))) ++ ['\n'])) emptyFileInfo ps0 crc0 =
          .ret 0 (resetRec (path, fi)).2 ps0 := by
        rw [stripNL_append, hb1, parse_digestline_comment,
          parse_words_mtime_size b p crc0 _ _
            (' ' :: ("target".data ++ (' ' :: target))) emptyFileInfo ps0 rfl rfl,
          parse_words_target b p crc0 target _ ps0]
        rw [hval]
      have hp2 : parse_digestline b p
          (stripNL (("#: symlink ".data ++ path) ++ ['\n']))
          ((resetRec (path, fi)).2) ps0 (crc32 crc0 (cstrBytes
            (("#: mtime ".data ++ (natDec fi.mtime.toNat ++ (" size ".data ++
                (natDec fi.size.toNat ++ (' ' :: ("target".data ++
                  (' ' :: target))))))) ++ ['\n']))) =
          .ret 1 ((resetRec (path, fi)).2)
            { ps0 with
              filelist := rb_insert_str path (resetRec (path, fi)).2
                ps0.filelist } := by
        rw [stripNL_append, hb2, parse_digestline_comment, parse_words_symlink b p _ path _ ps0]
        rw [hfind]
        simp only [Option.isSome_none, Bool.false_eq_true, if_false]
      rw [hrl]
      simp only [List.cons_append, List.nil_append]
      rw [read_lines_cons_ret b p _ _ _ _ _ _ hp1]
      rw [read_lines_cons_ret b p _ _ _ _ _ _ hp2]
      simp [crcFoldLines]

theorem crcFoldLines_append (c : Nat) (a b : List CStr) :
    crcFoldLines (crcFoldLines c a) b = crcFoldLines c (a ++ b) := by
  simp [crcFoldLines, List.foldl_append]

/-- The `# <progname> last update …` header comment is ignored. -/
theorem parse_digestline_header (b p : Bool) (hdr : CStr) (ti : FileInfo)
    (ps : ParseState) (crc : Nat) :
    parse_digestline b p ('#' :: (' ' :: hdr)) ti ps crc = .ret 0 ti ps := rfl

theorem read_lines_header (b p : Bool) (hdr : CStr) (rest : List CStr)
    (st : RdState) :
    read_lines b p (('#' :: (' ' :: (hdr ++ ['\n']))) :: rest) st =
      read_lines b p rest
        ⟨st.ps, st.ti,
         crc32 st.crc (cstrBytes ('#' :: (' ' :: (hdr ++ ['\n'])))), 0⟩ := by
  have hp : parse_digestline b p
      (stripNL ('#' :: (' ' :: (hdr ++ ['\n'])))) st.ti st.ps st.crc =
      .ret 0 st.ti st.ps := by
    rw [show ('#' :: (' ' :: (hdr ++ ['\n'])) : CStr) =
      ('#' :: (' ' :: hdr)) ++ ['\n'] from rfl, stripNL_append]
    exact parse_digestline_header b p hdr st.ti st.ps st.crc
  rw [read_lines_cons_ret b p _ _ _ _ _ _ hp]
  simp

/-- The `#: option --exclude-marker=M` line restores the marker. -/
theorem read_lines_option (b p : Bool) (m : CStr) (rest : List CStr)
    (st : RdState) :
    read_lines b p
      ((("#: option --exclude-marker=".data ++ m) ++ ['\n']) :: rest) st =
      read_lines b p rest
        ⟨{ st.ps with exclude_marker := some m }, st.ti,
         crc32 st.crc (cstrBytes
           (("#: option --exclude-marker=".data ++ m) ++ ['\n'])), 0⟩ := by
  have hp : parse_digestline b p
      (stripNL (("#: option --exclude-marker=".data ++ m) ++ ['\n']))
      st.ti st.ps st.crc =
      .ret 0 st.ti { st.ps with exclude_marker := some m } := by
    rw [stripNL_append]
    rw [show ("#: option --exclude-marker=".data ++ m : CStr) =
      '#' :: ':' :: (' ' :: ("option".data ++ (' ' ::
        ("--exclude-marker".data ++ ('=' :: m))))) from rfl]
    rw [parse_digestline_comment]
    exact parse_words_option b p st.crc m st.ti st.ps
  rw [read_lines_cons_ret b p _ _ _ _ _ _ hp]
  simp

/-- The trailer line: CRC stored with `my_asprintf("%08x")` compared
against the running CRC from before the trailer line. -/
theorem read_lines_trailer (b p : Bool) (c' : Nat) (rest : List CStr)
    (st : RdState) (hmatch : hex8 c' = hex8 st.crc) :
    read_lines b p
      (((("#: crc 0x".data ++ hex8 c') ++ " eof".data) ++ ['\n']) :: rest) st =
      read_lines b p rest
        ⟨st.ps, emptyFileInfo,
         crc32 st.crc (cstrBytes
           ((("#: crc 0x".data ++ hex8 c') ++ " eof".data) ++ ['\n'])),
         -2⟩ := by
  have hp : parse_digestline b p
      (stripNL ((("#: crc 0x".data ++ hex8 c') ++ " eof".data) ++ ['\n']))
      st.ti st.ps st.crc = .ret (-2) st.ti st.ps := by
    rw [stripNL_append]
    rw [show (("#: crc 0x".data ++ hex8 c') ++ " eof".data : CStr) =
      '#' :: ':' :: (' ' :: ("crc".data ++ (' ' :: ('0' :: ('x' ::
        (hex8 c' ++ (' ' :: "eof".data))))))) from rfl]
    rw [parse_digestline_comment, parse_words_crc_eof]
    rw [if_pos hmatch]
  rw [read_lines_cons_ret b p _ _ _ _ _ _ hp]
  simp

/-- Reading back the writable-record section of a written digest file:
every record is reconstructed in order with status UNSEEN; the digest
type ends as the file's (or stays unset over a pure-symlink table). -/
theorem read_lines_records (b p : Bool) (dt : DigestType) (t : Table)
    (rest : List CStr) (st : RdState)
    (hdt : dt ≠ .DT_NONE)
    (hwf : ∀ r ∈ t, wf_record dt r)
    (hpw : t.Pairwise (fun a b => cstr_lt a.1 b.1 = true))
    (hkeys : ∀ a ∈ st.ps.filelist, ∀ r ∈ t, cstr_lt a.1 r.1 = true)
    (hti : st.ti = emptyFileInfo)
    (hps : st.ps.digesttype = .DT_NONE ∨ st.ps.digesttype = dt) :
    ∃ dtf res₁,
      (read_lines b p (t.flatMap record_lines ++ rest) st =
        read_lines b p rest
          ⟨⟨st.ps.filelist ++ t.map resetRec, dtf, st.ps.exclude_marker⟩,
           emptyFileInfo, crcFoldLines st.crc (t.flatMap record_lines), res₁⟩)
      ∧ (dtf = st.ps.digesttype ∨ dtf = dt) := by
  induction t generalizing st with
  | nil =>
    refine ⟨st.ps.digesttype, st.res, ?_, Or.inl rfl⟩
    obtain ⟨⟨fl0, dt0, em0⟩, ti0, crc0, res0⟩ := st
    simp only at hti ⊢
    subst hti
    simp [crcFoldLines]
  | cons r t' ih =>
    obtain ⟨path, fi⟩ := r
    have hwfr := hwf (path, fi) (List.mem_cons_self _ _)
    obtain ⟨hmt, hsz, hwrit, hrest⟩ := hwfr
    have hfind : rb_find_str st.ps.filelist path = none :=
      rb_find_str_eq_none _ _ (fun a ha =>
        cstr_lt_ne (hkeys a ha (path, fi) (List.mem_cons_self _ _)))
    have hins : rb_insert_str path (resetRec (path, fi)).2 st.ps.filelist =
        st.ps.filelist ++ [resetRec (path, fi)] :=
      rb_insert_str_append _ _ _ (fun a ha =>
        cstr_lt_asymm _ _ (hkeys a ha (path, fi) (List.mem_cons_self _ _)))
    have hpw' := (List.pairwise_cons.mp hpw)
    rw [List.flatMap_cons, List.append_assoc]
    rcases hsym : fi.symlink with _ | target
    · simp only [hsym] at hrest
      obtain ⟨d, hd, hdlen, hdbytes⟩ := hrest
      rw [read_lines_record_file b p dt path fi d _ st hdt hmt hsz hsym hd
        hdlen hdbytes hti hps hfind]
      rw [hins]
      obtain ⟨dtf, res₁, heq, hdtf⟩ := ih
        ⟨⟨st.ps.filelist ++ [resetRec (path, fi)], dt, st.ps.exclude_marker⟩,
         emptyFileInfo, crcFoldLines st.crc (record_lines (path, fi)), 1⟩
        (fun x hx => hwf x (List.mem_cons_of_mem _ hx)) hpw'.2
        (by
          intro a ha r' hr'
          simp only at ha
          rcases List.mem_append.mp ha with h1 | h1
          · exact hkeys a h1 r' (List.mem_cons_of_mem _ hr')
          · rcases List.mem_singleton.mp h1 with rfl
            exact hpw'.1 r' hr') rfl
        (Or.inr rfl)
      refine ⟨dtf, res₁, ?_, ?_⟩
      · rw [heq]
        simp only [List.map_cons]
        rw [crcFoldLines_append, List.append_assoc]
        rfl
      · rcases hdtf with h | h
        · exact Or.inr h
        · exact Or.inr h
    · simp only [hsym] at hrest
      rw [read_lines_record_symlink b p path target fi _ st hmt hsz hsym
        hrest hti hfind]
      rw [hins]
      obtain ⟨dtf, res₁, heq, hdtf⟩ := ih
        ⟨⟨st.ps.filelist ++ [resetRec (path, fi)], st.ps.digesttype,
          st.ps.exclude_marker⟩,
         emptyFileInfo, crcFoldLines st.crc (record_lines (path, fi)), 1⟩
        (fun x hx => hwf x (List.mem_cons_of_mem _ hx)) hpw'.2
        (by
          intro a ha r' hr'
          simp only at ha
          rcases List.mem_append.mp ha with h1 | h1
          · exact hkeys a h1 r' (List.mem_cons_of_mem _ hr')
          · rcases List.mem_singleton.mp h1 with rfl
            exact hpw'.1 r' hr') rfl hps
      refine ⟨dtf, res₁, ?_, ?_⟩
      · rw [heq]
        simp only [List.map_cons]
        rw [crcFoldLines_append, List.append_assoc]
        rfl
      · exact hdtf

/-- Parsing a file produced by `cmd_write` from a serializable table:
the parse succeeds in every mode (the trailer CRC matches the running
CRC over the preceding lines), the records are reconstructed in order
with status UNSEEN, and the exclude-marker option is restored. -/
theorem read_cmd_write (b p : Bool) (hdr : CStr) (marker : Option CStr)
    (dt : DigestType) (t : Table) (hwf : wf_table dt t) :
    ∃ dtf,
      (read_lines b p (cmd_write_lines hdr marker t)
        (read_digestfile_init .DT_NONE none) =
        .ok ⟨⟨t.map resetRec, dtf, marker⟩, emptyFileInfo,
             crcFoldLines 0 (cmd_write_lines hdr marker t), -2⟩)
      ∧ (dtf = .DT_NONE ∨ dtf = dt) := by
  obtain ⟨hdt, hpw, hwfr⟩ := hwf
  have hfilter : t.filter (fun r => writable_status r.2.status) = t :=
    List.filter_eq_self.mpr (fun r hr => (hwfr r hr).2.2.1)
  rcases marker with _ | m
  · have hlines : cmd_write_lines hdr none t =
        ('#' :: (' ' :: (hdr ++ ['\n']))) :: (t.flatMap record_lines ++ [((("#: crc 0x".data ++ hex8 (crc32 0 (cstrBytes ((('#' :: (' ' :: (hdr ++ ['\n']))) :: t.flatMap record_lines)).flatten))) ++ " eof".data) ++ ['\n'])]) := by
      simp [cmd_write_lines, hfilter]
    rw [hlines, read_lines_header]
    obtain ⟨dtf, res₁, heq, hdtf⟩ := read_lines_records b p dt t [((("#: crc 0x".data ++ hex8 (crc32 0 (cstrBytes ((('#' :: (' ' :: (hdr ++ ['\n']))) :: t.flatMap record_lines)).flatten))) ++ " eof".data) ++ ['\n'])]
      ⟨(read_digestfile_init .DT_NONE none).ps, (read_digestfile_init .DT_NONE none).ti, crc32 (read_digestfile_init .DT_NONE none).crc (cstrBytes ('#' :: (' ' :: (hdr ++ ['\n'])))), 0⟩
      hdt hwfr hpw (by intro a ha; simp [read_digestfile_init] at ha) rfl
      (Or.inl rfl)
    rw [heq]
    rw [read_lines_trailer b p _ _ _ (by
      congr 1
      rw [show crcFoldLines (crc32 (read_digestfile_init .DT_NONE none).crc (cstrBytes ('#' :: (' ' :: (hdr ++ ['\n'])))))
          (t.flatMap record_lines) =
        crcFoldLines (crcFoldLines 0 [('#' :: (' ' :: (hdr ++ ['\n'])))]) (t.flatMap record_lines)
        from rfl]
      rw [crcFoldLines_append, crcFoldLines_eq]
      rfl)]
    rw [read_lines]
    refine ⟨dtf, ?_, hdtf⟩
    simp [read_digestfile_init, crcFoldLines, List.foldl_append]
  · have hlines : cmd_write_lines hdr (some m) t =
        ('#' :: (' ' :: (hdr ++ ['\n']))) :: ((("#: option --exclude-marker=".data ++ m) ++ ['\n']) :: (t.flatMap record_lines ++ [((("#: crc 0x".data ++ hex8 (crc32 0 (cstrBytes ((('#' :: (' ' :: (hdr ++ ['\n']))) :: ((("#: option --exclude-marker=".data ++ m) ++ ['\n']) :: t.flatMap record_lines))).flatten))) ++ " eof".data) ++ ['\n'])])) := by
      simp [cmd_write_lines, hfilter]
    rw [hlines, read_lines_header, read_lines_option]
    obtain ⟨dtf, res₁, heq, hdtf⟩ := read_lines_records b p dt t [((("#: crc 0x".data ++ hex8 (crc32 0 (cstrBytes ((('#' :: (' ' :: (hdr ++ ['\n']))) :: ((("#: option --exclude-marker=".data ++ m) ++ ['\n']) :: t.flatMap record_lines))).flatten))) ++ " eof".data) ++ ['\n'])]
      ⟨{ (⟨(read_digestfile_init .DT_NONE none).ps, (read_digestfile_init .DT_NONE none).ti, crc32 (read_digestfile_init .DT_NONE none).crc (cstrBytes ('#' :: (' ' :: (hdr ++ ['\n'])))), 0⟩ : RdState).ps with exclude_marker := some m }, (⟨(read_digestfile_init .DT_NONE none).ps, (read_digestfile_init .DT_NONE none).ti, crc32 (read_digestfile_init .DT_NONE none).crc (cstrBytes ('#' :: (' ' :: (hdr ++ ['\n'])))), 0⟩ : RdState).ti, crc32 (⟨(read_digestfile_init .DT_NONE none).ps, (read_digestfile_init .DT_NONE none).ti, crc32 (read_digestfile_init .DT_NONE none).crc (cstrBytes ('#' :: (' ' :: (hdr ++ ['\n'])))), 0⟩ : RdState).crc (cstrBytes (("#: option --exclude-marker=".data ++ m) ++ ['\n'])), 0⟩
      hdt hwfr hpw (by intro a ha; simp [read_digestfile_init] at ha) rfl
      (Or.inl rfl)
    rw [heq]
    rw [read_lines_trailer b p _ _ _ (by
      congr 1
      rw [show crcFoldLines (crc32 (⟨(read_digestfile_init .DT_NONE none).ps, (read_digestfile_init .DT_NONE none).ti, crc32 (read_digestfile_init .DT_NONE none).crc (cstrBytes ('#' :: (' ' :: (hdr ++ ['\n'])))), 0⟩ : RdState).crc (cstrBytes (("#: option --exclude-marker=".data ++ m) ++ ['\n'])))
          (t.flatMap record_lines) =
        crcFoldLines (crcFoldLines 0 [('#' :: (' ' :: (hdr ++ ['\n']))), (("#: option --exclude-marker=".data ++ m) ++ ['\n'])]) (t.flatMap record_lines)
        from rfl]
      rw [crcFoldLines_append, crcFoldLines_eq]
      rfl)]
    rw [read_lines]
    refine ⟨dtf, ?_, hdtf⟩
    simp [read_digestfile_init, crcFoldLines, List.foldl_append]

/-- C6: reading back a digest file written by `cmd_write` succeeds in
every mode with the trailer CRC verified (the compared CRC is the
running CRC over all preceding lines, excluding the trailer itself,
threaded by `read_lines`), reconstructing exactly the written records in
order — same path, mtime, size, digest and symlink target — but with
every status reset to UNSEEN; the round trip is therefore NOT byte-exact
on the file: writing the freshly parsed (all-UNSEEN) table emits a file
with no record lines, identical to serializing an empty table. -/
theorem claim_C6 (b p : Bool) (hdr hdr' : CStr) (marker : Option CStr)
    (dt : DigestType) (t : Table) (hwf : wf_table dt t) :
    ∃ dtf,
      (dtf = .DT_NONE ∨ dtf = dt)
      ∧ read_lines b p (cmd_write_lines hdr marker t)
          (read_digestfile_init .DT_NONE none) =
        .ok ⟨⟨t.map resetRec, dtf, marker⟩, emptyFileInfo,
             crcFoldLines 0 (cmd_write_lines hdr marker t), -2⟩
      ∧ cmd_write_lines hdr' marker (t.map resetRec) =
          cmd_write_lines hdr' marker [] := by
  obtain ⟨dtf, heq, hdtf⟩ := read_cmd_write b p hdr marker dt t hwf
  refine ⟨dtf, hdtf, heq, ?_⟩
  have hf : (t.map resetRec).filter (fun r => writable_status r.2.status) =
      ([] : Table) := by
    rw [List.filter_eq_nil_iff]
    intro r hr
    rcases List.mem_map.mp hr with ⟨r0, _, rfl⟩
    simp [show writable_status ((resetRec r0).2.status) = false from rfl]
  simp only [cmd_write_lines, hf, List.filter_nil]

/-- Counterexample to C6 as stated: for a valid digest file holding one
SEEN md5 record, parse followed by serialize does not reproduce the
records — the reserialized file has no record lines at all (statuses
come back UNSEEN and `cmd_write` skips UNSEEN records). -/
theorem claim_C6_counterexample :
    ∃ st, read_lines true false
        (cmd_write_lines "x".data none
          [("a".data, ⟨.FS_SEEN, 1, 2, none, some (List.replicate 16 0),
            none, none⟩)])
        (read_digestfile_init .DT_NONE none) = .ok st
      ∧ cmd_write_lines "x".data none st.ps.filelist ≠
          cmd_write_lines "x".data none
            [("a".data, ⟨.FS_SEEN, 1, 2, none, some (List.replicate 16 0),
              none, none⟩)] := by
  have hwf : wf_table .DT_MD5
      [("a".data, ⟨.FS_SEEN, 1, 2, none, some (List.replicate 16 0),
        none, none⟩)] := by
    refine ⟨by decide, List.pairwise_singleton _ _, ?_⟩
    intro r hr
    rcases List.mem_singleton.mp hr with rfl
    exact ⟨by decide, by decide, by decide,
      ⟨List.replicate 16 0, rfl, by decide, by decide⟩⟩
  obtain ⟨dtf, heq, hdtf⟩ := read_cmd_write true false "x".data none
    .DT_MD5 _ hwf
  refine ⟨_, heq, ?_⟩
  intro hcontra
  dsimp only at hcontra
  exact absurd (congrArg List.length hcontra) (by decide)

/-- Witness for C6 at a one-record table. -/
theorem claim_C6_witness :
    ∃ dtf,
      (dtf = .DT_NONE ∨ dtf = DigestType.DT_MD5)
      ∧ read_lines true false
          (cmd_write_lines "x".data none
            [("a".data, ⟨.FS_SEEN, 1, 2, none, some (List.replicate 16 0),
              none, none⟩)])
          (read_digestfile_init .DT_NONE none) =
        .ok ⟨⟨[("a".data, ⟨.FS_SEEN, 1, 2, none,
              some (List.replicate 16 0), none, none⟩)].map resetRec, dtf,
              none⟩,
             emptyFileInfo,
             crcFoldLines 0 (cmd_write_lines "x".data none
               [("a".data, ⟨.FS_SEEN, 1, 2, none,
                 some (List.replicate 16 0), none, none⟩)]), -2⟩
      ∧ cmd_write_lines "y".data none
          ([("a".data, ⟨.FS_SEEN, 1, 2, none, some (List.replicate 16 0),
            none, none⟩)].map resetRec) =
          cmd_write_lines "y".data none [] :=
  claim_C6 true false "x".data "y".data none .DT_MD5 _
    ⟨by decide, List.pairwise_singleton _ _, fun r hr => by
      rcases List.mem_singleton.mp hr with rfl
      exact ⟨by decide, by decide, by decide,
        ⟨List.replicate 16 0, rfl, by decide, by decide⟩⟩⟩

theorem d_ne_nil (dt : DigestType) (d : Digest) (hdt : dt ≠ .DT_NONE)
    (hlen : d.length = dt_size dt) : d ≠ [] := by
  intro hnil
  rw [hnil] at hlen
  cases dt
  · exact hdt rfl
  all_goals simp [dt_size] at hlen

/-- A line that is the hex of a digest followed by two spaces and a name
is dispatched to the record parser. -/
theorem digest_line_dispatch (b p : Bool) (d : Digest) (name : CStr)
    (ti : FileInfo) (ps : ParseState) (crc : Nat) (hdne : d ≠ []) :
    parse_digestline b p (digest_bin2hex d ++ (' ' :: (' ' :: name)))
      ti ps crc =
      parse_recordline (digest_bin2hex d ++ (' ' :: (' ' :: name))) ti ps := by
  obtain ⟨v, trest, hbh, hvlt⟩ := bin2hex_head d hdne
  apply parse_digestline_nonhash
  · rw [hbh, List.cons_append]
    exact (hexDigit_ne v hvlt).2.2
  · rw [hbh, List.cons_append]
    simp only [List.head?_cons, ne_eq, Option.some.injEq]
    exact (hexDigit_ne v hvlt).2.1

/-- C4: what actually happens on the two "fatal" parse situations named
by the spec.  (1)-(2) A duplicate path at record commit is NOT fatal:
`parse_digestline` returns −1, the record table is left unchanged, the
temporary record is cleared and the `getline` loop continues with the
remaining lines.  (3) Two digest lines selecting different algorithms
terminate via `exit(0)` — exit code ZERO, before any write.  (4) Only
the trailer-CRC mismatch in batch mode terminates non-zero
(`exit(-1)`). -/
theorem claim_C4 :
    (∀ (dt : DigestType) (d : Digest) (name : CStr) (ti : FileInfo)
       (ps : ParseState),
       dt ≠ .DT_NONE → d.length = dt_size dt → (∀ x ∈ d, x < 256) →
       (ps.digesttype = .DT_NONE ∨ ps.digesttype = dt) →
       (rb_find_str ps.filelist name).isSome = true →
       parse_recordline (digest_bin2hex d ++ (' ' :: (' ' :: name))) ti ps =
         .ret (-1) ti ps)
    ∧ (∀ (b p : Bool) (dt : DigestType) (d : Digest) (name : CStr)
         (rest : List CStr) (st : RdState),
       dt ≠ .DT_NONE → d.length = dt_size dt → (∀ x ∈ d, x < 256) →
       (st.ps.digesttype = .DT_NONE ∨ st.ps.digesttype = dt) →
       (rb_find_str st.ps.filelist name).isSome = true →
       read_lines b p
         (((digest_bin2hex d ++ (' ' :: (' ' :: name))) ++ ['\n']) :: rest)
           st =
         read_lines b p rest
           ⟨st.ps, emptyFileInfo,
            crc32 st.crc (cstrBytes
              ((digest_bin2hex d ++ (' ' :: (' ' :: name))) ++ ['\n'])),
            -1⟩)
    ∧ (∀ (b p : Bool) (dt : DigestType) (d : Digest) (name : CStr)
         (rest : List CStr) (st : RdState),
       dt ≠ .DT_NONE → d.length = dt_size dt → (∀ x ∈ d, x < 256) →
       st.ps.digesttype ≠ .DT_NONE → dt ≠ st.ps.digesttype →
       read_lines b p
         (((digest_bin2hex d ++ (' ' :: (' ' :: name))) ++ ['\n']) :: rest)
           st = .error 0)
    ∧ (∀ (p : Bool) (c' : Nat) (rest : List CStr) (st : RdState),
       hex8 c' ≠ hex8 st.crc →
       read_lines true p
         (((("#: crc 0x".data ++ hex8 c') ++ " eof".data) ++ ['\n']) :: rest)
           st = .error (-1)) := by
  refine ⟨?_, ?_, ?_, ?_⟩
  · intro dt d name ti ps hdt hlen hb hps hdup
    rw [parse_recordline_file dt d name ti ps hdt hlen hb hps, if_pos hdup]
  · intro b p dt d name rest st hdt hlen hb hps hdup
    have hp : parse_digestline b p
        (stripNL ((digest_bin2hex d ++ (' ' :: (' ' :: name))) ++ ['\n']))
        st.ti st.ps st.crc = .ret (-1) st.ti st.ps := by
      rw [stripNL_append,
        digest_line_dispatch b p d name _ _ _ (d_ne_nil dt d hdt hlen),
        parse_recordline_file dt d name _ _ hdt hlen hb hps, if_pos hdup]
    rw [read_lines_cons_ret b p _ _ _ _ _ _ hp]
    simp
  · intro b p dt d name rest st hdt hlen hb hmix1 hmix2
    have hp : parse_digestline b p
        (stripNL ((digest_bin2hex d ++ (' ' :: (' ' :: name))) ++ ['\n']))
        st.ti st.ps st.crc = .exited 0 := by
      rw [stripNL_append,
        digest_line_dispatch b p d name _ _ _ (d_ne_nil dt d hdt hlen),
        parse_recordline_mix dt d name _ _ hdt hlen hb hmix1 hmix2]
    exact read_lines_cons_exit _ _ _ _ _ _ hp
  · intro p c' rest st hne
    have hp : parse_digestline true p
        (stripNL ((("#: crc 0x".data ++ hex8 c') ++ " eof".data) ++ ['\n']))
        st.ti st.ps st.crc = .exited (-1) := by
      rw [stripNL_append]
      rw [show (("#: crc 0x".data ++ hex8 c') ++ " eof".data : CStr) =
        '#' :: ':' :: (' ' :: ("crc".data ++ (' ' :: ('0' :: ('x' ::
          (hex8 c' ++ (' ' :: "eof".data))))))) from rfl]
      rw [parse_digestline_comment, parse_words_crc_eof, if_neg hne,
        if_pos rfl]
    exact read_lines_cons_exit _ _ _ _ _ _ hp

/-- Counterexample to C4 as stated: a digest file with the same path on
two digest lines parses to completion — `read_lines` returns
successfully (no abort, no exit), with the duplicate line dropped and
one record in the table. -/
theorem claim_C4_counterexample :
    ∃ st, read_lines true false
        ["d41d8cd98f00b204e9800998ecf8427e  a\n".data,
         "d41d8cd98f00b204e9800998ecf8427e  a\n".data]
        (read_digestfile_init .DT_NONE none) = .ok st
      ∧ st.res = -1 ∧ st.ps.filelist.map Prod.fst = ["a".data] := by
  refine ⟨_, rfl, by decide, by decide⟩

/-- Witness for C4 at concrete inputs: duplicate commit returns −1 with
the state unchanged, and a mixed-type line exits 0. -/
theorem claim_C4_witness :
    parse_recordline
      (digest_bin2hex (List.replicate 16 0) ++ (' ' :: (' ' :: "a".data)))
      emptyFileInfo ⟨[("a".data, emptyFileInfo)], .DT_MD5, none⟩ =
      .ret (-1) emptyFileInfo ⟨[("a".data, emptyFileInfo)], .DT_MD5, none⟩
    ∧ read_lines true false
        [((digest_bin2hex (List.replicate 20 0) ++ (' ' :: (' ' :: "b".data)))
          ++ ['\n'])]
        ⟨⟨[], .DT_MD5, none⟩, emptyFileInfo, 0, 0⟩ = .error 0 :=
  ⟨claim_C4.1 .DT_MD5 (List.replicate 16 0) "a".data emptyFileInfo
    ⟨[("a".data, emptyFileInfo)], .DT_MD5, none⟩
    (by decide) (by decide) (by decide) (Or.inr rfl) (by decide),
   claim_C4.2.2.1 true false .DT_SHA1 (List.replicate 20 0) "b".data []
    ⟨⟨[], .DT_MD5, none⟩, emptyFileInfo, 0, 0⟩
    (by decide) (by decide) (by decide) (by decide) (by decide)⟩

/-- The C8 invariant: no record carries both a digest and a symlink
target. -/
def excl_ok (t : Table) : Prop :=
  ∀ r ∈ t, r.2.digest = none ∨ r.2.symlink = none

theorem mem_updateRec (k : CStr) (w : FileInfo) (t : Table)
    (r : CStr × FileInfo) (hr : r ∈ updateRec k w t) :
    r.2 = w ∨ r ∈ t := by
  induction t with
  | nil => simp [updateRec] at hr
  | cons x t' ih =>
    obtain ⟨k', v'⟩ := x
    unfold updateRec at hr
    by_cases hk : k' == k
    · rw [if_pos hk] at hr
      rcases List.mem_cons.mp hr with rfl | h1
      · exact Or.inl rfl
      · exact Or.inr (List.mem_cons_of_mem _ h1)
    · rw [if_neg hk] at hr
      rcases List.mem_cons.mp hr with rfl | h1
      · exact Or.inr (List.mem_cons_self _ _)
      · rcases ih h1 with h2 | h2
        · exact Or.inl h2
        · exact Or.inr (List.mem_cons_of_mem _ h2)

theorem mem_rb_insert_str (k : CStr) (v : FileInfo) (t : Table)
    (r : CStr × FileInfo) (hr : r ∈ rb_insert_str k v t) :
    r = (k, v) ∨ r ∈ t := by
  induction t with
  | nil =>
    unfold rb_insert_str at hr
    exact Or.inl (List.mem_singleton.mp hr)
  | cons x t' ih =>
    obtain ⟨k', v'⟩ := x
    unfold rb_insert_str at hr
    by_cases hk : cstr_lt k k'
    · rw [if_pos hk] at hr
      rcases List.mem_cons.mp hr with rfl | h1
      · exact Or.inl rfl
      · exact Or.inr h1
    · rw [if_neg hk] at hr
      rcases List.mem_cons.mp hr with rfl | h1
      · exact Or.inr (List.mem_cons_self _ _)
      · rcases ih h1 with h2 | h2
        · exact Or.inl h2
        · exact Or.inr (List.mem_cons_of_mem _ h2)

theorem rb_find_str_mem (t : Table) (k : CStr) (fi : FileInfo)
    (h : rb_find_str t k = some fi) : ∃ k', (k', fi) ∈ t := by
  unfold rb_find_str at h
  cases hf : t.find? (fun r => r.1 == k) with
  | none => rw [hf] at h; exact absurd h (by simp)
  | some r0 =>
    rw [hf] at h
    injection h with h2
    refine ⟨r0.1, ?_⟩
    rw [← h2]
    exact List.mem_of_find?_eq_some hf

theorem excl_update (t : Table) (k : CStr) (w : FileInfo)
    (hexcl : excl_ok t) (hw : w.digest = none ∨ w.symlink = none) :
    excl_ok (updateRec k w t) := by
  intro r hr
  rcases mem_updateRec k w t r hr with h1 | h1
  · rw [h1]; exact hw
  · exact hexcl r h1

theorem excl_insert (t : Table) (k : CStr) (v : FileInfo)
    (hexcl : excl_ok t) (hv : v.digest = none ∨ v.symlink = none) :
    excl_ok (rb_insert_str k v t) := by
  intro r hr
  rcases mem_rb_insert_str k v t r hr with rfl | h1
  · exact hv
  · exact hexcl r h1

theorem excl_mark_oldpath (s : ScanState) (c : CStr)
    (hexcl : excl_ok s.filelist) : excl_ok (mark_oldpath s c).filelist := by
  unfold mark_oldpath
  cases hf : rb_find_str s.filelist c with
  | none => exact hexcl
  | some fc =>
    dsimp only
    obtain ⟨k', hmem⟩ := rb_find_str_mem _ _ _ hf
    have hfc := hexcl (k', fc) hmem
    by_cases hst : fc.status = .FS_UNSEEN
    · rw [if_pos hst]
      exact excl_update _ _ _ hexcl hfc
    · rw [if_neg hst]
      exact hexcl

theorem excl_foldl_mark (l : List CStr) (s : ScanState)
    (hexcl : excl_ok s.filelist) :
    excl_ok ((l.foldl mark_oldpath s).filelist) := by
  induction l generalizing s with
  | nil => exact hexcl
  | cons c l' ih => exact ih _ (excl_mark_oldpath s c hexcl)

theorem excl_process_file (opts : Opts) (st : Stat)
    (digRes : Except CStr Digest) (accessOk : CStr → Bool)
    (s : ScanState) (fp : CStr)
    (hexcl : excl_ok s.filelist)
    (hkind : ∀ fi, rb_find_str s.filelist (canon_path fp) = some fi →
      fi.symlink = none) :
    excl_ok (process_file opts st digRes accessOk s fp).1.filelist := by
  simp only [process_file]
  split
  · exact hexcl
  split
  · exact hexcl
  split
  · rename_i fi hfind
    have hsyml := hkind fi hfind
    obtain ⟨k', hmem⟩ := rb_find_str_mem _ _ _ hfind
    have hfi := hexcl (k', fi) hmem
    split
    · exact hexcl
    split
    · exact excl_update _ _ _ hexcl (by simp [hfi, hsyml])
    split
    · exact excl_update _ _ _ hexcl (by simp [hfi, hsyml])
    · split
      · exact excl_update _ _ _ hexcl (by simp [hfi, hsyml])
      · exact excl_update _ _ _ hexcl (Or.inr (by simp [hsyml]))
  · rename_i hfind
    split
    · exact excl_insert _ _ _ hexcl (Or.inl rfl)
    rename_i dg
    split
    · exact excl_insert _ _ _ hexcl (Or.inr rfl)
    rename_i c0 crest hrun
    rw [scan_candidates_eq]
    have hexcl1 : excl_ok
        ((((c0 :: crest).filter (fun c => ! accessOk c)).foldl
          mark_oldpath s).filelist) :=
      excl_foldl_mark _ s hexcl
    exact excl_insert _ _ _ hexcl1 (Or.inr rfl)

theorem excl_process_symlink (opts : Opts) (st : Stat)
    (linkRes : Option CStr) (s : ScanState) (fp : CStr)
    (hexcl : excl_ok s.filelist)
    (hkind : ∀ fi, rb_find_str s.filelist (canon_path fp) = some fi →
      fi.digest = none) :
    excl_ok (process_symlink opts st linkRes s fp).1.filelist := by
  simp only [process_symlink]
  split
  · exact hexcl
  split
  · exact hexcl
  split
  · rename_i fi hfind
    have hdig := hkind fi hfind
    obtain ⟨k', hmem⟩ := rb_find_str_mem _ _ _ hfind
    have hfi := hexcl (k', fi) hmem
    split
    · exact hexcl
    split
    · exact excl_update _ _ _ hexcl (by simp [hfi, hdig])
    split
    · exact excl_update _ _ _ hexcl (by simp [hfi, hdig])
    · split
      · exact excl_update _ _ _ hexcl (by simp [hfi, hdig])
      · exact excl_update _ _ _ hexcl (Or.inl (by simp [hdig]))
  · split
    · exact excl_insert _ _ _ hexcl (Or.inl rfl)
    · exact excl_insert _ _ _ hexcl (Or.inl rfl)

/-- C8: where the digest/symlink exclusivity invariant actually holds.
The parser does NOT enforce it on arbitrary input (see the
counterexample), but (1) any table read back from a file the serializer
wrote satisfies it, and (2)-(3) the reconciler preserves it at each
step, provided the pre-existing record at the processed path is of the
matching kind (a symlink-free record for `process_file`, a digest-free
record for `process_symlink`) — the cross-kind transitions CHANGED both
fields and are exactly the unprotected spots. -/
theorem claim_C8 :
    (∀ (b p : Bool) (hdr : CStr) (marker : Option CStr) (dt : DigestType)
       (t : Table) (st : RdState), wf_table dt t →
       read_lines b p (cmd_write_lines hdr marker t)
         (read_digestfile_init .DT_NONE none) = .ok st →
       excl_ok st.ps.filelist)
    ∧ (∀ (opts : Opts) (st : Stat) (digRes : Except CStr Digest)
         (accessOk : CStr → Bool) (s : ScanState) (fp : CStr),
       excl_ok s.filelist →
       (∀ fi, rb_find_str s.filelist (canon_path fp) = some fi →
         fi.symlink = none) →
       excl_ok (process_file opts st digRes accessOk s fp).1.filelist)
    ∧ (∀ (opts : Opts) (st : Stat) (linkRes : Option CStr)
         (s : ScanState) (fp : CStr),
       excl_ok s.filelist →
       (∀ fi, rb_find_str s.filelist (canon_path fp) = some fi →
         fi.digest = none) →
       excl_ok (process_symlink opts st linkRes s fp).1.filelist) := by
  refine ⟨?_, excl_process_file, excl_process_symlink⟩
  intro b p hdr marker dt t st hwf hok
  obtain ⟨dtf, heq, _⟩ := read_cmd_write b p hdr marker dt t hwf
  rw [heq] at hok
  injection hok with hok
  rw [← hok]
  intro r hr
  simp only at hr
  rcases List.mem_map.mp hr with ⟨r0, hr0, rfl⟩
  have hwfr := hwf.2.2 r0 hr0
  rcases hs : r0.2.symlink with _ | tgt
  · exact Or.inr (by simp [resetRec, hs])
  · rw [wf_record, hs] at hwfr
    exact Or.inl (by simp [resetRec, hwfr.2.2.2])

/-- Counterexample to C8 as stated: a stray `#: target T` comment before
an ordinary digest line leaves the target in the temporary record, so
the committed record carries both a digest and a symlink target. -/
theorem claim_C8_counterexample :
    ∃ st fi, read_lines true false
        ["#: target f\n".data,
         "d41d8cd98f00b204e9800998ecf8427e  g\n".data]
        (read_digestfile_init .DT_NONE none) = .ok st
      ∧ rb_find_str st.ps.filelist "g".data = some fi
      ∧ fi.digest.isSome = true ∧ fi.symlink.isSome = true := by
  have hp1 : parse_digestline true false (stripNL "#: target f\n".data)
      emptyFileInfo ⟨[], .DT_NONE, none⟩ 0 =
      .ret 0 { emptyFileInfo with symlink := some "f".data }
        ⟨[], .DT_NONE, none⟩ := by
    rw [show ("#: target f\n".data : CStr) =
      ("#: target f".data) ++ ['\n'] from rfl, stripNL_append]
    rw [show ("#: target f".data : CStr) =
      '#' :: ':' :: (' ' :: ("target".data ++ (' ' :: "f".data))) from rfl]
    rw [parse_digestline_comment]
    exact parse_words_target true false 0 "f".data emptyFileInfo
      ⟨[], .DT_NONE, none⟩
  have hrun : read_lines true false
      ["#: target f\n".data,
       "d41d8cd98f00b204e9800998ecf8427e  g\n".data]
      (read_digestfile_init .DT_NONE none) =
      .ok ⟨⟨[("g".data, ⟨.FS_UNSEEN, 0, 0, none,
          some [212, 29, 140, 217, 143, 0, 178, 4, 233, 128, 9, 152, 236,
            248, 66, 126], some "f".data, none⟩)], .DT_MD5, none⟩,
        emptyFileInfo, 252025591, 1⟩ := by
    rw [read_lines_cons_ret true false _ _
      (read_digestfile_init .DT_NONE none) _ _ _ hp1]
    rfl
  exact ⟨_, _, hrun, rfl, rfl, rfl⟩

/-- Witness for C8's preservation conjuncts at concrete scan states. -/
theorem claim_C8_witness :
    excl_ok (process_file ⟨"x".data, none, false, 0⟩ ⟨5, 7⟩ (.ok [1])
      (fun _ => true)
      ⟨[("a".data, emptyFileInfo)], [], 0, 0, 0, 0, 0, 0, 0, 0, 0⟩
      "n".data).1.filelist
    ∧ excl_ok (process_symlink ⟨"x".data, none, false, 0⟩ ⟨5, 7⟩
      (some "t".data)
      ⟨[("a".data, emptyFileInfo)], [], 0, 0, 0, 0, 0, 0, 0, 0, 0⟩
      "n".data).1.filelist :=
  ⟨claim_C8.2.1 ⟨"x".data, none, false, 0⟩ ⟨5, 7⟩ (.ok [1])
      (fun _ => true)
      ⟨[("a".data, emptyFileInfo)], [], 0, 0, 0, 0, 0, 0, 0, 0, 0⟩
      "n".data
      (by
        intro r hr
        rcases List.mem_singleton.mp hr with rfl
        exact Or.inl rfl)
      (by
        intro fi h
        simp [rb_find_str, canon_path] at h),
   claim_C8.2.2 ⟨"x".data, none, false, 0⟩ ⟨5, 7⟩ (some "t".data)
      ⟨[("a".data, emptyFileInfo)], [], 0, 0, 0, 0, 0, 0, 0, 0, 0⟩
      "n".data
      (by
        intro r hr
        rcases List.mem_singleton.mp hr with rfl
        exact Or.inl rfl)
      (by
        intro fi h
        simp [rb_find_str, canon_path] at h)⟩
end Digup
